import Mathlib

/-!
# CvCapture_Android: the frame hand-off between camera callback and grab/retrieve

A shallow embedding of `src/native/src/impl/cap_android.cpp`.

Conventions of the embedding.

* C++ `int` values are mathematical integers (`Int`).  Signed overflow is undefined
  behaviour in C++, so every defined execution agrees with the unbounded reading.
  `x >> 1` is `x >>> 1` (arithmetic shift, rounding down) and `x / 2` on `int` is
  `Int.tdiv x 2` (rounding towards zero); `x % 2` is `Int.tmod x 2`.
* The `double` property values of `setProperty` are exact integers in the model (pixel
  counts and the 0/1 auto-grab toggle); `propValue != 0` is read on them.
* A pointer to a raw frame is an `Option Buffer`: `none` is the null pointer, and a
  `Buffer` carries the address handed out by `new[]` together with the bytes stored there.
  `heapTop` is the allocator of the model: `new[]` returns an address that no live
  buffer has.  The contents of a fresh array are indeterminate in C++; the model fills
  them with zeros, and the statements about a replaced buffer give its handle and its
  length only.
* Executions that leave defined C++ (null dereference, `memcpy` outside an array, a
  negative array length) end in `undefined`; a `cv::Exception` thrown by `CV_Error` or
  `CV_Assert` ends in `raised` and keeps the state reached at the throw.
* `pthread_cond_wait` is the only suspension point.  `grabFrame` is therefore split at
  it: `grabFrameBegin` runs from the lock to the wait, `grabFrameResume` from the wake-up
  to the return.  Between the two the mutex is released and the producer may run
  `onFrameBuffer` any number of times; a wake-up with no delivery at all is a spurious
  wake-up, which POSIX allows.  `pthread_mutex_unlock` is taken to succeed.
-/

namespace CapAndroid

/-! ## Data model -/

/-- Raw frame storage: the address returned by the allocator and the bytes held there. -/
structure Buffer where
  addr : Nat
  bytes : List Nat
deriving DecidableEq, Repr

/-- The enum `YUVformat` of the class. -/
inductive YUVformat where
  | noformat
  | yuv420sp
  | yuv420i
  | yuvUnknown
deriving DecidableEq, Repr

/-- The enum `CvCapture_Android_DataState` of the class. -/
inductive CvCapture_Android_DataState where
  | CVCAPTURE_ANDROID_STATE_NO_FRAME
  | CVCAPTURE_ANDROID_STATE_HAS_NEW_FRAME_UNGRABBED
  | CVCAPTURE_ANDROID_STATE_HAS_FRAME_GRABBED
deriving DecidableEq, Repr

export CvCapture_Android_DataState (CVCAPTURE_ANDROID_STATE_NO_FRAME
  CVCAPTURE_ANDROID_STATE_HAS_NEW_FRAME_UNGRABBED CVCAPTURE_ANDROID_STATE_HAS_FRAME_GRABBED)

/-- The `outputType` argument of `retrieveFrame`: the five constants the switch names, and
every other integer.  The numeric values live in a header outside the source tree; the
switch only distinguishes the named cases from the rest. -/
inductive OutputType where
  | CV_CAP_ANDROID_GREY_FRAME
  | CV_CAP_ANDROID_COLOR_FRAME_BGR
  | CV_CAP_ANDROID_COLOR_FRAME_RGB
  | CV_CAP_ANDROID_COLOR_FRAME_BGRA
  | CV_CAP_ANDROID_COLOR_FRAME_RGBA
  | unsupported (value : Int)
deriving DecidableEq, Repr

export OutputType (CV_CAP_ANDROID_GREY_FRAME CV_CAP_ANDROID_COLOR_FRAME_BGR
  CV_CAP_ANDROID_COLOR_FRAME_RGB CV_CAP_ANDROID_COLOR_FRAME_BGRA
  CV_CAP_ANDROID_COLOR_FRAME_RGBA)

/-- The `propIdx` argument of `getProperty` and `setProperty`: the constants the switches
name, and every other integer. -/
inductive PropIdx where
  | CV_CAP_PROP_FRAME_WIDTH
  | CV_CAP_PROP_FRAME_HEIGHT
  | CV_CAP_PROP_AUTOGRAB
  | CV_CAP_PROP_SUPPORTED_PREVIEW_SIZES_STRING
  | CV_CAP_PROP_PREVIEW_FORMAT
  | unsupported (value : Int)
deriving DecidableEq, Repr

export PropIdx (CV_CAP_PROP_FRAME_WIDTH CV_CAP_PROP_FRAME_HEIGHT CV_CAP_PROP_AUTOGRAB
  CV_CAP_PROP_SUPPORTED_PREVIEW_SIZES_STRING CV_CAP_PROP_PREVIEW_FORMAT)

/-- The conversion codes handed to `cv::cvtColor`. -/
inductive ColorCode where
  | CV_YUV420sp2RGB
  | CV_YUV420sp2BGR
  | CV_YUV420i2RGB
  | CV_YUV420i2BGR
deriving DecidableEq, Repr

/-- Where the pixels of a `cv::Mat` live. -/
inductive MatData where
  | null
  | user (addr : Nat)
  | converted (code : ColorCode) (dcn : Int) (src : List Nat)
deriving DecidableEq, Repr

/-- A `cv::Mat` of depth `CV_8U`: geometry, channel count and pixel storage.  `user addr`
is a header over memory the matrix does not own (no copy); `converted code dcn src` is the
matrix `cv::cvtColor` produces from the bytes `src`. -/
structure Mat where
  rows : Int
  cols : Int
  channels : Int
  data : MatData
deriving DecidableEq, Repr

/-- The header `IplImage(mat)` built over a matrix. -/
structure IplImage where
  width : Int
  height : Int
  nChannels : Int
  imageData : MatData
deriving DecidableEq, Repr

/-- The nested struct `OutputMap`.  Its `iplHeader` member is rebuilt from `mat` by every
`getIplImagePtr` and read by nobody else, so the model returns the header by value. -/
structure OutputMap where
  mat : Mat
deriving DecidableEq, Repr

/-- Modelled from the spec: the hardware collaborator `CameraActivity`, whose header
`camera_activity.hpp` is not under src/.  It exposes the connection status, the frame
size it reports, its format strings and the values last passed to its `setProperty`;
`m_framesReceived` is the counter of the subclass `HighguiAndroidCameraActivity`. -/
structure CameraActivity where
  connected : Bool
  frameWidth : Int
  frameHeight : Int
  previewFormat : String
  supportedPreviewSizes : String
  propFrameWidth : Int
  propFrameHeight : Int
  m_framesReceived : Int
deriving DecidableEq, Repr

/-- The fields of `class CvCapture_Android`, followed by two pieces of instrumentation:
`heapTop` (the next address `new[]` hands out) and `convertCalls` (how many times
`convertYUV2Grey` or `convertYUV2BGR` has been entered). -/
structure CvCapture_Android where
  m_activity : Option CameraActivity
  m_width : Int
  m_height : Int
  m_frameYUV420 : Option Buffer
  m_frameYUV420next : Option Buffer
  m_frameFormat : YUVformat
  m_isOpened : Bool
  m_CameraParamsChanged : Bool
  m_framesGrabbed : Int
  m_frameGray : OutputMap
  m_frameColor : OutputMap
  m_hasGray : Bool
  m_hasColor : Bool
  m_dataState : CvCapture_Android_DataState
  m_waitingNextFrame : Bool
  m_shouldAutoGrab : Bool
  heapTop : Nat
  convertCalls : Nat
deriving DecidableEq, Repr

/-- The status codes of the two ways the file throws. -/
inductive CvStatus where
  | CV_StsOutOfRange
  | CV_StsAssert
deriving DecidableEq, Repr

/-- How a call of a member function ends. -/
inductive Outcome (α : Type) where
  | ok (value : α) (post : CvCapture_Android)
  | raised (code : CvStatus) (post : CvCapture_Android)
  | undefined
deriving DecidableEq, Repr

/-- What `getProperty` returns: a number, or the string whose address the source
squeezes into the `double`. -/
inductive PropValue where
  | number (value : Int)
  | text (value : String)
deriving DecidableEq, Repr

/-- How a conversion helper ends: it returns a flag and leaves `resmat`, it fails its
`CV_Assert`, or it reads outside the raw frame. -/
inductive ConvResult where
  | done (ret : Bool) (resmat : Mat)
  | assertFailed
  | undefined
deriving DecidableEq, Repr

/-! ## Collaborators -/

/-- Modelled from the spec: `CameraActivity::setProperty` for the frame width; the
collaborator keeps the requested value until `applyProperties`. -/
def CameraActivity.setFrameWidthProperty (a : CameraActivity) (value : Int) : CameraActivity :=
  { a with propFrameWidth := value }

/-- Modelled from the spec: `CameraActivity::setProperty` for the frame height. -/
def CameraActivity.setFrameHeightProperty (a : CameraActivity) (value : Int) : CameraActivity :=
  { a with propFrameHeight := value }

/-- Modelled from the spec: `CameraActivity::applyProperties` "batches pending settable
changes": the reported frame size becomes the requested one. -/
def CameraActivity.applyProperties (a : CameraActivity) : CameraActivity :=
  { a with frameWidth := a.propFrameWidth, frameHeight := a.propFrameHeight }

/-- The default-constructed `cv::Mat`. -/
def Mat.default : Mat :=
  { rows := 0, cols := 0, channels := 1, data := MatData.null }

/-- The test `cv::Mat::empty()`: no data or no element. -/
def Mat.empty (m : Mat) : Bool :=
  m.data == MatData.null || m.rows * m.cols == 0

/-- Modelled from the spec: `cv::cvtColor` for the four YUV420 codes; OpenCV's imgproc is
not under src/.  The result has the width of the source, two thirds of its rows and
`dcn` channels; its pixels are identified by the code, `dcn` and the source bytes. -/
def cvtColor (src : Mat) (srcBytes : List Nat) (code : ColorCode) (dcn : Int) : Mat :=
  { rows := Int.tdiv (src.rows * 2) 3, cols := src.cols, channels := dcn,
    data := MatData.converted code dcn srcBytes }

/-- The call `memcpy(dst, src, n)`: defined when both pointers are non-null and `n` bytes fit on
both sides; it overwrites the first `n` bytes of the destination. -/
def memcpy (dst : Option Buffer) (src : Option (List Nat)) (n : Int) : Option Buffer :=
  match dst, src with
  | some d, some s =>
    if 0 ≤ n ∧ n.toNat ≤ d.bytes.length ∧ n.toNat ≤ s.length then
      some { d with bytes := s.take n.toNat ++ d.bytes.drop n.toNat }
    else none
  | _, _ => none

/-! ## The member functions -/

/-- The function `OutputMap::getIplImagePtr` (lines 135-142). -/
def OutputMap.getIplImagePtr (o : OutputMap) : Option IplImage :=
  if o.mat.empty then none
  else some { width := o.mat.cols, height := o.mat.rows, nChannels := o.mat.channels,
              imageData := o.mat.data }

/-- The constructor (lines 144-180).  `activity` is the collaborator as `connect` leaves
it and `connectOk` tells whether `connect` returned `NO_ERROR`. -/
def CvCapture_Android.create (activity : CameraActivity) (connectOk : Bool) :
    CvCapture_Android :=
  { m_width := 0
    m_height := 0
    m_activity := if connectOk then some { activity with m_framesReceived := 0 } else none
    m_isOpened := connectOk
    m_frameYUV420 := none
    m_frameYUV420next := none
    m_hasGray := false
    m_hasColor := false
    m_dataState := CVCAPTURE_ANDROID_STATE_NO_FRAME
    m_waitingNextFrame := false
    m_shouldAutoGrab := false
    m_framesGrabbed := 0
    m_CameraParamsChanged := false
    m_frameFormat := YUVformat.noformat
    m_frameGray := { mat := Mat.default }
    m_frameColor := { mat := Mat.default }
    heapTop := 0
    convertCalls := 0 }

/-- The function `CvCapture_Android::isOpened` (lines 182-185). -/
def isOpened (c : CvCapture_Android) : Bool :=
  c.m_isOpened

/-- The function `CvCapture_Android::getProperty` (lines 217-235). -/
def getProperty (c : CvCapture_Android) (propIdx : PropIdx) : Outcome PropValue :=
  match c.m_activity with
  | none =>
    match propIdx with
    | CV_CAP_PROP_FRAME_WIDTH => Outcome.undefined
    | CV_CAP_PROP_FRAME_HEIGHT => Outcome.undefined
    | CV_CAP_PROP_SUPPORTED_PREVIEW_SIZES_STRING => Outcome.undefined
    | CV_CAP_PROP_PREVIEW_FORMAT => Outcome.undefined
    | _ => Outcome.raised CvStatus.CV_StsOutOfRange c
  | some a =>
    match propIdx with
    | CV_CAP_PROP_FRAME_WIDTH => Outcome.ok (PropValue.number a.frameWidth) c
    | CV_CAP_PROP_FRAME_HEIGHT => Outcome.ok (PropValue.number a.frameHeight) c
    | CV_CAP_PROP_SUPPORTED_PREVIEW_SIZES_STRING =>
      Outcome.ok (PropValue.text a.supportedPreviewSizes) c
    | CV_CAP_PROP_PREVIEW_FORMAT => Outcome.ok (PropValue.text a.previewFormat) c
    | _ => Outcome.raised CvStatus.CV_StsOutOfRange c

/-- The function `CvCapture_Android::setProperty` (lines 237-267). -/
def setProperty (c : CvCapture_Android) (propIdx : PropIdx) (propValue : Int) : Outcome Bool :=
  if isOpened c then
    match propIdx with
    | CV_CAP_PROP_FRAME_WIDTH =>
      match c.m_activity with
      | none => Outcome.undefined
      | some a =>
        Outcome.ok true { c with m_activity := some (a.setFrameWidthProperty propValue)
                                 m_CameraParamsChanged := true }
    | CV_CAP_PROP_FRAME_HEIGHT =>
      match c.m_activity with
      | none => Outcome.undefined
      | some a =>
        Outcome.ok true { c with m_activity := some (a.setFrameHeightProperty propValue)
                                 m_CameraParamsChanged := true }
    | CV_CAP_PROP_AUTOGRAB =>
      Outcome.ok true { c with m_shouldAutoGrab := (propValue != 0) }
    | _ => Outcome.raised CvStatus.CV_StsOutOfRange c
  else Outcome.ok false c

/-- The function `CvCapture_Android::prepareCacheForYUV` (lines 405-424): when the size differs from
the stored one, store it and replace both raw buffers by fresh arrays of
`width * height * 3 / 2` bytes. -/
def prepareCacheForYUV (c : CvCapture_Android) (width height : Int) :
    Option CvCapture_Android :=
  if width ≠ c.m_width ∨ height ≠ c.m_height then
    let n := Int.tdiv (width * height * 3) 2
    if n < 0 then none
    else
      some { c with
        m_width := width
        m_height := height
        m_frameYUV420next := some { addr := c.heapTop, bytes := List.replicate n.toNat 0 }
        m_frameYUV420 := some { addr := c.heapTop + 1, bytes := List.replicate n.toNat 0 }
        heapTop := c.heapTop + 2 }
  else some c

/-- The function `CvCapture_Android::setFrame` (lines 370-402). -/
def setFrame (c : CvCapture_Android) (buffer : Option (List Nat)) (bufferSize : Int) :
    Option CvCapture_Android :=
  match c.m_activity with
  | none => none
  | some a =>
    let width := a.frameWidth
    let height := a.frameHeight
    let expectedSize := (width * height * 3) >>> (1 : Nat)
    if expectedSize ≠ bufferSize then some c
    else
      match prepareCacheForYUV c width height with
      | none => none
      | some c1 =>
        match memcpy c1.m_frameYUV420next buffer bufferSize with
        | none => none
        | some filled =>
          some { c1 with
            m_frameYUV420next := some filled
            m_dataState := CVCAPTURE_ANDROID_STATE_HAS_NEW_FRAME_UNGRABBED
            m_waitingNextFrame := false }

/-- The callback `HighguiAndroidCameraActivity::onFrameBuffer` (lines 106-123), one
lock-atomic step of the producer.  The callback is a member of the activity object, so without one there is
no call to model. -/
def onFrameBuffer (c : CvCapture_Android) (buffer : Option (List Nat)) (bufferSize : Int) :
    Outcome Bool :=
  match c.m_activity with
  | none => Outcome.undefined
  | some a =>
    if a.connected && buffer.isSome && decide (bufferSize > 0) then
      let c1 := { c with m_activity := some { a with m_framesReceived := a.m_framesReceived + 1 } }
      if c1.m_waitingNextFrame || c1.m_shouldAutoGrab then
        match setFrame c1 buffer bufferSize with
        | none => Outcome.undefined
        | some c2 => Outcome.ok true c2
      else Outcome.ok true c1
    else Outcome.ok false c

/-- First half of `grabFrame` (lines 277-288): from taking the lock to the point where the
call either suspends in `pthread_cond_wait` (second component `true`) or goes on. -/
def grabFrameBegin (c : CvCapture_Android) : Option (CvCapture_Android × Bool) :=
  let applied : Option CvCapture_Android :=
    if c.m_CameraParamsChanged then
      match c.m_activity with
      | none => none
      | some a =>
        some { c with
          m_activity := some a.applyProperties
          m_CameraParamsChanged := false
          m_dataState := CVCAPTURE_ANDROID_STATE_NO_FRAME }
    else some c
  match applied with
  | none => none
  | some c1 =>
    if c1.m_dataState ≠ CVCAPTURE_ANDROID_STATE_HAS_NEW_FRAME_UNGRABBED then
      some ({ c1 with m_waitingNextFrame := true }, true)
    else some (c1, false)

/-- Second half of `grabFrame` (lines 290-316): the state test after the wait, the swap
and the return value. -/
def grabFrameResume (c : CvCapture_Android) : Bool × CvCapture_Android :=
  if c.m_dataState = CVCAPTURE_ANDROID_STATE_HAS_NEW_FRAME_UNGRABBED then
    (true, { c with
      m_frameYUV420 := c.m_frameYUV420next
      m_frameYUV420next := c.m_frameYUV420
      m_hasGray := false
      m_hasColor := false
      m_dataState := CVCAPTURE_ANDROID_STATE_HAS_FRAME_GRABBED
      m_framesGrabbed := c.m_framesGrabbed + 1 })
  else (false, c)

/-- A call of `onFrameBuffer` by the producer. -/
structure Delivery where
  buffer : Option (List Nat)
  bufferSize : Int
deriving DecidableEq, Repr

/-- The producer runs `onFrameBuffer` for each delivery in turn. -/
def deliverAll (c : CvCapture_Android) : List Delivery → Option CvCapture_Android
  | [] => some c
  | d :: rest =>
    match onFrameBuffer c d.buffer d.bufferSize with
    | Outcome.ok _ c1 => deliverAll c1 rest
    | _ => none

/-- The function `CvCapture_Android::grabFrame` (lines 269-317).  `wake` lists the deliveries the
producer completes while the call is suspended in `pthread_cond_wait`; it is consulted
only when the call suspends, and an empty list is a spurious wake-up. -/
def grabFrame (c : CvCapture_Android) (wake : List Delivery) : Outcome Bool :=
  if !isOpened c then Outcome.ok false c
  else
    match grabFrameBegin c with
    | none => Outcome.undefined
    | some (c1, false) => Outcome.ok (grabFrameResume c1).1 (grabFrameResume c1).2
    | some (c1, true) =>
      match deliverAll c1 wake with
      | none => Outcome.undefined
      | some c2 => Outcome.ok (grabFrameResume c2).1 (grabFrameResume c2).2

/-- The function `CvCapture_Android::convertYUV2Grey` (lines 426-439), with
`ALWAYS_COPY_GRAY` 0: the result is a header over the raw frame itself. -/
def convertYUV2Grey (c : CvCapture_Android) (width height : Int) (yuv : Option Buffer)
    (resmat : Mat) : ConvResult :=
  match yuv with
  | none => ConvResult.done false resmat
  | some b =>
    if c.m_frameFormat ≠ YUVformat.yuv420sp ∧ c.m_frameFormat ≠ YUVformat.yuv420i then
      ConvResult.done false resmat
    else
      let res : Mat := { rows := height, cols := width, channels := 1, data := MatData.user b.addr }
      ConvResult.done (!res.empty) res

/-- The function `CvCapture_Android::convertYUV2BGR` (lines 441-456).  `cv::cvtColor` reads
`height*3/2` rows of `width` bytes from the raw frame. -/
def convertYUV2BGR (c : CvCapture_Android) (width height : Int) (yuv : Option Buffer)
    (resmat : Mat) (inRGBorder withAlpha : Bool) : ConvResult :=
  match yuv with
  | none => ConvResult.done false resmat
  | some b =>
    if c.m_frameFormat ≠ YUVformat.yuv420sp ∧ c.m_frameFormat ≠ YUVformat.yuv420i then
      ConvResult.done false resmat
    else if ¬ (Int.tmod width 2 = 0 ∧ Int.tmod height 2 = 0) then ConvResult.assertFailed
    else
      let src : Mat :=
        { rows := Int.tdiv (height * 3) 2, cols := width, channels := 1, data := MatData.user b.addr }
      if src.rows < 0 ∨ src.cols < 0 ∨ b.bytes.length < (src.rows * src.cols).toNat then
        ConvResult.undefined
      else
        let srcBytes := b.bytes.take (src.rows * src.cols).toNat
        let dcn : Int := if withAlpha then 4 else 3
        let res :=
          if c.m_frameFormat = YUVformat.yuv420sp then
            cvtColor src srcBytes
              (if inRGBorder then ColorCode.CV_YUV420sp2RGB else ColorCode.CV_YUV420sp2BGR) dcn
          else
            cvtColor src srcBytes
              (if inRGBorder then ColorCode.CV_YUV420i2RGB else ColorCode.CV_YUV420i2BGR) dcn
        ConvResult.done (!res.empty) res

/-- The lazy resolution of the pixel format at the top of `retrieveFrame`
(lines 327-337). -/
def resolveFrameFormat (c : CvCapture_Android) : Option CvCapture_Android :=
  if c.m_frameFormat = YUVformat.noformat then
    match getProperty c CV_CAP_PROP_PREVIEW_FORMAT with
    | Outcome.ok (PropValue.text name) c1 =>
      if name = "yuv420sp" then some { c1 with m_frameFormat := YUVformat.yuv420sp }
      else if name = "yuv420i" then some { c1 with m_frameFormat := YUVformat.yuv420i }
      else some { c1 with m_frameFormat := YUVformat.yuvUnknown }
    | _ => none
  else some c

/-- The colour branches of the switch in `retrieveFrame` (lines 347-358). -/
def retrieveColor (c : CvCapture_Android) (cur : Option Buffer) (inRGBorder withAlpha : Bool) :
    Outcome (Option IplImage) :=
  if !c.m_hasColor then
    let c1 := { c with convertCalls := c.convertCalls + 1 }
    match convertYUV2BGR c1 c1.m_width c1.m_height cur c1.m_frameColor.mat inRGBorder withAlpha with
    | ConvResult.undefined => Outcome.undefined
    | ConvResult.assertFailed => Outcome.raised CvStatus.CV_StsAssert c1
    | ConvResult.done ret resmat =>
      let c2 := { c1 with m_frameColor := { mat := resmat }, m_hasColor := ret }
      if !ret then Outcome.ok none c2
      else Outcome.ok c2.m_frameColor.getIplImagePtr c2
  else Outcome.ok c.m_frameColor.getIplImagePtr c

/-- The function `CvCapture_Android::retrieveFrame` (lines 319-367). -/
def retrieveFrame (c : CvCapture_Android) (outputType : OutputType) : Outcome (Option IplImage) :=
  match c.m_frameYUV420 with
  | none => Outcome.ok none c
  | some cur =>
    match resolveFrameFormat c with
    | none => Outcome.undefined
    | some c0 =>
      match outputType with
      | CV_CAP_ANDROID_GREY_FRAME =>
        if !c0.m_hasGray then
          let c1 := { c0 with convertCalls := c0.convertCalls + 1 }
          match convertYUV2Grey c1 c1.m_width c1.m_height (some cur) c1.m_frameGray.mat with
          | ConvResult.undefined => Outcome.undefined
          | ConvResult.assertFailed => Outcome.raised CvStatus.CV_StsAssert c1
          | ConvResult.done ret resmat =>
            let c2 := { c1 with m_frameGray := { mat := resmat }, m_hasGray := ret }
            if !ret then Outcome.ok none c2
            else Outcome.ok c2.m_frameGray.getIplImagePtr c2
        else Outcome.ok c0.m_frameGray.getIplImagePtr c0
      | CV_CAP_ANDROID_COLOR_FRAME_BGR => retrieveColor c0 (some cur) false false
      | CV_CAP_ANDROID_COLOR_FRAME_RGB => retrieveColor c0 (some cur) true false
      | CV_CAP_ANDROID_COLOR_FRAME_BGRA => retrieveColor c0 (some cur) false true
      | CV_CAP_ANDROID_COLOR_FRAME_RGBA => retrieveColor c0 (some cur) true true
      | OutputType.unsupported _ => Outcome.raised CvStatus.CV_StsOutOfRange c0

/-! ## Interleavings of producer and consumer -/

/-- The atomic steps of a run.  `deliver frame` is a complete `onFrameBuffer` call whose
buffer holds `frame` and whose `bufferSize` is its length; `grabBegin` is a `grabFrame`
call up to its wait (or up to its return when it does not suspend); `grabResume` is the
wake-up of the suspended call; `setAutoGrab v` is `setProperty(CV_CAP_PROP_AUTOGRAB, v)`
on the consumer thread. -/
inductive Event where
  | deliver (frame : List Nat)
  | grabBegin
  | grabResume
  | setAutoGrab (value : Int)
deriving DecidableEq, Repr

/-- What a returned `grabFrame` shows to its caller: the return value and, when it is
true, the bytes of the buffer `m_frameYUV420` designates at the return. -/
structure GrabReturn where
  ret : Bool
  exposed : Option (List Nat)
deriving DecidableEq, Repr

/-- The record of a `grabFrame` return taken from the result of `grabFrameResume`. -/
def grabReturn (r : Bool × CvCapture_Android) : GrabReturn :=
  { ret := r.1, exposed := if r.1 then r.2.m_frameYUV420.map Buffer.bytes else none }

/-- The capture object together with the consumer's position: `suspended` holds while a
`grabFrame` call sits in `pthread_cond_wait`; `log` lists the returned calls, oldest
first. -/
structure Sys where
  cap : CvCapture_Android
  suspended : Bool
  log : List GrabReturn
deriving DecidableEq, Repr

/-- One atomic step of the system.  `none` stands for a step the single consumer thread
cannot take (a second call while one is suspended, a wake-up with nothing suspended) and
for undefined behaviour. -/
def Sys.step (s : Sys) : Event → Option Sys
  | Event.deliver frame =>
    match onFrameBuffer s.cap (some frame) frame.length with
    | Outcome.ok _ c => some { s with cap := c }
    | _ => none
  | Event.grabBegin =>
    if s.suspended then none
    else if !isOpened s.cap then
      some { s with log := s.log ++ [{ ret := false, exposed := none }] }
    else
      match grabFrameBegin s.cap with
      | none => none
      | some (c1, true) => some { s with cap := c1, suspended := true }
      | some (c1, false) =>
        some { s with cap := (grabFrameResume c1).2
                      log := s.log ++ [grabReturn (grabFrameResume c1)] }
  | Event.grabResume =>
    if s.suspended then
      some { cap := (grabFrameResume s.cap).2, suspended := false
             log := s.log ++ [grabReturn (grabFrameResume s.cap)] }
    else none
  | Event.setAutoGrab value =>
    if s.suspended then none
    else
      match setProperty s.cap CV_CAP_PROP_AUTOGRAB value with
      | Outcome.ok _ c => some { s with cap := c }
      | _ => none

/-- The system after a sequence of atomic steps. -/
def Sys.run (s : Sys) : List Event → Option Sys
  | [] => some s
  | e :: rest =>
    match s.step e with
    | none => none
    | some s1 => s1.run rest

/-- The system right after a successful construction. -/
def Sys.start (activity : CameraActivity) : Sys :=
  { cap := CvCapture_Android.create activity true, suspended := false, log := [] }

/-- The synchronisation gate in the words of the specification, with the acceptance rule
of the code made explicit.  `fresh` says that a delivery has been accepted since the last
grab that returned true; `slot` holds the bytes of the last accepted delivery; `waiting`
is raised by a grab that finds nothing fresh and lowered by the next accepted delivery. -/
structure Gate where
  autoGrab : Bool
  waiting : Bool
  fresh : Bool
  slot : List Nat
  suspended : Bool
  log : List GrabReturn
deriving DecidableEq, Repr

/-- A delivery is accepted when its size is positive and equals `expected`, and the
auto-grab mode is on or a consumer has raised the waiting flag. -/
def Gate.accepts (expected : Int) (g : Gate) (frame : List Nat) : Bool :=
  decide (0 < (frame.length : Int)) && decide ((frame.length : Int) = expected)
    && (g.waiting || g.autoGrab)

/-- One step of the gate of the specification. -/
def Gate.step (expected : Int) (g : Gate) : Event → Option Gate
  | Event.deliver frame =>
    if g.accepts expected frame then
      some { g with fresh := true, waiting := false, slot := frame }
    else some g
  | Event.grabBegin =>
    if g.suspended then none
    else if g.fresh then
      some { g with fresh := false, log := g.log ++ [{ ret := true, exposed := some g.slot }] }
    else some { g with waiting := true, suspended := true }
  | Event.grabResume =>
    if g.suspended then
      if g.fresh then
        some { g with fresh := false, suspended := false
                      log := g.log ++ [{ ret := true, exposed := some g.slot }] }
      else some { g with suspended := false, log := g.log ++ [{ ret := false, exposed := none }] }
    else none
  | Event.setAutoGrab value =>
    if g.suspended then none else some { g with autoGrab := (value != 0) }

/-- The gate after a sequence of steps. -/
def Gate.run (expected : Int) (g : Gate) : List Event → Option Gate
  | [] => some g
  | e :: rest =>
    match g.step expected e with
    | none => none
    | some g1 => g1.run expected rest

/-- The gate at construction: nothing delivered, nobody waiting, auto-grab off. -/
def Gate.start : Gate :=
  { autoGrab := false, waiting := false, fresh := false, slot := [], suspended := false, log := [] }

/-- The frame size of the specification, `width*height*3/2`, for the size the collaborator
reports. -/
def frameSize (a : CameraActivity) : Int :=
  Int.tdiv (a.frameWidth * a.frameHeight * 3) 2

/-- A small collaborator used in the worked examples: connected, reporting 2x2 frames in
the semi-planar format. -/
def demoActivity : CameraActivity :=
  { connected := true, frameWidth := 2, frameHeight := 2, previewFormat := "yuv420sp"
    supportedPreviewSizes := "2x2", propFrameWidth := 2, propFrameHeight := 2
    m_framesReceived := 0 }

end CapAndroid

namespace CapAndroid

/-! ## Auxiliary definitions for the statements -/

/-- The representation invariant of the two raw buffers: both unallocated with a stored
size of 0x0, or both allocated with `m_width*m_height*3/2` bytes. -/
def RawFramesOk (c : CvCapture_Android) : Prop :=
  match c.m_frameYUV420, c.m_frameYUV420next with
  | none, none => c.m_width = 0 ∧ c.m_height = 0
  | some cur, some nxt =>
    0 ≤ Int.tdiv (c.m_width * c.m_height * 3) 2 ∧
    cur.bytes.length = (Int.tdiv (c.m_width * c.m_height * 3) 2).toNat ∧
    nxt.bytes.length = (Int.tdiv (c.m_width * c.m_height * 3) 2).toNat
  | _, _ => False

instance (c : CvCapture_Android) : Decidable (RawFramesOk c) := by
  unfold RawFramesOk
  split <;> exact inferInstance

/-- The state a call leaves behind, when it returns or throws. -/
def Outcome.post? {α : Type} : Outcome α → Option CvCapture_Android
  | Outcome.ok _ c => some c
  | Outcome.raised _ c => some c
  | Outcome.undefined => none

/-- Worked example: the capture after construction on `demoActivity`,
`setProperty(CV_CAP_PROP_AUTOGRAB, 1)` and one accepted delivery of the 2x2 frame
`[1, 2, 3, 4, 5, 6]`; no `grabFrame` has been called. -/
def demoUngrabbed : CvCapture_Android :=
  { CvCapture_Android.create demoActivity true with
    m_activity := some { demoActivity with m_framesReceived := 1 }
    m_shouldAutoGrab := true
    m_width := 2
    m_height := 2
    m_frameYUV420next := some { addr := 0, bytes := [1, 2, 3, 4, 5, 6] }
    m_frameYUV420 := some { addr := 1, bytes := [0, 0, 0, 0, 0, 0] }
    m_dataState := CVCAPTURE_ANDROID_STATE_HAS_NEW_FRAME_UNGRABBED
    heapTop := 2 }

/-- Worked example: `demoUngrabbed` after a `grabFrame` that returned true. -/
def demoGrabbed : CvCapture_Android :=
  { demoUngrabbed with
    m_frameYUV420 := some { addr := 0, bytes := [1, 2, 3, 4, 5, 6] }
    m_frameYUV420next := some { addr := 1, bytes := [0, 0, 0, 0, 0, 0] }
    m_dataState := CVCAPTURE_ANDROID_STATE_HAS_FRAME_GRABBED
    m_framesGrabbed := 1 }

/-- The relation between a system state and a state of the gate of the specification that
every step preserves, for a collaborator that is connected and reports `w` x `h`. -/
structure Sim (w h : Int) (s : Sys) (g : Gate) : Prop where
  suspended : s.suspended = g.suspended
  log : s.log = g.log
  opened : s.cap.m_isOpened = true
  activity : ∃ a, s.cap.m_activity = some a ∧ a.connected = true ∧
    a.frameWidth = w ∧ a.frameHeight = h
  noPending : s.cap.m_CameraParamsChanged = false
  autoGrab : s.cap.m_shouldAutoGrab = g.autoGrab
  waiting : s.cap.m_waitingNextFrame = g.waiting
  fresh : s.cap.m_dataState = CVCAPTURE_ANDROID_STATE_HAS_NEW_FRAME_UNGRABBED ↔ g.fresh = true
  slot : g.fresh = true → s.cap.m_frameYUV420next.map Buffer.bytes = some g.slot
  buffers :
    (s.cap.m_frameYUV420 = none ∧ s.cap.m_frameYUV420next = none ∧
      s.cap.m_width = 0 ∧ s.cap.m_height = 0) ∨
    (∃ cur nxt, s.cap.m_frameYUV420 = some cur ∧ s.cap.m_frameYUV420next = some nxt ∧
      cur.bytes.length = (Int.tdiv (w * h * 3) 2).toNat ∧
      nxt.bytes.length = (Int.tdiv (w * h * 3) 2).toNat ∧
      0 ≤ Int.tdiv (w * h * 3) 2 ∧ s.cap.m_width = w ∧ s.cap.m_height = h)

/-- A call other than `grabFrame` that may reach the capture between two grabs: a delivery
by the producer, or `retrieveFrame`, `setProperty`, `getProperty` by the consumer. -/
inductive Call where
  | deliver (buffer : Option (List Nat)) (bufferSize : Int)
  | retrieve (outputType : OutputType)
  | setProp (propIdx : PropIdx) (propValue : Int)
  | getProp (propIdx : PropIdx)
deriving DecidableEq, Repr

/-- The state after a call; a thrown `cv::Exception` is taken to be caught by the caller, so
the run goes on from the state reached at the throw. -/
def Call.exec (c : CvCapture_Android) : Call → Option CvCapture_Android
  | Call.deliver buffer bufferSize => (onFrameBuffer c buffer bufferSize).post?
  | Call.retrieve outputType => (retrieveFrame c outputType).post?
  | Call.setProp propIdx propValue => (setProperty c propIdx propValue).post?
  | Call.getProp propIdx => (getProperty c propIdx).post?

/-- The state after a sequence of calls. -/
def execAll (c : CvCapture_Android) : List Call → Option CvCapture_Android
  | [] => some c
  | call :: rest =>
    match call.exec c with
    | none => none
    | some c1 => execAll c1 rest

/-- The capture holds a raw frame, has resolved its pixel format, and its cache for the
output kind `outputType` is valid and yields the image `img`. -/
def CachedFor (c : CvCapture_Android) (outputType : OutputType) (img : IplImage) : Prop :=
  c.m_frameYUV420 ≠ none ∧ c.m_frameFormat ≠ YUVformat.noformat ∧
  match outputType with
  | CV_CAP_ANDROID_GREY_FRAME =>
    c.m_hasGray = true ∧ c.m_frameGray.getIplImagePtr = some img
  | OutputType.unsupported _ => False
  | _ => c.m_hasColor = true ∧ c.m_frameColor.getIplImagePtr = some img

instance (c : CvCapture_Android) (outputType : OutputType) (img : IplImage) :
    Decidable (CachedFor c outputType img) := by
  unfold CachedFor
  cases outputType <;> exact inferInstance

/-- The state in which `grabFrame` performs its test of line 290: the state `grabFrameBegin`
leaves when the call does not suspend, and otherwise that state after the deliveries that
complete during the wait. -/
def stateAtCheck (c : CvCapture_Android) (wake : List Delivery) : Option CvCapture_Android :=
  match grabFrameBegin c with
  | none => none
  | some (c1, false) => some c1
  | some (c1, true) => deliverAll c1 wake

/-- An operation on the capture: one of the calls above, or a complete `grabFrame` with the
deliveries made during its wait. -/
inductive Op where
  | call (k : Call)
  | grab (wake : List Delivery)
deriving DecidableEq, Repr

/-- The state after an operation (`none` for undefined behaviour). -/
def Op.exec (c : CvCapture_Android) : Op → Option CvCapture_Android
  | Op.call k => k.exec c
  | Op.grab wake => (grabFrame c wake).post?

/-- The state after a sequence of operations. -/
def runOps (c : CvCapture_Android) : List Op → Option CvCapture_Android
  | [] => some c
  | op :: rest =>
    match op.exec c with
    | none => none
    | some c1 => runOps c1 rest

/-- The states the program can be in: those a sequence of `onFrameBuffer`, `grabFrame`,
`setProperty`, `getProperty` and `retrieveFrame` calls reaches from the constructor. -/
def Reachable (c : CvCapture_Android) : Prop :=
  ∃ (activity : CameraActivity) (connectOk : Bool) (ops : List Op),
    runOps (CvCapture_Android.create activity connectOk) ops = some c

/-- A valid conversion cache presupposes a resolved, supported pixel format. -/
def CachesKnown (c : CvCapture_Android) : Prop :=
  (c.m_hasGray = true ∨ c.m_hasColor = true) →
    (c.m_frameFormat = YUVformat.yuv420sp ∨ c.m_frameFormat = YUVformat.yuv420i)

/-- The pixel format is tagged unknown and neither cache is valid. -/
def FormatUnknown (c : CvCapture_Android) : Prop :=
  c.m_frameFormat = YUVformat.yuvUnknown ∧ c.m_hasGray = false ∧ c.m_hasColor = false

/-- The fields the representation invariant of the raw buffers speaks about. -/
def bufView (c : CvCapture_Android) : Int × Int × Option Buffer × Option Buffer :=
  (c.m_width, c.m_height, c.m_frameYUV420, c.m_frameYUV420next)

/-- The fields the cache invariants speak about. -/
def cacheView (c : CvCapture_Android) : Bool × Bool × YUVformat :=
  (c.m_hasGray, c.m_hasColor, c.m_frameFormat)

/-- Whether a `retrieveFrame` on this state reaches the query of the preview-format
string at line 330: the current buffer is non-null (line 325) and the format is still
`noformat` (line 327). -/
def queriesPreviewFormat (c : CvCapture_Android) : Bool :=
  c.m_frameYUV420.isSome && decide (c.m_frameFormat = YUVformat.noformat)

/-- The four colour output kinds. -/
def OutputType.isColor : OutputType → Bool
  | CV_CAP_ANDROID_COLOR_FRAME_BGR => true
  | CV_CAP_ANDROID_COLOR_FRAME_RGB => true
  | CV_CAP_ANDROID_COLOR_FRAME_BGRA => true
  | CV_CAP_ANDROID_COLOR_FRAME_RGBA => true
  | _ => false

/-- The five supported output kinds. -/
def OutputType.isSupported : OutputType → Bool
  | OutputType.unsupported _ => false
  | _ => true

/-- A collaborator used in the worked examples: connected, reporting 3x2 frames in a format
the capture does not know. -/
def oddActivity : CameraActivity :=
  { connected := true, frameWidth := 3, frameHeight := 2, previewFormat := "yuv422i-yuyv"
    supportedPreviewSizes := "3x2", propFrameWidth := 3, propFrameHeight := 2
    m_framesReceived := 0 }

/-- Worked example: the capture after construction on `oddActivity`,
`setProperty(CV_CAP_PROP_AUTOGRAB, 1)`, one accepted delivery of the 3x2 frame
`[1, 2, 3, 4, 5, 6, 7, 8, 9]` and a `grabFrame` that returned true. -/
def oddGrabbed : CvCapture_Android :=
  { CvCapture_Android.create oddActivity true with
    m_activity := some { oddActivity with m_framesReceived := 1 }
    m_shouldAutoGrab := true
    m_width := 3
    m_height := 2
    m_frameYUV420 := some { addr := 0, bytes := [1, 2, 3, 4, 5, 6, 7, 8, 9] }
    m_frameYUV420next := some { addr := 1, bytes := [0, 0, 0, 0, 0, 0, 0, 0, 0] }
    m_dataState := CVCAPTURE_ANDROID_STATE_HAS_FRAME_GRABBED
    m_framesGrabbed := 1
    heapTop := 2 }

/-- How one operation may move the format and the cache bits: the format changes only away
from `noformat`; a cache bit is kept, cleared, or set by a conversion that succeeded, which
needs a supported format. -/
def CacheStep (c post : CvCapture_Android) : Prop :=
  (post.m_frameFormat = c.m_frameFormat ∨ c.m_frameFormat = YUVformat.noformat) ∧
  (post.m_hasGray = c.m_hasGray ∨ post.m_hasGray = false ∨
    (post.m_frameFormat = YUVformat.yuv420sp ∨ post.m_frameFormat = YUVformat.yuv420i)) ∧
  (post.m_hasColor = c.m_hasColor ∨ post.m_hasColor = false ∨
    (post.m_frameFormat = YUVformat.yuv420sp ∨ post.m_frameFormat = YUVformat.yuv420i))

/-- The capture with the preview-format string of its collaborator replaced. -/
def withPreviewFormat (c : CvCapture_Android) (name : String) : CvCapture_Android :=
  { c with m_activity := c.m_activity.map (fun a => { a with previewFormat := name }) }

end CapAndroid

namespace CapAndroid

/-! ## Arithmetic of the frame size -/

theorem shiftRight_one_eq_tdiv (x : Int) (hx : 0 ≤ x) : x >>> (1 : Nat) = Int.tdiv x 2 := by
  rw [Int.shiftRight_eq_div_pow, Int.tdiv_eq_ediv hx (by decide)]
  norm_num

theorem shiftRight_one_neg (x : Int) (hx : x < 0) : x >>> (1 : Nat) < 0 := by
  rw [Int.shiftRight_eq_div_pow]
  norm_num
  omega

theorem tdiv_two_nonpos (x : Int) (hx : x < 0) : Int.tdiv x 2 ≤ 0 := by
  have h := Int.tdiv_nonneg (a := -x) (b := 2) (by omega) (by decide)
  rw [Int.neg_tdiv] at h
  omega

/-- For a positive size the test of `setFrame` and the size of the specification agree. -/
theorem expectedSize_eq_iff (x n : Int) (hn : 0 < n) :
    x >>> (1 : Nat) = n ↔ Int.tdiv x 2 = n := by
  rcases lt_or_le x 0 with hx | hx
  · have h1 := shiftRight_one_neg x hx
    have h2 := tdiv_two_nonpos x hx
    constructor <;> intro h <;> omega
  · rw [shiftRight_one_eq_tdiv x hx]

/-- The same agreement when the pixel count is not negative. -/
theorem expectedSize_eq_iff_of_nonneg (x n : Int) (hx : 0 ≤ x) :
    x >>> (1 : Nat) = n ↔ Int.tdiv x 2 = n := by
  rw [shiftRight_one_eq_tdiv x hx]

end CapAndroid

namespace CapAndroid

/-! ## grabFrame: the test after the wait -/

/-- On an opened capture `grabFrame` is `grabFrameResume` applied to the state at the
test of line 290. -/
theorem grabFrame_opened (c : CvCapture_Android) (wake : List Delivery)
    (hopen : isOpened c = true) :
    grabFrame c wake =
      match stateAtCheck c wake with
      | none => Outcome.undefined
      | some chk => Outcome.ok (grabFrameResume chk).1 (grabFrameResume chk).2 := by
  unfold stateAtCheck grabFrame
  simp only [hopen, Bool.not_true, Bool.false_eq_true, if_false]
  cases hb : grabFrameBegin c with
  | none => rfl
  | some p =>
    obtain ⟨c1, w⟩ := p
    cases w with
    | false => rfl
    | true => rfl

/-- C2: when a `grabFrame` call on an opened capture reaches its test of line 290 in state
`chk`, then: if `chk` is in `HAS_NEW_FRAME_UNGRABBED` the call returns true and its final
state is `chk` with the two buffer handles exchanged, both cache bits false, the data
state `HAS_FRAME_GRABBED` and the counter one higher (nothing else changes); in every
other data state the call returns false and its final state is `chk` itself. -/
theorem grabFrame_check_spec (c chk : CvCapture_Android) (wake : List Delivery)
    (hopen : isOpened c = true) (hchk : stateAtCheck c wake = some chk) :
    (chk.m_dataState = CVCAPTURE_ANDROID_STATE_HAS_NEW_FRAME_UNGRABBED →
      ∃ post, grabFrame c wake = Outcome.ok true post ∧
        post.m_frameYUV420 = chk.m_frameYUV420next ∧
        post.m_frameYUV420next = chk.m_frameYUV420 ∧
        post.m_hasGray = false ∧ post.m_hasColor = false ∧
        post.m_dataState = CVCAPTURE_ANDROID_STATE_HAS_FRAME_GRABBED ∧
        post.m_framesGrabbed = chk.m_framesGrabbed + 1 ∧
        post = { chk with
          m_frameYUV420 := chk.m_frameYUV420next
          m_frameYUV420next := chk.m_frameYUV420
          m_hasGray := false
          m_hasColor := false
          m_dataState := CVCAPTURE_ANDROID_STATE_HAS_FRAME_GRABBED
          m_framesGrabbed := chk.m_framesGrabbed + 1 }) ∧
    (chk.m_dataState ≠ CVCAPTURE_ANDROID_STATE_HAS_NEW_FRAME_UNGRABBED →
      grabFrame c wake = Outcome.ok false chk) := by
  have hg : grabFrame c wake = Outcome.ok (grabFrameResume chk).1 (grabFrameResume chk).2 := by
    rw [grabFrame_opened c wake hopen, hchk]
  constructor
  · intro hnew
    refine ⟨(grabFrameResume chk).2, ?_, ?_⟩
    · rw [hg]
      simp [grabFrameResume, hnew]
    · simp [grabFrameResume, hnew]
  · intro hne
    rw [hg]
    simp [grabFrameResume, hne]

/-- C2, witness: a capture that starts a grab with nothing delivered, receives one 2x2
frame during the wait, and reaches the test in `HAS_NEW_FRAME_UNGRABBED`. -/
theorem grabFrame_check_spec_witness :
    ∃ chk, isOpened (CvCapture_Android.create demoActivity true) = true ∧
      stateAtCheck (CvCapture_Android.create demoActivity true)
        [{ buffer := some [1, 2, 3, 4, 5, 6], bufferSize := 6 }] = some chk ∧
      chk.m_dataState = CVCAPTURE_ANDROID_STATE_HAS_NEW_FRAME_UNGRABBED ∧
      grabFrame (CvCapture_Android.create demoActivity true)
        [{ buffer := some [1, 2, 3, 4, 5, 6], bufferSize := 6 }] =
        Outcome.ok true { chk with
          m_frameYUV420 := chk.m_frameYUV420next
          m_frameYUV420next := chk.m_frameYUV420
          m_hasGray := false
          m_hasColor := false
          m_dataState := CVCAPTURE_ANDROID_STATE_HAS_FRAME_GRABBED
          m_framesGrabbed := chk.m_framesGrabbed + 1 } := by
  refine ⟨_, rfl, rfl, rfl, ?_⟩
  obtain ⟨post, h1, -, -, -, -, -, -, h8⟩ :=
    (grabFrame_check_spec (CvCapture_Android.create demoActivity true) _
      [{ buffer := some [1, 2, 3, 4, 5, 6], bufferSize := 6 }] rfl rfl).1 rfl
  rw [h1, h8]

end CapAndroid

namespace CapAndroid

/-! ## onFrameBuffer and setFrame -/

theorem memcpy_exact (d : Buffer) (frame : List Nat) (n : Int) (hn : 0 ≤ n)
    (hd : d.bytes.length = n.toNat) (hs : n ≤ frame.length) :
    memcpy (some d) (some frame) n = some { d with bytes := frame.take n.toNat } := by
  have h1 : n.toNat ≤ frame.length := by omega
  simp [memcpy, hn, hd, h1]

/-- What `setFrame` does with a frame of the expected positive size on a state whose raw
buffers satisfy the representation invariant. -/
theorem setFrame_accepts (c : CvCapture_Android) (a : CameraActivity) (frame : List Nat)
    (bufferSize : Int) (hact : c.m_activity = some a) (hinv : RawFramesOk c)
    (hpos : 0 < bufferSize) (hsize : bufferSize = frameSize a)
    (hlen : bufferSize ≤ frame.length) :
    ∃ post nxt cur, setFrame c (some frame) bufferSize = some post ∧
      post.m_frameYUV420next = some nxt ∧ nxt.bytes = frame.take bufferSize.toNat ∧
      post.m_frameYUV420 = some cur ∧ cur.bytes.length = bufferSize.toNat ∧
      post.m_width = a.frameWidth ∧ post.m_height = a.frameHeight ∧
      post.m_dataState = CVCAPTURE_ANDROID_STATE_HAS_NEW_FRAME_UNGRABBED ∧
      post.m_waitingNextFrame = false ∧
      post.m_activity = c.m_activity ∧ post.m_isOpened = c.m_isOpened ∧
      post.m_CameraParamsChanged = c.m_CameraParamsChanged ∧
      post.m_shouldAutoGrab = c.m_shouldAutoGrab ∧
      post.m_framesGrabbed = c.m_framesGrabbed ∧
      ((a.frameWidth = c.m_width ∧ a.frameHeight = c.m_height) →
        post.m_frameYUV420 = c.m_frameYUV420) := by
  unfold frameSize at hsize
  have hexp : (a.frameWidth * a.frameHeight * 3) >>> (1 : Nat) = bufferSize :=
    (expectedSize_eq_iff _ _ hpos).2 hsize.symm
  unfold setFrame
  simp only [hact, hexp, ne_eq, not_true_eq_false, if_false]
  by_cases hdim : a.frameWidth ≠ c.m_width ∨ a.frameHeight ≠ c.m_height
  · have hn : ¬ Int.tdiv (a.frameWidth * a.frameHeight * 3) 2 < 0 := by omega
    simp only [prepareCacheForYUV, hdim, if_true, hn, if_false]
    rw [memcpy_exact _ frame bufferSize (le_of_lt hpos) (by simp [hsize]) hlen]
    refine ⟨_, _, _, rfl, rfl, rfl, rfl, ?_⟩
    refine ⟨by simp [hsize], rfl, rfl, rfl, rfl, hact, rfl, rfl, rfl, rfl, ?_⟩
    intro h
    exact absurd hdim (by simp [h.1, h.2])
  · have hw : a.frameWidth = c.m_width := by
      by_contra h
      exact hdim (Or.inl h)
    have hh : a.frameHeight = c.m_height := by
      by_contra h
      exact hdim (Or.inr h)
    simp only [prepareCacheForYUV, hdim, if_false]
    unfold RawFramesOk at hinv
    cases hcur : c.m_frameYUV420 with
    | none =>
      cases hnxt : c.m_frameYUV420next with
      | none =>
        rw [hcur, hnxt] at hinv
        simp only at hinv
        rw [hw, hh, hinv.1, hinv.2] at hsize
        simp at hsize
        omega
      | some nxt =>
        rw [hcur, hnxt] at hinv
        simp at hinv
    | some cur =>
      cases hnxt : c.m_frameYUV420next with
      | none =>
        rw [hcur, hnxt] at hinv
        simp at hinv
      | some nxt =>
        rw [hcur, hnxt] at hinv
        simp only at hinv
        rw [← hw, ← hh, ← hsize] at hinv
        rw [memcpy_exact nxt frame bufferSize (le_of_lt hpos) hinv.2.2 hlen]
        refine ⟨_, _, cur, rfl, rfl, rfl, rfl, hinv.2.1, hw.symm, hh.symm, rfl, rfl,
          hact, rfl, rfl, rfl, rfl, ?_⟩
        intro _
        rfl

end CapAndroid

namespace CapAndroid

/-- C3, counterexample: on a freshly connected capture (nobody waiting, auto-grab off) a
non-null delivery of exactly `2*2*3/2 = 6` bytes returns true but is not executed: the
next buffer is still unallocated and the data state is still `NO_FRAME`.  Second part: with
auto-grab on and a collaborator reporting 0x0, a non-null delivery of the matching size 0
returns false. -/
theorem onFrameBuffer_executes_counterexample :
    (∃ post,
      onFrameBuffer (CvCapture_Android.create demoActivity true) (some [1, 2, 3, 4, 5, 6]) 6
        = Outcome.ok true post ∧
      (6 : Int) = frameSize demoActivity ∧
      (CvCapture_Android.create demoActivity true).m_waitingNextFrame = false ∧
      (CvCapture_Android.create demoActivity true).m_shouldAutoGrab = false ∧
      post.m_frameYUV420next = none ∧
      post.m_dataState = CVCAPTURE_ANDROID_STATE_NO_FRAME) ∧
    (∃ c,
      setProperty
        (CvCapture_Android.create { demoActivity with frameWidth := 0, frameHeight := 0 } true)
        CV_CAP_PROP_AUTOGRAB 1 = Outcome.ok true c ∧
      (0 : Int) = frameSize { demoActivity with frameWidth := 0, frameHeight := 0 } ∧
      onFrameBuffer c (some []) 0 = Outcome.ok false c) := by
  refine ⟨⟨_, rfl, by decide, rfl, rfl, rfl, rfl⟩, ⟨_, rfl, by decide, rfl⟩⟩

/-- C3 (amended): on a capture whose collaborator is connected and whose raw buffers
satisfy the representation invariant, a delivery with a non-null buffer holding at least
`bufferSize` bytes, where `bufferSize` is positive and equals `width*height*3/2` for the
reported size, returns true.  If the waiting flag or the auto-grab flag is set it is
executed: the next buffer then holds exactly the delivered bytes, the data state is
`HAS_NEW_FRAME_UNGRABBED` and the waiting flag is false.  If neither flag is set the frame
is dropped: only the received-frames counter of the activity changes. -/
theorem onFrameBuffer_executes (c : CvCapture_Android) (a : CameraActivity)
    (frame : List Nat) (bufferSize : Int)
    (hact : c.m_activity = some a) (hconn : a.connected = true) (hinv : RawFramesOk c)
    (hpos : 0 < bufferSize) (hsize : bufferSize = frameSize a)
    (hlen : bufferSize ≤ frame.length) :
    ((c.m_waitingNextFrame = true ∨ c.m_shouldAutoGrab = true) →
      ∃ post nxt, onFrameBuffer c (some frame) bufferSize = Outcome.ok true post ∧
        post.m_frameYUV420next = some nxt ∧ nxt.bytes = frame.take bufferSize.toNat ∧
        post.m_dataState = CVCAPTURE_ANDROID_STATE_HAS_NEW_FRAME_UNGRABBED ∧
        post.m_waitingNextFrame = false) ∧
    ((c.m_waitingNextFrame = false ∧ c.m_shouldAutoGrab = false) →
      onFrameBuffer c (some frame) bufferSize =
        Outcome.ok true
          { c with m_activity := some { a with m_framesReceived := a.m_framesReceived + 1 } }) := by
  constructor
  · intro hflag
    have hinv1 : RawFramesOk
        { c with m_activity := some { a with m_framesReceived := a.m_framesReceived + 1 } } := hinv
    obtain ⟨post, nxt, cur, hset, h1, h2, -, -, -, -, h3, h4, -⟩ :=
      setFrame_accepts
        { c with m_activity := some { a with m_framesReceived := a.m_framesReceived + 1 } }
        { a with m_framesReceived := a.m_framesReceived + 1 } frame bufferSize rfl hinv1 hpos
        hsize hlen
    refine ⟨post, nxt, ?_, h1, h2, h3, h4⟩
    unfold onFrameBuffer
    have hor : (c.m_waitingNextFrame || c.m_shouldAutoGrab) = true := by
      rcases hflag with h | h <;> simp [h]
    simp only [hconn] at hset
    simp only [hact, hconn, Option.isSome_some, Bool.and_self, gt_iff_lt, hpos, decide_True,
      Bool.and_true, if_true, hor, hset]
  · intro hflag
    unfold onFrameBuffer
    simp [hact, hconn, hpos, hflag.1, hflag.2]

/-- C3, witness: a capture suspended in a grab (waiting flag set) receives a 2x2 frame. -/
theorem onFrameBuffer_executes_witness :
    ∃ post nxt,
      onFrameBuffer { CvCapture_Android.create demoActivity true with m_waitingNextFrame := true }
        (some [1, 2, 3, 4, 5, 6]) 6 = Outcome.ok true post ∧
      post.m_frameYUV420next = some nxt ∧ nxt.bytes = [1, 2, 3, 4, 5, 6] ∧
      post.m_dataState = CVCAPTURE_ANDROID_STATE_HAS_NEW_FRAME_UNGRABBED ∧
      post.m_waitingNextFrame = false :=
  (onFrameBuffer_executes
    { CvCapture_Android.create demoActivity true with m_waitingNextFrame := true }
    { demoActivity with m_framesReceived := 0 } [1, 2, 3, 4, 5, 6] 6 rfl rfl
    (show (0 : Int) = 0 ∧ (0 : Int) = 0 from ⟨rfl, rfl⟩) (by decide) (by decide) (by decide)).1
    (Or.inl rfl)

/-- C4: a delivery whose `bufferSize` differs from `width*height*3/2` for the size the
collaborator reports changes nothing but the received-frames counter: `onFrameBuffer`
returns with the data state, the waiting flag, `m_width`, `m_height`, both buffer handles
with their contents, and both cache bits as they were (indeed every field of the capture
other than `m_activity`), and the `setFrame` call inside it (which only ever sees a
positive `bufferSize`; a non-negative pixel count serves as well) returns the state it was
given. -/
theorem setFrame_wrong_size (c : CvCapture_Android) (a : CameraActivity)
    (buffer : Option (List Nat)) (bufferSize : Int)
    (hact : c.m_activity = some a) (hsize : bufferSize ≠ frameSize a) :
    (∃ r post, onFrameBuffer c buffer bufferSize = Outcome.ok r post ∧
      post.m_dataState = c.m_dataState ∧
      post.m_waitingNextFrame = c.m_waitingNextFrame ∧
      post.m_width = c.m_width ∧ post.m_height = c.m_height ∧
      post.m_frameYUV420 = c.m_frameYUV420 ∧
      post.m_frameYUV420next = c.m_frameYUV420next ∧
      post.m_hasGray = c.m_hasGray ∧ post.m_hasColor = c.m_hasColor ∧
      { post with m_activity := c.m_activity } = c) ∧
    ((0 < bufferSize ∨ 0 ≤ a.frameWidth * a.frameHeight * 3) →
      setFrame c buffer bufferSize = some c) := by
  have hset : ∀ (c1 : CvCapture_Android) (a1 : CameraActivity), c1.m_activity = some a1 →
      a1.frameWidth = a.frameWidth → a1.frameHeight = a.frameHeight →
      (0 < bufferSize ∨ 0 ≤ a.frameWidth * a.frameHeight * 3) →
      setFrame c1 buffer bufferSize = some c1 := by
    intro c1 a1 h1 hw hh hor
    have hne : (a.frameWidth * a.frameHeight * 3) >>> (1 : Nat) ≠ bufferSize := by
      intro heq
      apply hsize
      unfold frameSize
      rcases hor with hp | hn
      · exact ((expectedSize_eq_iff _ _ hp).1 heq).symm
      · exact ((expectedSize_eq_iff_of_nonneg _ _ hn).1 heq).symm
    unfold setFrame
    simp [h1, hw, hh, hne]
  refine ⟨?_, hset c a hact rfl rfl⟩
  unfold onFrameBuffer
  simp only [hact]
  by_cases hguard : (a.connected && buffer.isSome && decide (bufferSize > 0)) = true
  · simp only [hguard, if_true]
    have hpos : 0 < bufferSize := by
      simp only [Bool.and_eq_true, decide_eq_true_eq] at hguard
      exact hguard.2
    by_cases hflag : (c.m_waitingNextFrame || c.m_shouldAutoGrab) = true
    · simp only [hflag, if_true]
      rw [hset _ { a with m_framesReceived := a.m_framesReceived + 1 } rfl rfl rfl (Or.inl hpos)]
      exact ⟨true, _, rfl, rfl, rfl, rfl, rfl, rfl, rfl, rfl, rfl, by first | rfl | rw [← hact]⟩
    · simp only [hflag]
      exact ⟨true, _, rfl, rfl, rfl, rfl, rfl, rfl, rfl, rfl, rfl, by first | rfl | rw [← hact]⟩
  · simp only [hguard]
    exact ⟨false, _, rfl, rfl, rfl, rfl, rfl, rfl, rfl, rfl, rfl, by first | rfl | rw [← hact]⟩

/-- C4, witness: 640x480 reported, 1000 bytes announced, on a capture that waits for a
frame. -/
theorem setFrame_wrong_size_witness :
    (∃ r post,
      onFrameBuffer
        { CvCapture_Android.create { demoActivity with frameWidth := 640, frameHeight := 480 } true
          with m_waitingNextFrame := true }
        (some (List.replicate 1000 7)) 1000 = Outcome.ok r post ∧
      post.m_dataState = CVCAPTURE_ANDROID_STATE_NO_FRAME ∧
      post.m_waitingNextFrame = true ∧
      post.m_width = 0 ∧ post.m_height = 0 ∧
      post.m_frameYUV420 = none ∧ post.m_frameYUV420next = none ∧
      post.m_hasGray = false ∧ post.m_hasColor = false) ∧
    (1000 : Int) ≠ frameSize { demoActivity with frameWidth := 640, frameHeight := 480 } := by
  have h := (setFrame_wrong_size
    { CvCapture_Android.create { demoActivity with frameWidth := 640, frameHeight := 480 } true
      with m_waitingNextFrame := true }
    { demoActivity with frameWidth := 640, frameHeight := 480, m_framesReceived := 0 }
    (some (List.replicate 1000 7)) 1000 rfl (by decide)).1
  obtain ⟨r, post, h0, h1, h2, h3, h4, h5, h6, h7, h8, -⟩ := h
  exact ⟨⟨r, post, h0, h1, h2, h3, h4, h5, h6, h7, h8⟩, by decide⟩

end CapAndroid

namespace CapAndroid

/-! ## What a delivery may touch -/

/-- A defined `memcpy` writes into the destination array and keeps its address. -/
theorem memcpy_addr (dst : Option Buffer) (src : Option (List Nat)) (n : Int) (f : Buffer)
    (h : memcpy dst src n = some f) : ∃ d, dst = some d ∧ f.addr = d.addr := by
  cases dst with
  | none => simp [memcpy] at h
  | some d =>
    cases src with
    | none => simp [memcpy] at h
    | some s =>
      simp only [memcpy] at h
      split at h
      · injection h with h
        subst h
        exact ⟨d, rfl, rfl⟩
      · simp at h

/-- What `prepareCacheForYUV` leaves behind. -/
theorem prepareCacheForYUV_eq (c c1 : CvCapture_Android) (width height : Int)
    (h : prepareCacheForYUV c width height = some c1) :
    ((width = c.m_width ∧ height = c.m_height) → c1 = c) ∧
    ((width ≠ c.m_width ∨ height ≠ c.m_height) →
      0 ≤ Int.tdiv (width * height * 3) 2 ∧
      c1 = { c with
        m_width := width
        m_height := height
        m_frameYUV420next := some
          { addr := c.heapTop, bytes := List.replicate (Int.tdiv (width * height * 3) 2).toNat 0 }
        m_frameYUV420 := some
          { addr := c.heapTop + 1, bytes := List.replicate (Int.tdiv (width * height * 3) 2).toNat 0 }
        heapTop := c.heapTop + 2 }) := by
  unfold prepareCacheForYUV at h
  by_cases hdim : width ≠ c.m_width ∨ height ≠ c.m_height
  · simp only [hdim, if_true] at h
    by_cases hneg : Int.tdiv (width * height * 3) 2 < 0
    · simp [hneg] at h
    · simp only [hneg, if_false, Option.some.injEq] at h
      refine ⟨fun hh => absurd hdim (by simp [hh.1, hh.2]), fun _ => ⟨by omega, h.symm⟩⟩
  · simp only [hdim, if_false, Option.some.injEq] at h
    exact ⟨fun _ => h.symm, fun hh => absurd hh hdim⟩

/-- The frame of `setFrame`: the caches are never touched; the current buffer is replaced
exactly when the call goes past the size test with a size different from the stored one. -/
theorem setFrame_frame (c post : CvCapture_Android) (a : CameraActivity)
    (buffer : Option (List Nat)) (bufferSize : Int) (hact : c.m_activity = some a)
    (h : setFrame c buffer bufferSize = some post) :
    post.m_hasGray = c.m_hasGray ∧ post.m_hasColor = c.m_hasColor ∧
    post.m_frameGray = c.m_frameGray ∧ post.m_frameColor = c.m_frameColor ∧
    post.m_activity = c.m_activity ∧
    (((a.frameWidth * a.frameHeight * 3) >>> (1 : Nat) ≠ bufferSize ∨
        (a.frameWidth = c.m_width ∧ a.frameHeight = c.m_height)) →
      post.m_frameYUV420 = c.m_frameYUV420 ∧
      post.m_frameYUV420next.map Buffer.addr = c.m_frameYUV420next.map Buffer.addr ∧
      { post with
          m_frameYUV420next := c.m_frameYUV420next
          m_dataState := c.m_dataState
          m_waitingNextFrame := c.m_waitingNextFrame } = c) ∧
    (((a.frameWidth * a.frameHeight * 3) >>> (1 : Nat) = bufferSize ∧
        (a.frameWidth ≠ c.m_width ∨ a.frameHeight ≠ c.m_height)) →
      post.m_frameYUV420 = some
        { addr := c.heapTop + 1
          bytes := List.replicate (Int.tdiv (a.frameWidth * a.frameHeight * 3) 2).toNat 0 } ∧
      post.m_frameYUV420next.map Buffer.addr = some c.heapTop) := by
  unfold setFrame at h
  simp only [hact] at h
  by_cases hexp : (a.frameWidth * a.frameHeight * 3) >>> (1 : Nat) ≠ bufferSize
  · simp only [hexp, ne_eq, not_false_eq_true, if_true, Option.some.injEq] at h
    subst h
    refine ⟨rfl, rfl, rfl, rfl, rfl, fun _ => ⟨rfl, rfl, rfl⟩, fun hh => absurd hh.1 hexp⟩
  · simp only [hexp, if_false] at h
    cases hp : prepareCacheForYUV c a.frameWidth a.frameHeight with
    | none => simp [hp] at h
    | some c1 =>
      obtain ⟨hsame, hdiff⟩ := prepareCacheForYUV_eq c c1 _ _ hp
      simp only [hp] at h
      cases hm : memcpy c1.m_frameYUV420next buffer bufferSize with
      | none => simp [hm] at h
      | some filled =>
        obtain ⟨d, hd, hfa⟩ := memcpy_addr _ _ _ _ hm
        simp only [hm, Option.some.injEq] at h
        subst h
        by_cases hdim : a.frameWidth ≠ c.m_width ∨ a.frameHeight ≠ c.m_height
        · obtain ⟨-, hc1⟩ := hdiff hdim
          subst hc1
          injection hd with hd
          subst hd
          refine ⟨rfl, rfl, rfl, rfl, rfl, ?_, fun _ => ⟨rfl, by simp [hfa]⟩⟩
          rintro (h1 | h1)
          · exact absurd h1 hexp
          · exact absurd hdim (by simp [h1.1, h1.2])
        · have hw : a.frameWidth = c.m_width := by
            by_contra h2
            exact hdim (Or.inl h2)
          have hh : a.frameHeight = c.m_height := by
            by_contra h2
            exact hdim (Or.inr h2)
          have hc1 := hsame ⟨hw, hh⟩
          subst hc1
          refine ⟨rfl, rfl, rfl, rfl, rfl, fun _ => ⟨rfl, ?_, rfl⟩, fun h2 => absurd h2.2 hdim⟩
          simp [hd, hfa]

end CapAndroid

namespace CapAndroid

/-- What a returned delivery leaves untouched, by acceptance and by change of size. -/
theorem onFrameBuffer_frame (c post : CvCapture_Android) (a : CameraActivity)
    (buffer : Option (List Nat)) (bufferSize : Int) (r : Bool)
    (hact : c.m_activity = some a)
    (h : onFrameBuffer c buffer bufferSize = Outcome.ok r post) :
    (post.m_hasGray = c.m_hasGray ∧ post.m_hasColor = c.m_hasColor ∧
      post.m_frameGray = c.m_frameGray ∧ post.m_frameColor = c.m_frameColor) ∧
    ((¬ (a.connected = true ∧ buffer.isSome = true ∧ 0 < bufferSize ∧
          (c.m_waitingNextFrame = true ∨ c.m_shouldAutoGrab = true) ∧
          (a.frameWidth * a.frameHeight * 3) >>> (1 : Nat) = bufferSize) ∨
        (a.frameWidth = c.m_width ∧ a.frameHeight = c.m_height)) →
      post.m_frameYUV420 = c.m_frameYUV420 ∧
      post.m_frameYUV420next.map Buffer.addr = c.m_frameYUV420next.map Buffer.addr ∧
      { post with
          m_activity := c.m_activity
          m_frameYUV420next := c.m_frameYUV420next
          m_dataState := c.m_dataState
          m_waitingNextFrame := c.m_waitingNextFrame } = c) ∧
    ((a.connected = true ∧ buffer.isSome = true ∧ 0 < bufferSize ∧
        (c.m_waitingNextFrame = true ∨ c.m_shouldAutoGrab = true) ∧
        (a.frameWidth * a.frameHeight * 3) >>> (1 : Nat) = bufferSize ∧
        (a.frameWidth ≠ c.m_width ∨ a.frameHeight ≠ c.m_height)) →
      post.m_frameYUV420 = some
        { addr := c.heapTop + 1
          bytes := List.replicate (Int.tdiv (a.frameWidth * a.frameHeight * 3) 2).toNat 0 } ∧
      post.m_frameYUV420next.map Buffer.addr = some c.heapTop) := by
  unfold onFrameBuffer at h
  simp only [hact] at h
  by_cases hguard : (a.connected && buffer.isSome && decide (bufferSize > 0)) = true
  · have hg := hguard
    simp only [Bool.and_eq_true, decide_eq_true_eq] at hg
    obtain ⟨⟨hconn, hbuf⟩, hpos⟩ := hg
    simp only [hguard, if_true] at h
    by_cases hflag : (c.m_waitingNextFrame || c.m_shouldAutoGrab) = true
    · have hf := hflag
      simp only [Bool.or_eq_true] at hf
      simp only [hflag, if_true] at h
      cases hs : setFrame
          { c with m_activity := some { a with m_framesReceived := a.m_framesReceived + 1 } }
          buffer bufferSize with
      | none => simp [hs] at h
      | some c2 =>
        simp only [hs, Outcome.ok.injEq] at h
        obtain ⟨-, hpost⟩ := h
        subst hpost
        obtain ⟨h1, h2, h3, h4, h5, h6, h7⟩ :=
          setFrame_frame _ c2 { a with m_framesReceived := a.m_framesReceived + 1 } buffer
            bufferSize rfl hs
        refine ⟨⟨h1, h2, h3, h4⟩, ?_, ?_⟩
        · intro hcase
          have hcase2 : (a.frameWidth * a.frameHeight * 3) >>> (1 : Nat) ≠ bufferSize ∨
              (a.frameWidth = c.m_width ∧ a.frameHeight = c.m_height) := by
            rcases hcase with hn | hd
            · left
              intro heq
              exact hn ⟨hconn, hbuf, hpos, hf, heq⟩
            · exact Or.inr hd
          obtain ⟨g1, g2, g3⟩ := h6 hcase2
          refine ⟨g1, g2, ?_⟩
          have g4 := congrArg (fun s : CvCapture_Android => { s with m_activity := c.m_activity }) g3
          exact g4
        · intro hcase
          exact h7 ⟨hcase.2.2.2.2.1, hcase.2.2.2.2.2⟩
    · simp only [hflag, Bool.false_eq_true, if_false, Outcome.ok.injEq] at h
      obtain ⟨-, hpost⟩ := h
      subst hpost
      have hf : ¬ (c.m_waitingNextFrame = true ∨ c.m_shouldAutoGrab = true) := by
        simpa [Bool.or_eq_true] using hflag
      refine ⟨⟨rfl, rfl, rfl, rfl⟩, fun _ => ⟨rfl, rfl, rfl⟩, fun hcase => ?_⟩
      exact absurd hcase.2.2.2.1 hf
  · simp only [hguard, Bool.false_eq_true, if_false, Outcome.ok.injEq] at h
    obtain ⟨-, hpost⟩ := h
    subst hpost
    refine ⟨⟨rfl, rfl, rfl, rfl⟩, fun _ => ⟨rfl, rfl, rfl⟩, fun hcase => ?_⟩
    apply absurd _ hguard
    simp [hcase.1, hcase.2.1, hcase.2.2.1]

end CapAndroid

namespace CapAndroid

/-- Fields `setFrame` never writes, and what it writes when the size test passes. -/
theorem setFrame_shape (c post : CvCapture_Android) (a : CameraActivity)
    (buffer : Option (List Nat)) (bufferSize : Int) (hact : c.m_activity = some a)
    (h : setFrame c buffer bufferSize = some post) :
    { post with
        m_width := c.m_width
        m_height := c.m_height
        m_frameYUV420 := c.m_frameYUV420
        m_frameYUV420next := c.m_frameYUV420next
        m_dataState := c.m_dataState
        m_waitingNextFrame := c.m_waitingNextFrame
        heapTop := c.heapTop } = c ∧
    ((a.frameWidth * a.frameHeight * 3) >>> (1 : Nat) ≠ bufferSize → post = c) ∧
    ((a.frameWidth * a.frameHeight * 3) >>> (1 : Nat) = bufferSize →
      post.m_dataState = CVCAPTURE_ANDROID_STATE_HAS_NEW_FRAME_UNGRABBED ∧
      post.m_waitingNextFrame = false) := by
  unfold setFrame at h
  simp only [hact] at h
  by_cases hexp : (a.frameWidth * a.frameHeight * 3) >>> (1 : Nat) ≠ bufferSize
  · simp only [hexp, ne_eq, not_false_eq_true, if_true, Option.some.injEq] at h
    subst h
    exact ⟨rfl, fun _ => rfl, fun hh => absurd hh hexp⟩
  · simp only [hexp, if_false] at h
    cases hp : prepareCacheForYUV c a.frameWidth a.frameHeight with
    | none => simp [hp] at h
    | some c1 =>
      obtain ⟨hsame, hdiff⟩ := prepareCacheForYUV_eq c c1 _ _ hp
      simp only [hp] at h
      cases hm : memcpy c1.m_frameYUV420next buffer bufferSize with
      | none => simp [hm] at h
      | some filled =>
        simp only [hm, Option.some.injEq] at h
        subst h
        refine ⟨?_, fun hh => absurd hh hexp, fun _ => ⟨rfl, rfl⟩⟩
        by_cases hdim : a.frameWidth ≠ c.m_width ∨ a.frameHeight ≠ c.m_height
        · obtain ⟨-, hc1⟩ := hdiff hdim
          subst hc1
          rfl
        · have hw : a.frameWidth = c.m_width := by
            by_contra h2
            exact hdim (Or.inl h2)
          have hh : a.frameHeight = c.m_height := by
            by_contra h2
            exact hdim (Or.inr h2)
          have hc1 := hsame ⟨hw, hh⟩
          subst hc1
          rfl

/-- The shape of a returned `onFrameBuffer`: the collaborator changes in its counter only,
the capture changes in the fields `setFrame` writes only, and a delivery that is null,
empty or of the wrong size changes nothing else at all. -/
theorem onFrameBuffer_shape (c post : CvCapture_Android) (a : CameraActivity)
    (buffer : Option (List Nat)) (bufferSize : Int) (r : Bool)
    (hact : c.m_activity = some a)
    (h : onFrameBuffer c buffer bufferSize = Outcome.ok r post) :
    (∃ a1, post.m_activity = some a1 ∧ { a1 with m_framesReceived := a.m_framesReceived } = a) ∧
    { post with
        m_activity := c.m_activity
        m_width := c.m_width
        m_height := c.m_height
        m_frameYUV420 := c.m_frameYUV420
        m_frameYUV420next := c.m_frameYUV420next
        m_dataState := c.m_dataState
        m_waitingNextFrame := c.m_waitingNextFrame
        heapTop := c.heapTop } = c ∧
    (¬ (buffer.isSome = true ∧ 0 < bufferSize ∧
        (a.frameWidth * a.frameHeight * 3) >>> (1 : Nat) = bufferSize) →
      { post with m_activity := c.m_activity } = c) := by
  unfold onFrameBuffer at h
  simp only [hact] at h
  by_cases hguard : (a.connected && buffer.isSome && decide (bufferSize > 0)) = true
  · have hg := hguard
    simp only [Bool.and_eq_true, decide_eq_true_eq] at hg
    obtain ⟨⟨hconn, hbuf⟩, hpos⟩ := hg
    simp only [hguard, if_true] at h
    by_cases hflag : (c.m_waitingNextFrame || c.m_shouldAutoGrab) = true
    · simp only [hflag, if_true] at h
      cases hs : setFrame
          { c with m_activity := some { a with m_framesReceived := a.m_framesReceived + 1 } }
          buffer bufferSize with
      | none => simp [hs] at h
      | some c2 =>
        simp only [hs, Outcome.ok.injEq] at h
        obtain ⟨-, hpost⟩ := h
        subst hpost
        obtain ⟨h1, h2, h3⟩ :=
          setFrame_shape _ c2 { a with m_framesReceived := a.m_framesReceived + 1 } buffer
            bufferSize rfl hs
        have hact2 : c2.m_activity =
            some { a with m_framesReceived := a.m_framesReceived + 1 } := by
          have := congrArg CvCapture_Android.m_activity h1
          exact this
        refine ⟨⟨_, hact2, rfl⟩, ?_, ?_⟩
        · exact congrArg (fun s : CvCapture_Android => { s with m_activity := c.m_activity }) h1
        · intro hrej
          have hne : (a.frameWidth * a.frameHeight * 3) >>> (1 : Nat) ≠ bufferSize :=
            fun heq => hrej ⟨hbuf, hpos, heq⟩
          rw [h2 hne]
    · simp only [hflag, Bool.false_eq_true, if_false, Outcome.ok.injEq] at h
      obtain ⟨-, hpost⟩ := h
      subst hpost
      exact ⟨⟨_, rfl, rfl⟩, rfl, fun _ => rfl⟩
  · simp only [hguard, Bool.false_eq_true, if_false, Outcome.ok.injEq] at h
    obtain ⟨-, hpost⟩ := h
    subst hpost
    refine ⟨⟨a, hact, rfl⟩, rfl, fun _ => rfl⟩

end CapAndroid

namespace CapAndroid

/-- A run of deliveries that returns changes the collaborator in its counter only and the
capture in the fields `setFrame` writes only; if no delivery in it is non-null, positive
and of the expected size, the capture is otherwise exactly as before. -/
theorem deliverAll_shape (ds : List Delivery) :
    ∀ (c post : CvCapture_Android) (a : CameraActivity), c.m_activity = some a →
      deliverAll c ds = some post →
      (∃ a1, post.m_activity = some a1 ∧ { a1 with m_framesReceived := a.m_framesReceived } = a) ∧
      { post with
          m_activity := c.m_activity
          m_width := c.m_width
          m_height := c.m_height
          m_frameYUV420 := c.m_frameYUV420
          m_frameYUV420next := c.m_frameYUV420next
          m_dataState := c.m_dataState
          m_waitingNextFrame := c.m_waitingNextFrame
          heapTop := c.heapTop } = c ∧
      ((∀ d ∈ ds, ¬ (d.buffer.isSome = true ∧ 0 < d.bufferSize ∧
          (a.frameWidth * a.frameHeight * 3) >>> (1 : Nat) = d.bufferSize)) →
        { post with m_activity := c.m_activity } = c) := by
  induction ds with
  | nil =>
    intro c post a hact h
    simp only [deliverAll, Option.some.injEq] at h
    subst h
    exact ⟨⟨a, hact, rfl⟩, rfl, fun _ => rfl⟩
  | cons d rest ih =>
    intro c post a hact h
    simp only [deliverAll] at h
    cases ho : onFrameBuffer c d.buffer d.bufferSize with
    | undefined => simp [ho] at h
    | raised code p => simp [ho] at h
    | ok r mid =>
      simp only [ho] at h
      obtain ⟨⟨a1, hmid, ha1⟩, e1, e1rej⟩ := onFrameBuffer_shape c mid a _ _ r hact ho
      obtain ⟨⟨a2, hpost, ha2⟩, e2, e2rej⟩ := ih mid post a1 hmid h
      have hw : a1.frameWidth = a.frameWidth := by
        have := congrArg CameraActivity.frameWidth ha1
        exact this
      have hh : a1.frameHeight = a.frameHeight := by
        have := congrArg CameraActivity.frameHeight ha1
        exact this
      refine ⟨⟨a2, hpost, ?_⟩, ?_, ?_⟩
      · have := congrArg
          (fun x : CameraActivity => { x with m_framesReceived := a.m_framesReceived }) ha2
        exact this.trans ha1
      · exact (congrArg (fun s : CvCapture_Android =>
          { s with
            m_activity := c.m_activity
            m_width := c.m_width
            m_height := c.m_height
            m_frameYUV420 := c.m_frameYUV420
            m_frameYUV420next := c.m_frameYUV420next
            m_dataState := c.m_dataState
            m_waitingNextFrame := c.m_waitingNextFrame
            heapTop := c.heapTop }) e2).trans e1
      · intro hnone
        have h1 := e1rej (hnone d (List.mem_cons_self _ _))
        have h2 := e2rej (fun d' hd' => by
          rw [hw, hh]
          exact hnone d' (List.mem_cons_of_mem _ hd'))
        exact (congrArg (fun s : CvCapture_Android =>
          { s with m_activity := c.m_activity }) h2).trans h1

/-- The format resolution writes `m_frameFormat` only and leaves it resolved. -/
theorem resolveFrameFormat_spec (c c0 : CvCapture_Android)
    (h : resolveFrameFormat c = some c0) :
    c0.m_frameFormat ≠ YUVformat.noformat ∧ c0 = { c with m_frameFormat := c0.m_frameFormat } := by
  unfold resolveFrameFormat at h
  by_cases hf : c.m_frameFormat = YUVformat.noformat
  · simp only [hf, if_true] at h
    unfold getProperty at h
    cases ha : c.m_activity with
    | none => simp [ha] at h
    | some a =>
      simp only [ha] at h
      by_cases h1 : a.previewFormat = "yuv420sp"
      · rw [if_pos h1] at h
        injection h with h
        subst h
        exact ⟨by simp, rfl⟩
      · by_cases h2 : a.previewFormat = "yuv420i"
        · rw [if_neg h1, if_pos h2] at h
          injection h with h
          subst h
          exact ⟨by simp, rfl⟩
        · rw [if_neg h1, if_neg h2] at h
          injection h with h
          subst h
          exact ⟨by simp, rfl⟩
  · simp only [hf, if_false, Option.some.injEq] at h
    subst h
    exact ⟨hf, rfl⟩

/-- A resolved format is not resolved again. -/
theorem resolveFrameFormat_resolved (c : CvCapture_Android)
    (h : c.m_frameFormat ≠ YUVformat.noformat) : resolveFrameFormat c = some c := by
  simp [resolveFrameFormat, h]

/-- The colour branch writes the colour cache and the call counter only. -/
theorem retrieveColor_shape (c post : CvCapture_Android) (cur : Option Buffer)
    (inRGBorder withAlpha : Bool)
    (h : (retrieveColor c cur inRGBorder withAlpha).post? = some post) :
    { post with
        m_frameColor := c.m_frameColor
        m_hasColor := c.m_hasColor
        convertCalls := c.convertCalls } = c := by
  unfold retrieveColor at h
  by_cases hc : c.m_hasColor = true
  · simp only [hc, Bool.not_true, Bool.false_eq_true, if_false, Outcome.post?,
      Option.some.injEq] at h
    subst h
    rfl
  · have hc' : c.m_hasColor = false := by simpa using hc
    simp only [hc', Bool.not_false, if_true] at h
    generalize convertYUV2BGR _ _ _ _ _ _ _ = res at h
    cases res with
    | undefined => simp [Outcome.post?] at h
    | assertFailed =>
      simp only [Outcome.post?, Option.some.injEq] at h
      subst h
      rfl
    | done ret resmat =>
      cases ret with
      | false =>
        simp only [Bool.not_false, if_true, Outcome.post?, Option.some.injEq] at h
        subst h
        rfl
      | true =>
        simp only [Bool.not_true, Bool.false_eq_true, if_false, Outcome.post?,
          Option.some.injEq] at h
        subst h
        rfl

/-- Whether it returns or throws, `retrieveFrame` writes the pixel format, the two caches
and the call counter only. -/
theorem retrieveFrame_shape (c post : CvCapture_Android) (outputType : OutputType)
    (h : (retrieveFrame c outputType).post? = some post) :
    { post with
        m_frameFormat := c.m_frameFormat
        m_frameGray := c.m_frameGray
        m_frameColor := c.m_frameColor
        m_hasGray := c.m_hasGray
        m_hasColor := c.m_hasColor
        convertCalls := c.convertCalls } = c := by
  unfold retrieveFrame at h
  cases hcur : c.m_frameYUV420 with
  | none =>
    simp only [hcur, Outcome.post?, Option.some.injEq] at h
    subst h
    rfl
  | some cur =>
    simp only [hcur] at h
    cases hres : resolveFrameFormat c with
    | none => simp [hres, Outcome.post?] at h
    | some c0 =>
      simp only [hres] at h
      obtain ⟨-, hc0⟩ := resolveFrameFormat_spec c c0 hres
      have hfin : ∀ p : CvCapture_Android,
          { p with
            m_frameGray := c0.m_frameGray
            m_frameColor := c0.m_frameColor
            m_hasGray := c0.m_hasGray
            m_hasColor := c0.m_hasColor
            convertCalls := c0.convertCalls } = c0 →
          { p with
            m_frameFormat := c.m_frameFormat
            m_frameGray := c.m_frameGray
            m_frameColor := c.m_frameColor
            m_hasGray := c.m_hasGray
            m_hasColor := c.m_hasColor
            convertCalls := c.convertCalls } = c := by
        intro p hp
        have hG : c0.m_frameGray = c.m_frameGray := by rw [hc0]
        have hC : c0.m_frameColor = c.m_frameColor := by rw [hc0]
        have hHG : c0.m_hasGray = c.m_hasGray := by rw [hc0]
        have hHC : c0.m_hasColor = c.m_hasColor := by rw [hc0]
        have hCC : c0.convertCalls = c.convertCalls := by rw [hc0]
        have h1 := congrArg (fun x : CvCapture_Android =>
          { x with m_frameFormat := c.m_frameFormat }) hp
        have h2 := congrArg (fun x : CvCapture_Android =>
          { x with m_frameFormat := c.m_frameFormat }) hc0
        rw [← hG, ← hC, ← hHG, ← hHC, ← hCC]
        exact h1.trans h2
      have hcol : ∀ (rgb alpha : Bool),
          (retrieveColor c0 (some cur) rgb alpha).post? = some post →
          { post with
            m_frameGray := c0.m_frameGray
            m_frameColor := c0.m_frameColor
            m_hasGray := c0.m_hasGray
            m_hasColor := c0.m_hasColor
            convertCalls := c0.convertCalls } = c0 := by
        intro rgb alpha hh
        have h1 := retrieveColor_shape c0 post _ _ _ hh
        exact congrArg (fun x : CvCapture_Android =>
          { x with m_frameGray := c0.m_frameGray, m_hasGray := c0.m_hasGray }) h1
      apply hfin
      cases outputType with
      | CV_CAP_ANDROID_GREY_FRAME =>
        simp only at h
        by_cases hg : c0.m_hasGray = true
        · simp only [hg, Bool.not_true, Bool.false_eq_true, if_false, Outcome.post?,
            Option.some.injEq] at h
          subst h
          rfl
        · have hg' : c0.m_hasGray = false := by simpa using hg
          simp only [hg', Bool.not_false, if_true] at h
          generalize convertYUV2Grey _ _ _ _ _ = res at h
          cases res with
          | undefined => simp [Outcome.post?] at h
          | assertFailed =>
            simp only [Outcome.post?, Option.some.injEq] at h
            subst h
            rfl
          | done ret resmat =>
            cases ret with
            | false =>
              simp only [Bool.not_false, if_true, Outcome.post?, Option.some.injEq] at h
              subst h
              rfl
            | true =>
              simp only [Bool.not_true, Bool.false_eq_true, if_false, Outcome.post?,
                Option.some.injEq] at h
              subst h
              rfl
      | CV_CAP_ANDROID_COLOR_FRAME_BGR => exact hcol _ _ h
      | CV_CAP_ANDROID_COLOR_FRAME_RGB => exact hcol _ _ h
      | CV_CAP_ANDROID_COLOR_FRAME_BGRA => exact hcol _ _ h
      | CV_CAP_ANDROID_COLOR_FRAME_RGBA => exact hcol _ _ h
      | unsupported v =>
        simp only [Outcome.post?, Option.some.injEq] at h
        subst h
        rfl

/-- No call other than `grabFrame` closes the capture, drops the collaborator or clears
a pending change of the frame size. -/
theorem Call.exec_keeps (call : Call) (c post : CvCapture_Android)
    (hopen : c.m_isOpened = true) (hact : c.m_activity.isSome = true)
    (h : call.exec c = some post) :
    post.m_isOpened = true ∧ post.m_activity.isSome = true ∧
    (c.m_CameraParamsChanged = true → post.m_CameraParamsChanged = true) := by
  obtain ⟨a, ha⟩ := Option.isSome_iff_exists.1 hact
  cases call with
  | deliver buffer bufferSize =>
    simp only [Call.exec] at h
    cases ho : onFrameBuffer c buffer bufferSize with
    | undefined => simp [ho, Outcome.post?] at h
    | raised code p =>
      exfalso
      unfold onFrameBuffer at ho
      simp only [ha] at ho
      split at ho
      · split at ho
        · split at ho <;> simp at ho
        · simp at ho
      · simp at ho
    | ok r p =>
      simp only [ho, Outcome.post?, Option.some.injEq] at h
      subst h
      obtain ⟨⟨a1, h1, -⟩, hshape, -⟩ := onFrameBuffer_shape c p a _ _ r ha ho
      have e1 : p.m_isOpened = c.m_isOpened := by
        have := congrArg CvCapture_Android.m_isOpened hshape
        exact this
      have e2 : p.m_CameraParamsChanged = c.m_CameraParamsChanged := by
        have := congrArg CvCapture_Android.m_CameraParamsChanged hshape
        exact this
      exact ⟨e1.trans hopen, by simp [h1], fun hf => e2.trans hf⟩
  | retrieve outputType =>
    simp only [Call.exec] at h
    have hshape := retrieveFrame_shape c post outputType h
    have e1 : post.m_isOpened = c.m_isOpened := by
      have := congrArg CvCapture_Android.m_isOpened hshape
      exact this
    have e2 : post.m_CameraParamsChanged = c.m_CameraParamsChanged := by
      have := congrArg CvCapture_Android.m_CameraParamsChanged hshape
      exact this
    have e3 : post.m_activity = c.m_activity := by
      have := congrArg CvCapture_Android.m_activity hshape
      exact this
    exact ⟨e1.trans hopen, by rw [e3]; exact hact, fun hf => e2.trans hf⟩
  | setProp propIdx propValue =>
    simp only [Call.exec, setProperty, isOpened, hopen, if_true, ha] at h
    cases propIdx <;>
      simp only [Outcome.post?, Option.some.injEq] at h <;>
      subst h <;>
      refine ⟨?_, ?_, ?_⟩ <;>
      first
        | rfl
        | exact hopen
        | exact hact
        | exact fun hf => hf
        | exact fun _ => rfl
  | getProp propIdx =>
    simp only [Call.exec, getProperty, ha] at h
    cases propIdx <;>
      simp only [Outcome.post?, Option.some.injEq] at h <;>
      subst h <;>
      exact ⟨hopen, hact, fun hf => hf⟩

/-- The same for a sequence of calls. -/
theorem execAll_keeps (calls : List Call) :
    ∀ (c post : CvCapture_Android), c.m_isOpened = true → c.m_activity.isSome = true →
      execAll c calls = some post →
      post.m_isOpened = true ∧ post.m_activity.isSome = true ∧
      (c.m_CameraParamsChanged = true → post.m_CameraParamsChanged = true) := by
  induction calls with
  | nil =>
    intro c post hopen hact h
    simp only [execAll, Option.some.injEq] at h
    subst h
    exact ⟨hopen, hact, fun hf => hf⟩
  | cons call rest ih =>
    intro c post hopen hact h
    simp only [execAll] at h
    cases he : call.exec c with
    | none => simp [he] at h
    | some mid =>
      simp only [he] at h
      obtain ⟨h1, h2, h3⟩ := call.exec_keeps c mid hopen hact he
      obtain ⟨h4, h5, h6⟩ := ih mid post h1 h2 h
      exact ⟨h4, h5, fun hf => h6 (h3 hf)⟩

/-! ## grabFrame after a change of the frame size -/

/-- C8: after a successful `setProperty` for the frame width or height on an opened
capture, and whatever calls other than `grabFrame` follow it (deliveries, `retrieveFrame`,
`setProperty`, `getProperty`), the pending flag is still set at the next `grabFrame`; that
`grabFrame` applies the properties to the collaborator, clears the flag, forces the data
state to `NO_FRAME`, raises the waiting flag and suspends, whatever the data state was when
the call started.  Woken with no delivery it returns false; whenever it returns true, one
of the deliveries completed during its wait was non-null, of positive size and of the size
expected for the dimensions the collaborator reports after `applyProperties`. -/
theorem grabFrame_after_size_change (c0 : CvCapture_Android) (a0 : CameraActivity)
    (propIdx : PropIdx) (propValue : Int) (before : List Call)
    (hopen : isOpened c0 = true) (hact0 : c0.m_activity = some a0)
    (hidx : propIdx = CV_CAP_PROP_FRAME_WIDTH ∨ propIdx = CV_CAP_PROP_FRAME_HEIGHT) :
    ∃ c1, setProperty c0 propIdx propValue = Outcome.ok true c1 ∧
      ∀ c, execAll c1 before = some c →
        ∃ a, c.m_activity = some a ∧ c.m_CameraParamsChanged = true ∧
          grabFrameBegin c = some
            ({ c with
                m_activity := some a.applyProperties
                m_CameraParamsChanged := false
                m_dataState := CVCAPTURE_ANDROID_STATE_NO_FRAME
                m_waitingNextFrame := true }, true) ∧
          grabFrame c [] = Outcome.ok false
            { c with
                m_activity := some a.applyProperties
                m_CameraParamsChanged := false
                m_dataState := CVCAPTURE_ANDROID_STATE_NO_FRAME
                m_waitingNextFrame := true } ∧
          ∀ wake r post, grabFrame c wake = Outcome.ok r post →
            post.m_CameraParamsChanged = false ∧
            (r = true → ∃ d ∈ wake, d.buffer.isSome = true ∧ 0 < d.bufferSize ∧
              (a.applyProperties.frameWidth * a.applyProperties.frameHeight * 3) >>> (1 : Nat)
                = d.bufferSize) := by
  have hopen' : c0.m_isOpened = true := hopen
  have hset : ∃ c1, setProperty c0 propIdx propValue = Outcome.ok true c1 ∧
      c1.m_CameraParamsChanged = true ∧ c1.m_isOpened = true ∧ ∃ a1, c1.m_activity = some a1 := by
    rcases hidx with h | h
    · subst h
      refine ⟨{ c0 with m_activity := some (a0.setFrameWidthProperty propValue)
                        m_CameraParamsChanged := true }, ?_, rfl, hopen', _, rfl⟩
      simp [setProperty, hopen, hact0]
    · subst h
      refine ⟨{ c0 with m_activity := some (a0.setFrameHeightProperty propValue)
                        m_CameraParamsChanged := true }, ?_, rfl, hopen', _, rfl⟩
      simp [setProperty, hopen, hact0]
  obtain ⟨c1, hc1, hflag1, hopen1, a1, hact1⟩ := hset
  refine ⟨c1, hc1, ?_⟩
  intro c hdel
  obtain ⟨hopenc, hsome, hkeep⟩ := execAll_keeps before c1 c hopen1 (by simp [hact1]) hdel
  obtain ⟨a, hact⟩ := Option.isSome_iff_exists.1 hsome
  have hflag : c.m_CameraParamsChanged = true := hkeep hflag1
  have hbegin : grabFrameBegin c = some
      ({ c with
          m_activity := some a.applyProperties
          m_CameraParamsChanged := false
          m_dataState := CVCAPTURE_ANDROID_STATE_NO_FRAME
          m_waitingNextFrame := true }, true) := by
    simp [grabFrameBegin, hflag, hact]
  refine ⟨a, hact, hflag, hbegin, ?_, ?_⟩
  · rw [grabFrame_opened c [] hopenc]
    simp [stateAtCheck, hbegin, deliverAll, grabFrameResume]
  · intro wake r post hg
    rw [grabFrame_opened c wake hopenc] at hg
    simp only [stateAtCheck, hbegin] at hg
    cases hw : deliverAll
        { c with
            m_activity := some a.applyProperties
            m_CameraParamsChanged := false
            m_dataState := CVCAPTURE_ANDROID_STATE_NO_FRAME
            m_waitingNextFrame := true } wake with
    | none => simp [hw] at hg
    | some c2 =>
      simp only [hw, Outcome.ok.injEq] at hg
      obtain ⟨hr, hpost⟩ := hg
      obtain ⟨-, e2, e2rej⟩ := deliverAll_shape wake _ c2 a.applyProperties rfl hw
      have hflag2 : c2.m_CameraParamsChanged = false :=
        congrArg CvCapture_Android.m_CameraParamsChanged e2
      constructor
      · rw [← hpost]
        unfold grabFrameResume
        split <;> exact hflag2
      · intro hrt
        by_contra hno
        have hall : ∀ d ∈ wake, ¬ (d.buffer.isSome = true ∧ 0 < d.bufferSize ∧
            (a.applyProperties.frameWidth * a.applyProperties.frameHeight * 3) >>> (1 : Nat)
              = d.bufferSize) := fun d hd hv => hno ⟨d, hd, hv⟩
        have hst : c2.m_dataState = CVCAPTURE_ANDROID_STATE_NO_FRAME :=
          congrArg CvCapture_Android.m_dataState (e2rej hall)
        rw [hrt] at hr
        simp [grabFrameResume, hst] at hr

end CapAndroid

namespace CapAndroid

/-! ## The worked examples are reachable -/

/-- The state `demoUngrabbed` is what construction, `setProperty(CV_CAP_PROP_AUTOGRAB, 1)`
and one delivery produce, and `demoGrabbed` is what a `grabFrame` makes of it. -/
theorem demo_states_reachable :
    ∃ c1,
      setProperty (CvCapture_Android.create demoActivity true) CV_CAP_PROP_AUTOGRAB 1
        = Outcome.ok true c1 ∧
      onFrameBuffer c1 (some [1, 2, 3, 4, 5, 6]) 6 = Outcome.ok true demoUngrabbed ∧
      grabFrame demoUngrabbed [] = Outcome.ok true demoGrabbed :=
  ⟨_, rfl, rfl, rfl⟩

/-- C8, witness: the width of a capture holding a new, ungrabbed frame is set to 4; the
next `grabFrame`, woken with no delivery, discards that frame and returns false. -/
theorem grabFrame_after_size_change_witness :
    demoUngrabbed.m_dataState = CVCAPTURE_ANDROID_STATE_HAS_NEW_FRAME_UNGRABBED ∧
    ∃ c1, setProperty demoUngrabbed CV_CAP_PROP_FRAME_WIDTH 4 = Outcome.ok true c1 ∧
      ∃ post, grabFrame c1 [] = Outcome.ok false post ∧
        post.m_dataState = CVCAPTURE_ANDROID_STATE_NO_FRAME ∧
        post.m_CameraParamsChanged = false := by
  obtain ⟨c1, h1, h2⟩ := grabFrame_after_size_change demoUngrabbed
    { demoActivity with m_framesReceived := 1 } CV_CAP_PROP_FRAME_WIDTH 4 [] rfl rfl (Or.inl rfl)
  obtain ⟨a, -, -, -, h3, -⟩ := h2 c1 rfl
  exact ⟨rfl, c1, h1, _, h3, rfl, rfl⟩

/-! ## retrieveFrame -/

/-- C5: evaluation at the failing input.  On the grabbed 2x2 frame `demoGrabbed`
(format `yuv420sp`), `retrieveFrame(BGR)` converts and returns a 3-channel image; the
following `retrieveFrame(BGRA)` enters no conversion and returns that same 3-channel
image. -/
theorem retrieveFrame_BGR_then_BGRA :
    ∃ img3 c1 img c2,
      retrieveFrame demoGrabbed CV_CAP_ANDROID_COLOR_FRAME_BGR = Outcome.ok (some img3) c1 ∧
      img3.nChannels = 3 ∧
      retrieveFrame c1 CV_CAP_ANDROID_COLOR_FRAME_BGRA = Outcome.ok (some img) c2 ∧
      img.nChannels = 3 ∧ img = img3 ∧
      c1.convertCalls = 1 ∧ c2.convertCalls = 1 :=
  ⟨_, _, _, _, rfl, rfl, rfl, rfl, rfl, rfl, rfl⟩

/-- C6: evaluation at the failing input.  In `demoUngrabbed` no `grabFrame` has ever been
called, yet `retrieveFrame` returns an image for each of the five output kinds; the
grey one is a header over the never-written array at address 1. -/
theorem retrieveFrame_before_any_grab :
    demoUngrabbed.m_framesGrabbed = 0 ∧
    (∃ c, retrieveFrame demoUngrabbed CV_CAP_ANDROID_GREY_FRAME =
      Outcome.ok (some { width := 2, height := 2, nChannels := 1, imageData := MatData.user 1 }) c) ∧
    (∃ img c, retrieveFrame demoUngrabbed CV_CAP_ANDROID_COLOR_FRAME_BGR =
      Outcome.ok (some img) c) ∧
    (∃ img c, retrieveFrame demoUngrabbed CV_CAP_ANDROID_COLOR_FRAME_RGB =
      Outcome.ok (some img) c) ∧
    (∃ img c, retrieveFrame demoUngrabbed CV_CAP_ANDROID_COLOR_FRAME_BGRA =
      Outcome.ok (some img) c) ∧
    (∃ img c, retrieveFrame demoUngrabbed CV_CAP_ANDROID_COLOR_FRAME_RGBA =
      Outcome.ok (some img) c) :=
  ⟨rfl, ⟨_, rfl⟩, ⟨_, _, rfl⟩, ⟨_, _, rfl⟩, ⟨_, _, rfl⟩, ⟨_, _, rfl⟩⟩

end CapAndroid

namespace CapAndroid

/-- A colour retrieval that returns an image leaves the colour cache valid and holding
that image, and writes nothing but the cache and the call counter. -/
theorem retrieveColor_image (c c1 : CvCapture_Android) (cur : Option Buffer)
    (inRGBorder withAlpha : Bool) (img : IplImage)
    (h : retrieveColor c cur inRGBorder withAlpha = Outcome.ok (some img) c1) :
    c1.m_hasColor = true ∧ c1.m_frameColor.getIplImagePtr = some img ∧
    c1.m_frameYUV420 = c.m_frameYUV420 ∧ c1.m_frameFormat = c.m_frameFormat := by
  unfold retrieveColor at h
  by_cases hc : c.m_hasColor = true
  · simp only [hc, Bool.not_true, Bool.false_eq_true, if_false, Outcome.ok.injEq] at h
    obtain ⟨h1, h2⟩ := h
    subst h2
    exact ⟨hc, h1, rfl, rfl⟩
  · have hc' : c.m_hasColor = false := by simpa using hc
    simp only [hc', Bool.not_false, if_true] at h
    generalize convertYUV2BGR _ _ _ _ _ _ _ = res at h
    cases res with
    | undefined => simp at h
    | assertFailed => simp at h
    | done ret resmat =>
      simp only at h
      cases ret with
      | false => simp at h
      | true =>
        simp only [Bool.not_true, Bool.false_eq_true, if_false, Outcome.ok.injEq] at h
        obtain ⟨h1, h2⟩ := h
        subst h2
        exact ⟨rfl, h1, rfl, rfl⟩

/-- With a valid colour cache the colour branch returns the cached image and changes
nothing. -/
theorem retrieveColor_cached (c : CvCapture_Android) (cur : Option Buffer)
    (inRGBorder withAlpha : Bool) (h : c.m_hasColor = true) :
    retrieveColor c cur inRGBorder withAlpha = Outcome.ok c.m_frameColor.getIplImagePtr c := by
  simp [retrieveColor, h]

/-- A `retrieveFrame` that returns an image leaves the cache of that output kind valid and
holding that image. -/
theorem retrieveFrame_image_cached (c c1 : CvCapture_Android) (outputType : OutputType)
    (img : IplImage) (h : retrieveFrame c outputType = Outcome.ok (some img) c1) :
    CachedFor c1 outputType img := by
  unfold retrieveFrame at h
  cases hcur : c.m_frameYUV420 with
  | none => simp [hcur] at h
  | some cur =>
    simp only [hcur] at h
    cases hres : resolveFrameFormat c with
    | none => simp [hres] at h
    | some c0 =>
      simp only [hres] at h
      obtain ⟨hfmt, hc0⟩ := resolveFrameFormat_spec c c0 hres
      have hcur0 : c0.m_frameYUV420 = some cur := by
        rw [hc0]
        exact hcur
      have hne0 : c0.m_frameYUV420 ≠ none := by
        rw [hcur0]
        exact Option.some_ne_none cur
      cases outputType with
      | CV_CAP_ANDROID_GREY_FRAME =>
        simp only at h
        by_cases hg : c0.m_hasGray = true
        · simp only [hg, Bool.not_true, Bool.false_eq_true, if_false, Outcome.ok.injEq] at h
          obtain ⟨h1, h2⟩ := h
          subst h2
          exact ⟨hne0, hfmt, hg, h1⟩
        · have hg' : c0.m_hasGray = false := by simpa using hg
          simp only [hg', Bool.not_false, if_true] at h
          generalize convertYUV2Grey _ _ _ _ _ = res at h
          cases res with
          | undefined => simp at h
          | assertFailed => simp at h
          | done ret resmat =>
            simp only at h
            cases ret with
            | false => simp at h
            | true =>
              simp only [Bool.not_true, Bool.false_eq_true, if_false, Outcome.ok.injEq] at h
              obtain ⟨h1, h2⟩ := h
              subst h2
              exact ⟨hne0, hfmt, rfl, h1⟩
      | CV_CAP_ANDROID_COLOR_FRAME_BGR =>
        simp only at h
        obtain ⟨g1, g2, g3, g4⟩ := retrieveColor_image _ _ _ _ _ _ h
        exact ⟨by rw [g3]; exact hne0, by rw [g4]; exact hfmt, g1, g2⟩
      | CV_CAP_ANDROID_COLOR_FRAME_RGB =>
        simp only at h
        obtain ⟨g1, g2, g3, g4⟩ := retrieveColor_image _ _ _ _ _ _ h
        exact ⟨by rw [g3]; exact hne0, by rw [g4]; exact hfmt, g1, g2⟩
      | CV_CAP_ANDROID_COLOR_FRAME_BGRA =>
        simp only at h
        obtain ⟨g1, g2, g3, g4⟩ := retrieveColor_image _ _ _ _ _ _ h
        exact ⟨by rw [g3]; exact hne0, by rw [g4]; exact hfmt, g1, g2⟩
      | CV_CAP_ANDROID_COLOR_FRAME_RGBA =>
        simp only at h
        obtain ⟨g1, g2, g3, g4⟩ := retrieveColor_image _ _ _ _ _ _ h
        exact ⟨by rw [g3]; exact hne0, by rw [g4]; exact hfmt, g1, g2⟩
      | unsupported v => simp at h

/-- With a valid cache for the requested kind `retrieveFrame` returns the cached image
and changes nothing: no format query, no conversion. -/
theorem retrieveFrame_of_cached (c : CvCapture_Android) (outputType : OutputType)
    (img : IplImage) (h : CachedFor c outputType img) :
    retrieveFrame c outputType = Outcome.ok (some img) c := by
  obtain ⟨hne, hfmt, hk⟩ := h
  cases hcur : c.m_frameYUV420 with
  | none => exact absurd hcur hne
  | some cur =>
    unfold retrieveFrame
    simp only [hcur, resolveFrameFormat_resolved c hfmt]
    cases outputType with
    | CV_CAP_ANDROID_GREY_FRAME =>
      simp only at hk
      simp only [hk.1, Bool.not_true, Bool.false_eq_true, if_false, hk.2]
    | CV_CAP_ANDROID_COLOR_FRAME_BGR =>
      simp only at hk
      simp only [retrieveColor_cached c _ _ _ hk.1, hk.2]
    | CV_CAP_ANDROID_COLOR_FRAME_RGB =>
      simp only at hk
      simp only [retrieveColor_cached c _ _ _ hk.1, hk.2]
    | CV_CAP_ANDROID_COLOR_FRAME_BGRA =>
      simp only at hk
      simp only [retrieveColor_cached c _ _ _ hk.1, hk.2]
    | CV_CAP_ANDROID_COLOR_FRAME_RGBA =>
      simp only at hk
      simp only [retrieveColor_cached c _ _ _ hk.1, hk.2]
    | unsupported v => exact absurd hk (by simp)

/-- A returned delivery keeps a valid cache valid: it writes neither the caches nor the
format, and it leaves the current handle non-null. -/
theorem onFrameBuffer_cached (c post : CvCapture_Android) (buffer : Option (List Nat))
    (bufferSize : Int) (r : Bool) (outputType : OutputType) (img : IplImage)
    (hc : CachedFor c outputType img)
    (h : onFrameBuffer c buffer bufferSize = Outcome.ok r post) :
    CachedFor post outputType img := by
  cases hact : c.m_activity with
  | none => simp [onFrameBuffer, hact] at h
  | some a =>
    obtain ⟨hne, hfmt, hk⟩ := hc
    obtain ⟨⟨hG, hC, hFG, hFC⟩, hkeep, hnew⟩ := onFrameBuffer_frame c post a _ _ r hact h
    obtain ⟨-, hshape, -⟩ := onFrameBuffer_shape c post a _ _ r hact h
    have hfmt' : post.m_frameFormat = c.m_frameFormat := by
      have := congrArg CvCapture_Android.m_frameFormat hshape
      exact this
    have hne' : post.m_frameYUV420 ≠ none := by
      by_cases hcase : (a.connected = true ∧ buffer.isSome = true ∧ 0 < bufferSize ∧
          (c.m_waitingNextFrame = true ∨ c.m_shouldAutoGrab = true) ∧
          (a.frameWidth * a.frameHeight * 3) >>> (1 : Nat) = bufferSize) ∧
          (a.frameWidth ≠ c.m_width ∨ a.frameHeight ≠ c.m_height)
      · obtain ⟨⟨q1, q2, q3, q4, q5⟩, q6⟩ := hcase
        rw [(hnew ⟨q1, q2, q3, q4, q5, q6⟩).1]
        exact Option.some_ne_none _
      · have hor : ¬ (a.connected = true ∧ buffer.isSome = true ∧ 0 < bufferSize ∧
            (c.m_waitingNextFrame = true ∨ c.m_shouldAutoGrab = true) ∧
            (a.frameWidth * a.frameHeight * 3) >>> (1 : Nat) = bufferSize) ∨
            (a.frameWidth = c.m_width ∧ a.frameHeight = c.m_height) := by
          by_cases hacc : a.connected = true ∧ buffer.isSome = true ∧ 0 < bufferSize ∧
            (c.m_waitingNextFrame = true ∨ c.m_shouldAutoGrab = true) ∧
            (a.frameWidth * a.frameHeight * 3) >>> (1 : Nat) = bufferSize
          · right
            by_contra hd
            apply hcase
            refine ⟨hacc, ?_⟩
            by_contra hd2
            apply hd
            constructor
            · by_contra hw
              exact hd2 (Or.inl hw)
            · by_contra hh
              exact hd2 (Or.inr hh)
          · exact Or.inl hacc
        rw [(hkeep hor).1]
        exact hne
    refine ⟨hne', by rw [hfmt']; exact hfmt, ?_⟩
    cases outputType with
    | CV_CAP_ANDROID_GREY_FRAME =>
      simp only at hk ⊢
      exact ⟨hG.trans hk.1, by rw [hFG]; exact hk.2⟩
    | CV_CAP_ANDROID_COLOR_FRAME_BGR =>
      simp only at hk ⊢
      exact ⟨hC.trans hk.1, by rw [hFC]; exact hk.2⟩
    | CV_CAP_ANDROID_COLOR_FRAME_RGB =>
      simp only at hk ⊢
      exact ⟨hC.trans hk.1, by rw [hFC]; exact hk.2⟩
    | CV_CAP_ANDROID_COLOR_FRAME_BGRA =>
      simp only at hk ⊢
      exact ⟨hC.trans hk.1, by rw [hFC]; exact hk.2⟩
    | CV_CAP_ANDROID_COLOR_FRAME_RGBA =>
      simp only at hk ⊢
      exact ⟨hC.trans hk.1, by rw [hFC]; exact hk.2⟩
    | unsupported v => exact absurd hk (by simp)

/-- Any run of deliveries keeps a valid cache valid. -/
theorem deliverAll_cached (ds : List Delivery) (outputType : OutputType) (img : IplImage) :
    ∀ (c post : CvCapture_Android), CachedFor c outputType img →
      deliverAll c ds = some post → CachedFor post outputType img := by
  induction ds with
  | nil =>
    intro c post hc h
    simp only [deliverAll, Option.some.injEq] at h
    subst h
    exact hc
  | cons d rest ih =>
    intro c post hc h
    simp only [deliverAll] at h
    cases ho : onFrameBuffer c d.buffer d.bufferSize with
    | undefined => simp [ho] at h
    | raised code p => simp [ho] at h
    | ok r mid =>
      simp only [ho] at h
      exact ih mid post (onFrameBuffer_cached c mid _ _ r outputType img hc ho) h

/-- C10: if `retrieveFrame` with some output kind returns an image, then a second
`retrieveFrame` with the same kind and no `grabFrame` in between (whatever the producer
delivers in the meantime) returns the same cached image and leaves the state exactly as it
found it; in particular the count of entered conversions does not move, so neither
`convertYUV2Grey` nor `convertYUV2BGR` runs again. -/
theorem retrieveFrame_twice (c c1 : CvCapture_Android) (outputType : OutputType)
    (img : IplImage) (h : retrieveFrame c outputType = Outcome.ok (some img) c1)
    (between : List Delivery) (c2 : CvCapture_Android)
    (hbetween : deliverAll c1 between = some c2) :
    ∃ post, retrieveFrame c2 outputType = Outcome.ok (some img) post ∧
      post.convertCalls = c2.convertCalls ∧ post = c2 :=
  ⟨c2, retrieveFrame_of_cached c2 outputType img
    (deliverAll_cached between outputType img c1 c2
      (retrieveFrame_image_cached c c1 outputType img h) hbetween), rfl, rfl⟩

/-- C10, witness: the grey image of the grabbed 2x2 frame, retrieved twice with one
delivery in between. -/
theorem retrieveFrame_twice_witness :
    ∃ img c1 c2,
      retrieveFrame demoGrabbed CV_CAP_ANDROID_GREY_FRAME = Outcome.ok (some img) c1 ∧
      c1.convertCalls = 1 ∧
      deliverAll c1 [{ buffer := some [7, 8, 9, 10, 11, 12], bufferSize := 6 }] = some c2 ∧
      retrieveFrame c2 CV_CAP_ANDROID_GREY_FRAME = Outcome.ok (some img) c2 ∧
      c2.convertCalls = 1 := by
  obtain ⟨post, h1, -, h3⟩ := retrieveFrame_twice demoGrabbed _ CV_CAP_ANDROID_GREY_FRAME _ rfl
    [{ buffer := some [7, 8, 9, 10, 11, 12], bufferSize := 6 }] _ rfl
  subst h3
  exact ⟨_, _, _, rfl, rfl, rfl, h1, rfl⟩

end CapAndroid

namespace CapAndroid

/-! ## Runs: the code against the gate of the specification -/

/-- A delivery that fails one of the acceptance conditions returns and changes the
received-frames counter at most. -/
theorem onFrameBuffer_rejected (c : CvCapture_Android) (a : CameraActivity)
    (buffer : Option (List Nat)) (bufferSize : Int) (hact : c.m_activity = some a)
    (hrej : ¬ (a.connected = true ∧ buffer.isSome = true ∧ 0 < bufferSize ∧
      (c.m_waitingNextFrame = true ∨ c.m_shouldAutoGrab = true) ∧
      (a.frameWidth * a.frameHeight * 3) >>> (1 : Nat) = bufferSize)) :
    ∃ r a1, onFrameBuffer c buffer bufferSize = Outcome.ok r { c with m_activity := some a1 } ∧
      { a1 with m_framesReceived := a.m_framesReceived } = a := by
  unfold onFrameBuffer
  simp only [hact]
  by_cases hguard : (a.connected && buffer.isSome && decide (bufferSize > 0)) = true
  · have hg := hguard
    simp only [Bool.and_eq_true, decide_eq_true_eq] at hg
    obtain ⟨⟨hconn, hbuf⟩, hpos⟩ := hg
    simp only [hguard, if_true]
    by_cases hflag : (c.m_waitingNextFrame || c.m_shouldAutoGrab) = true
    · have hf := hflag
      simp only [Bool.or_eq_true] at hf
      have hne : (a.frameWidth * a.frameHeight * 3) >>> (1 : Nat) ≠ bufferSize :=
        fun heq => hrej ⟨hconn, hbuf, hpos, hf, heq⟩
      simp only [hflag, if_true]
      refine ⟨true, { a with m_framesReceived := a.m_framesReceived + 1 }, ?_, rfl⟩
      simp [setFrame, hne]
    · simp only [hflag, Bool.false_eq_true, if_false]
      exact ⟨true, { a with m_framesReceived := a.m_framesReceived + 1 }, rfl, rfl⟩
  · simp only [hguard, Bool.false_eq_true, if_false]
    refine ⟨false, a, ?_, rfl⟩
    rw [← hact]

/-- A delivery that meets every acceptance condition on a state whose buffers satisfy the
representation invariant returns true with the frame in the next buffer. -/
theorem onFrameBuffer_accepted (c : CvCapture_Android) (a : CameraActivity)
    (frame : List Nat) (hact : c.m_activity = some a) (hconn : a.connected = true)
    (hinv : RawFramesOk c) (hpos : 0 < (frame.length : Int))
    (hsize : (frame.length : Int) = frameSize a)
    (hflag : c.m_waitingNextFrame = true ∨ c.m_shouldAutoGrab = true) :
    ∃ post nxt cur, onFrameBuffer c (some frame) frame.length = Outcome.ok true post ∧
      post.m_frameYUV420next = some nxt ∧ nxt.bytes = frame ∧
      post.m_frameYUV420 = some cur ∧ cur.bytes.length = frame.length ∧
      post.m_width = a.frameWidth ∧ post.m_height = a.frameHeight ∧
      post.m_dataState = CVCAPTURE_ANDROID_STATE_HAS_NEW_FRAME_UNGRABBED ∧
      post.m_waitingNextFrame = false ∧
      post.m_activity = some { a with m_framesReceived := a.m_framesReceived + 1 } ∧
      post.m_isOpened = c.m_isOpened ∧
      post.m_CameraParamsChanged = c.m_CameraParamsChanged ∧
      post.m_shouldAutoGrab = c.m_shouldAutoGrab := by
  have hinv1 : RawFramesOk
      { c with m_activity := some { a with m_framesReceived := a.m_framesReceived + 1 } } := hinv
  obtain ⟨post, nxt, cur, hset, h1, h2, h3, h4, h5, h6, h7, h8, h9, h10, h11, h12, -, -⟩ :=
    setFrame_accepts
      { c with m_activity := some { a with m_framesReceived := a.m_framesReceived + 1 } }
      { a with m_framesReceived := a.m_framesReceived + 1 } frame frame.length rfl hinv1 hpos
      hsize (le_refl _)
  refine ⟨post, nxt, cur, ?_, h1, ?_, h3, ?_, h5, h6, h7, h8, h9, h10, h11, h12⟩
  · unfold onFrameBuffer
    have hor : (c.m_waitingNextFrame || c.m_shouldAutoGrab) = true := by
      rcases hflag with h | h <;> simp [h]
    simp only [hconn] at hset
    simp only [hact, hconn, Option.isSome_some, Bool.and_self, gt_iff_lt, hpos, decide_True,
      Bool.and_true, if_true, hor, hset]
  · simpa using h2
  · simpa using h4

end CapAndroid

namespace CapAndroid

/-- The buffers of a related state satisfy the representation invariant. -/
theorem Sim.rawFramesOk {w h : Int} {s : Sys} {g : Gate} (hsim : Sim w h s g) :
    RawFramesOk s.cap := by
  unfold RawFramesOk
  rcases hsim.buffers with ⟨h1, h2, h3, h4⟩ | ⟨cur, nxt, h1, h2, h3, h4, h5, h6, h7⟩
  · rw [h1, h2]
    exact ⟨h3, h4⟩
  · rw [h1, h2, h6, h7]
    exact ⟨h5, h3, h4⟩

/-- A delivery step preserves the relation. -/
theorem Sim.step_deliver {w h : Int} {s : Sys} {g : Gate} (hsim : Sim w h s g)
    (frame : List Nat) :
    ∃ s1 g1, s.step (Event.deliver frame) = some s1 ∧
      g.step (Int.tdiv (w * h * 3) 2) (Event.deliver frame) = some g1 ∧ Sim w h s1 g1 := by
  obtain ⟨a, hact, hconn, hw, hh⟩ := hsim.activity
  by_cases hacc : g.accepts (Int.tdiv (w * h * 3) 2) frame = true
  · have hacc' := hacc
    simp only [Gate.accepts, Bool.and_eq_true, decide_eq_true_eq, Bool.or_eq_true] at hacc'
    obtain ⟨⟨hpos, hsz⟩, hfl⟩ := hacc'
    have hsize : (frame.length : Int) = frameSize a := by
      unfold frameSize
      rw [hw, hh]
      exact hsz
    have hflag : s.cap.m_waitingNextFrame = true ∨ s.cap.m_shouldAutoGrab = true := by
      rw [hsim.waiting, hsim.autoGrab]
      exact hfl
    obtain ⟨post, nxt, cur, hob, h1, h2, h3, h4, h5, h6, h7, h8, h9, h10, h11, h12⟩ :=
      onFrameBuffer_accepted s.cap a frame hact hconn hsim.rawFramesOk hpos hsize hflag
    refine ⟨{ s with cap := post }, { g with fresh := true, waiting := false, slot := frame },
      ?_, ?_, ?_⟩
    · simp only [Sys.step, hob]
    · simp only [Gate.step, hacc, if_true]
    · exact
        { suspended := hsim.suspended
          log := hsim.log
          opened := h10.trans hsim.opened
          activity := ⟨_, h9, hconn, hw, hh⟩
          noPending := h11.trans hsim.noPending
          autoGrab := h12.trans hsim.autoGrab
          waiting := h8
          fresh := ⟨fun _ => rfl, fun _ => h7⟩
          slot := fun _ => by
            show post.m_frameYUV420next.map Buffer.bytes = some frame
            rw [h1, Option.map_some', h2]
          buffers := Or.inr ⟨cur, nxt, h3, h1, by
            show cur.bytes.length = _
            rw [h4, ← hsz]
            simp, by
            show nxt.bytes.length = _
            rw [h2, ← hsz]
            simp, by omega, h5.trans hw, h6.trans hh⟩ }
  · have hrej : ¬ (a.connected = true ∧ (some frame).isSome = true ∧ 0 < (frame.length : Int) ∧
        (s.cap.m_waitingNextFrame = true ∨ s.cap.m_shouldAutoGrab = true) ∧
        (a.frameWidth * a.frameHeight * 3) >>> (1 : Nat) = (frame.length : Int)) := by
      rintro ⟨-, -, hpos, hfl, hsz⟩
      apply hacc
      rw [hw, hh] at hsz
      rw [hsim.waiting, hsim.autoGrab] at hfl
      have hsz' := (expectedSize_eq_iff _ _ hpos).1 hsz
      simp only [Gate.accepts, Bool.and_eq_true, decide_eq_true_eq, Bool.or_eq_true]
      exact ⟨⟨hpos, hsz'.symm⟩, hfl⟩
    obtain ⟨r, a1, hob, ha1⟩ := onFrameBuffer_rejected s.cap a (some frame) frame.length hact hrej
    have hc1 : a1.connected = a.connected := by
      have := congrArg CameraActivity.connected ha1
      exact this
    have hw1 : a1.frameWidth = a.frameWidth := by
      have := congrArg CameraActivity.frameWidth ha1
      exact this
    have hh1 : a1.frameHeight = a.frameHeight := by
      have := congrArg CameraActivity.frameHeight ha1
      exact this
    refine ⟨{ s with cap := { s.cap with m_activity := some a1 } }, g, ?_, ?_, ?_⟩
    · simp only [Sys.step, hob]
    · simp only [Gate.step, hacc, Bool.false_eq_true, if_false]
    · exact
        { suspended := hsim.suspended
          log := hsim.log
          opened := hsim.opened
          activity := ⟨a1, rfl, hc1.trans hconn, hw1.trans hw, hh1.trans hh⟩
          noPending := hsim.noPending
          autoGrab := hsim.autoGrab
          waiting := hsim.waiting
          fresh := hsim.fresh
          slot := hsim.slot
          buffers := hsim.buffers }

end CapAndroid

namespace CapAndroid

/-- The second half of `grabFrame` preserves the relation: it returns true exactly when the
gate holds a fresh frame, and then exposes the bytes in the gate's slot. -/
theorem Sim.finish {w h : Int} {s : Sys} {g : Gate} (hsim : Sim w h s g) :
    Sim w h
      { cap := (grabFrameResume s.cap).2, suspended := false
        log := s.log ++ [grabReturn (grabFrameResume s.cap)] }
      (if g.fresh = true then
        { g with fresh := false, suspended := false
                 log := g.log ++ [{ ret := true, exposed := some g.slot }] }
      else { g with suspended := false, log := g.log ++ [{ ret := false, exposed := none }] }) := by
  by_cases hf : g.fresh = true
  · have hst := hsim.fresh.2 hf
    have hslot := hsim.slot hf
    have hres : grabFrameResume s.cap = (true, { s.cap with
        m_frameYUV420 := s.cap.m_frameYUV420next
        m_frameYUV420next := s.cap.m_frameYUV420
        m_hasGray := false
        m_hasColor := false
        m_dataState := CVCAPTURE_ANDROID_STATE_HAS_FRAME_GRABBED
        m_framesGrabbed := s.cap.m_framesGrabbed + 1 }) := by
      simp [grabFrameResume, hst]
    rw [if_pos hf, hres]
    exact
      { suspended := rfl
        log := by
          show s.log ++ _ = g.log ++ _
          rw [hsim.log]
          simp [grabReturn, hslot]
        opened := hsim.opened
        activity := hsim.activity
        noPending := hsim.noPending
        autoGrab := hsim.autoGrab
        waiting := hsim.waiting
        fresh := by
          constructor <;> intro hc <;> cases hc
        slot := fun hc => by cases hc
        buffers := by
          rcases hsim.buffers with ⟨h1, h2, h3, h4⟩ | ⟨cur, nxt, h1, h2, h3, h4, h5, h6, h7⟩
          · exact Or.inl ⟨h2, h1, h3, h4⟩
          · exact Or.inr ⟨nxt, cur, h2, h1, h4, h3, h5, h6, h7⟩ }
  · have hst : s.cap.m_dataState ≠ CVCAPTURE_ANDROID_STATE_HAS_NEW_FRAME_UNGRABBED :=
      fun hc => hf (hsim.fresh.1 hc)
    have hres : grabFrameResume s.cap = (false, s.cap) := by
      simp [grabFrameResume, hst]
    rw [if_neg hf, hres]
    exact
      { suspended := rfl
        log := by
          show s.log ++ _ = g.log ++ _
          rw [hsim.log]
          simp [grabReturn]
        opened := hsim.opened
        activity := hsim.activity
        noPending := hsim.noPending
        autoGrab := hsim.autoGrab
        waiting := hsim.waiting
        fresh := hsim.fresh
        slot := hsim.slot
        buffers := hsim.buffers }

/-- Every step preserves the relation, and the code can take a step exactly when the gate
can. -/
theorem Sim.step {w h : Int} {s : Sys} {g : Gate} (hsim : Sim w h s g) (e : Event) :
    (s.step e = none ∧ g.step (Int.tdiv (w * h * 3) 2) e = none) ∨
    ∃ s1 g1, s.step e = some s1 ∧ g.step (Int.tdiv (w * h * 3) 2) e = some g1 ∧
      Sim w h s1 g1 := by
  cases e with
  | deliver frame => exact Or.inr (hsim.step_deliver frame)
  | grabBegin =>
    by_cases hsus : g.suspended = true
    · left
      have hs : s.suspended = true := hsim.suspended.trans hsus
      exact ⟨by simp [Sys.step, hs], by simp [Gate.step, hsus]⟩
    · right
      have hsus' : g.suspended = false := by simpa using hsus
      have hs : s.suspended = false := hsim.suspended.trans hsus'
      have hop : isOpened s.cap = true := hsim.opened
      by_cases hf : g.fresh = true
      · have hst := hsim.fresh.2 hf
        have hfin := hsim.finish
        simp only [hf, if_true] at hfin
        refine ⟨_, _, ?_, ?_, hfin⟩
        · simp [Sys.step, hs, hop, grabFrameBegin, hsim.noPending, hst]
        · simp [Gate.step, hsus', hf]
      · have hf' : g.fresh = false := by simpa using hf
        have hst : s.cap.m_dataState ≠ CVCAPTURE_ANDROID_STATE_HAS_NEW_FRAME_UNGRABBED :=
          fun hc => hf (hsim.fresh.1 hc)
        refine ⟨{ s with cap := { s.cap with m_waitingNextFrame := true }, suspended := true },
          { g with waiting := true, suspended := true }, ?_, ?_, ?_⟩
        · simp [Sys.step, hs, hop, grabFrameBegin, hsim.noPending, hst]
        · simp [Gate.step, hsus', hf']
        · exact
            { suspended := rfl
              log := hsim.log
              opened := hsim.opened
              activity := hsim.activity
              noPending := hsim.noPending
              autoGrab := hsim.autoGrab
              waiting := rfl
              fresh := hsim.fresh
              slot := hsim.slot
              buffers := hsim.buffers }
  | grabResume =>
    by_cases hsus : g.suspended = true
    · right
      have hs : s.suspended = true := hsim.suspended.trans hsus
      refine ⟨_, _, ?_, ?_, hsim.finish⟩
      · simp [Sys.step, hs]
      · by_cases hf : g.fresh = true <;> simp [Gate.step, hsus, hf]
    · left
      have hsus' : g.suspended = false := by simpa using hsus
      have hs : s.suspended = false := hsim.suspended.trans hsus'
      exact ⟨by simp [Sys.step, hs], by simp [Gate.step, hsus']⟩
  | setAutoGrab value =>
    by_cases hsus : g.suspended = true
    · left
      have hs : s.suspended = true := hsim.suspended.trans hsus
      exact ⟨by simp [Sys.step, hs], by simp [Gate.step, hsus]⟩
    · right
      have hsus' : g.suspended = false := by simpa using hsus
      have hs : s.suspended = false := hsim.suspended.trans hsus'
      have hop : isOpened s.cap = true := hsim.opened
      refine ⟨{ s with cap := { s.cap with m_shouldAutoGrab := (value != 0) } },
        { g with autoGrab := (value != 0) }, ?_, ?_, ?_⟩
      · simp [Sys.step, hs, setProperty, hop]
      · simp [Gate.step, hsus']
      · exact
          { suspended := hsim.suspended
            log := hsim.log
            opened := hsim.opened
            activity := hsim.activity
            noPending := hsim.noPending
            autoGrab := rfl
            waiting := hsim.waiting
            fresh := hsim.fresh
            slot := hsim.slot
            buffers := hsim.buffers }

end CapAndroid

namespace CapAndroid

/-- Runs preserve the relation, and the code completes a run exactly when the gate does. -/
theorem Sim.run {w h : Int} (tr : List Event) :
    ∀ (s : Sys) (g : Gate), Sim w h s g →
      (s.run tr = none ∧ g.run (Int.tdiv (w * h * 3) 2) tr = none) ∨
      ∃ s1 g1, s.run tr = some s1 ∧ g.run (Int.tdiv (w * h * 3) 2) tr = some g1 ∧
        Sim w h s1 g1 := by
  induction tr with
  | nil =>
    intro s g hsim
    exact Or.inr ⟨s, g, rfl, rfl, hsim⟩
  | cons e rest ih =>
    intro s g hsim
    rcases hsim.step e with ⟨h1, h2⟩ | ⟨s1, g1, h1, h2, hsim1⟩
    · left
      simp [Sys.run, Gate.run, h1, h2]
    · rcases ih s1 g1 hsim1 with ⟨h3, h4⟩ | ⟨s2, g2, h3, h4, hsim2⟩
      · left
        simp [Sys.run, Gate.run, h1, h2, h3, h4]
      · right
        exact ⟨s2, g2, by simp [Sys.run, h1, h3], by simp [Gate.run, h2, h4], hsim2⟩

/-- A freshly constructed capture on a connected collaborator is related to the gate at
construction. -/
theorem Sim.start (activity : CameraActivity) (hconn : activity.connected = true) :
    Sim activity.frameWidth activity.frameHeight (Sys.start activity) Gate.start :=
  { suspended := rfl
    log := rfl
    opened := rfl
    activity := ⟨_, rfl, hconn, rfl, rfl⟩
    noPending := rfl
    autoGrab := rfl
    waiting := rfl
    fresh := by
      constructor <;> intro hc <;> cases hc
    slot := fun hc => by cases hc
    buffers := Or.inl ⟨rfl, rfl, rfl, rfl⟩ }

/-- The record of returned grabs of the code and of the gate agree on every run. -/
theorem run_log_eq (activity : CameraActivity) (hconn : activity.connected = true)
    (tr : List Event) :
    ((Sys.start activity).run tr).map Sys.log =
      (Gate.start.run (frameSize activity) tr).map Gate.log := by
  unfold frameSize
  rcases (Sim.start activity hconn).run tr with ⟨h1, h2⟩ | ⟨s1, g1, h1, h2, hsim⟩
  · rw [h1, h2]
    rfl
  · rw [h1, h2]
    simp [hsim.log]

/-! ## grabFrame returns true iff a delivery has been accepted -/

/-- C1, counterexample: auto-grab off, 2x2 frames.  A delivery of the right size (6 bytes)
arrives, then `grabFrame` is called.  The call suspends although a delivery has occurred
since construction, and when it is woken with no further delivery it returns false. -/
theorem grabFrame_iff_delivered_counterexample :
    (6 : Int) = frameSize demoActivity ∧
    ((Sys.start demoActivity).run
      [Event.deliver [1, 2, 3, 4, 5, 6], Event.grabBegin]).map Sys.suspended = some true ∧
    ((Sys.start demoActivity).run
      [Event.deliver [1, 2, 3, 4, 5, 6], Event.grabBegin]).map Sys.log = some [] ∧
    ((Sys.start demoActivity).run
      [Event.deliver [1, 2, 3, 4, 5, 6], Event.grabBegin, Event.grabResume]).map Sys.log
      = some [{ ret := false, exposed := none }] := by
  refine ⟨by decide, rfl, rfl, rfl⟩

/-- C1 (amended): on a capture constructed over a connected collaborator, for every
interleaving of deliveries, `grabFrame` calls and changes of the auto-grab flag, the
return values of the `grabFrame` calls are those of the gate of the specification: a call
returns true iff a delivery has been accepted since the last call that returned true (or
since construction), where a delivery is accepted iff its size is positive and equals
`width*height*3/2` and, when it arrives, auto-grab is on or the waiting flag is up (raised
by a `grabFrame` that found nothing new, lowered by the next accepted delivery).  The code
completes a run exactly when the gate does. -/
theorem grabFrame_iff_accepted (activity : CameraActivity)
    (hconn : activity.connected = true) (tr : List Event) :
    ((Sys.start activity).run tr).map (fun s => s.log.map GrabReturn.ret) =
      (Gate.start.run (frameSize activity) tr).map (fun g => g.log.map GrabReturn.ret) := by
  have h := run_log_eq activity hconn tr
  cases hs : (Sys.start activity).run tr with
  | none =>
    rw [hs] at h
    cases hg : Gate.start.run (frameSize activity) tr with
    | none => rfl
    | some g => simp [hg] at h
  | some s =>
    rw [hs] at h
    cases hg : Gate.start.run (frameSize activity) tr with
    | none => simp [hg] at h
    | some g =>
      simp only [hg, Option.map_some', Option.some.injEq] at h
      simp [h]

/-- C1, witness: with auto-grab on, a delivery followed by a grab, then a grab with nothing
new that is woken without a delivery. -/
theorem grabFrame_iff_accepted_witness :
    ((Sys.start demoActivity).run
      [Event.setAutoGrab 1, Event.deliver [1, 2, 3, 4, 5, 6], Event.grabBegin,
        Event.grabBegin, Event.grabResume]).map (fun s => s.log.map GrabReturn.ret)
      = some [true, false] := by
  rw [grabFrame_iff_accepted demoActivity rfl]
  rfl

/-! ## Which frame a successful grab exposes -/

/-- C9, counterexample: auto-grab off, 2x2 frames.  `grabFrame` begins and suspends, then
delivery A and delivery B both complete, then the call resumes.  It returns true and the
current buffer holds the bytes of A: B found the waiting flag already lowered and was
dropped. -/
theorem grabFrame_exposes_counterexample :
    ((Sys.start demoActivity).run
      [Event.grabBegin, Event.deliver [1, 2, 3, 4, 5, 6], Event.deliver [7, 8, 9, 10, 11, 12],
        Event.grabResume]).map Sys.log
      = some [{ ret := true, exposed := some [1, 2, 3, 4, 5, 6] }] ∧
    ([1, 2, 3, 4, 5, 6] : List Nat) ≠ [7, 8, 9, 10, 11, 12] := by
  refine ⟨rfl, by decide⟩

/-- C9 (amended): on a capture constructed over a connected collaborator, for every
interleaving of deliveries (one atomic step each), `grabFrame` calls (begin and resume)
and changes of the auto-grab flag, every `grabFrame` that returns true exposes in the
current buffer the bytes of the last delivery accepted before its state test, as recorded
in the slot of the gate; a delivery is accepted iff its size is positive and equals
`width*height*3/2` and auto-grab is on or the waiting flag is up when it arrives.  With
auto-grab on that is the last delivery of the right size; with auto-grab off a second
delivery during one wait is dropped. -/
theorem grabFrame_exposes_last_accepted (activity : CameraActivity)
    (hconn : activity.connected = true) (tr : List Event) :
    ((Sys.start activity).run tr).map Sys.log =
      (Gate.start.run (frameSize activity) tr).map Gate.log :=
  run_log_eq activity hconn tr

/-- C9, witness: with auto-grab on, A and B both complete during the wait and the grab
exposes B. -/
theorem grabFrame_exposes_last_accepted_witness :
    ((Sys.start demoActivity).run
      [Event.setAutoGrab 1, Event.grabBegin, Event.deliver [1, 2, 3, 4, 5, 6],
        Event.deliver [7, 8, 9, 10, 11, 12], Event.grabResume]).map Sys.log
      = some [{ ret := true, exposed := some [7, 8, 9, 10, 11, 12] }] := by
  rw [grabFrame_exposes_last_accepted demoActivity rfl]
  rfl

end CapAndroid

namespace CapAndroid

/-! ## setProperty -/

/-- C11: `setProperty` on an opened capture: for the width or the height id it forwards the
value to the collaborator, sets `m_CameraParamsChanged` and returns true, changing nothing
else; for the auto-grab id it sets `m_shouldAutoGrab` to `propValue != 0` and returns true,
changing nothing else (so the pending flag stays as it was); for every other id it throws
the out-of-range error and leaves the whole state, both flags included, as it was.  On a
capture that is not opened it returns false for every id and changes nothing. -/
theorem setProperty_spec (c : CvCapture_Android) (propValue : Int) :
    (isOpened c = true →
      (∀ a, c.m_activity = some a →
        setProperty c CV_CAP_PROP_FRAME_WIDTH propValue =
          Outcome.ok true { c with m_activity := some (a.setFrameWidthProperty propValue)
                                   m_CameraParamsChanged := true } ∧
        setProperty c CV_CAP_PROP_FRAME_HEIGHT propValue =
          Outcome.ok true { c with m_activity := some (a.setFrameHeightProperty propValue)
                                   m_CameraParamsChanged := true }) ∧
      setProperty c CV_CAP_PROP_AUTOGRAB propValue =
        Outcome.ok true { c with m_shouldAutoGrab := (propValue != 0) } ∧
      (∀ propIdx, propIdx ≠ CV_CAP_PROP_FRAME_WIDTH → propIdx ≠ CV_CAP_PROP_FRAME_HEIGHT →
        propIdx ≠ CV_CAP_PROP_AUTOGRAB →
        setProperty c propIdx propValue = Outcome.raised CvStatus.CV_StsOutOfRange c)) ∧
    (isOpened c = false →
      ∀ propIdx, setProperty c propIdx propValue = Outcome.ok false c) := by
  constructor
  · intro hopen
    refine ⟨?_, ?_, ?_⟩
    · intro a hact
      constructor <;> simp [setProperty, hopen, hact]
    · simp [setProperty, hopen]
    · intro propIdx h1 h2 h3
      cases propIdx with
      | CV_CAP_PROP_FRAME_WIDTH => exact absurd rfl h1
      | CV_CAP_PROP_FRAME_HEIGHT => exact absurd rfl h2
      | CV_CAP_PROP_AUTOGRAB => exact absurd rfl h3
      | CV_CAP_PROP_SUPPORTED_PREVIEW_SIZES_STRING => simp [setProperty, hopen]
      | CV_CAP_PROP_PREVIEW_FORMAT => simp [setProperty, hopen]
      | unsupported v => simp [setProperty, hopen]
  · intro hclosed propIdx
    simp [setProperty, hclosed]

/-- C11, witness: on the opened capture `demoUngrabbed`, whose pending flag is down and whose
auto-grab flag is up, the height is set to 4, auto-grab is switched off, and the preview
format id is refused; on a capture whose connection failed the width is refused with
false. -/
theorem setProperty_spec_witness :
    (∃ post, setProperty demoUngrabbed CV_CAP_PROP_FRAME_HEIGHT 4 = Outcome.ok true post ∧
      post.m_CameraParamsChanged = true ∧
      post.m_activity.map CameraActivity.propFrameHeight = some 4) ∧
    (∃ post, setProperty demoUngrabbed CV_CAP_PROP_AUTOGRAB 0 = Outcome.ok true post ∧
      post.m_shouldAutoGrab = false ∧ post.m_CameraParamsChanged = false) ∧
    setProperty demoUngrabbed CV_CAP_PROP_PREVIEW_FORMAT 1 =
      Outcome.raised CvStatus.CV_StsOutOfRange demoUngrabbed ∧
    setProperty (CvCapture_Android.create demoActivity false) CV_CAP_PROP_FRAME_WIDTH 4 =
      Outcome.ok false (CvCapture_Android.create demoActivity false) := by
  have h := setProperty_spec demoUngrabbed
  refine ⟨⟨_, (((h 4).1 rfl).1 _ rfl).2, rfl, rfl⟩, ⟨_, ((h 0).1 rfl).2.1, rfl, rfl⟩,
    ((h 1).1 rfl).2.2 _ (by decide) (by decide) (by decide),
    (setProperty_spec (CvCapture_Android.create demoActivity false) 4).2 rfl _⟩

end CapAndroid

namespace CapAndroid

/-! ## retrieveFrame: unsupported output kinds -/

/-- The state `oddGrabbed` is what construction on `oddActivity`,
`setProperty(CV_CAP_PROP_AUTOGRAB, 1)`, one delivery and one `grabFrame` produce. -/
theorem oddGrabbed_reachable :
    ∃ c1 c2,
      setProperty (CvCapture_Android.create oddActivity true) CV_CAP_PROP_AUTOGRAB 1
        = Outcome.ok true c1 ∧
      onFrameBuffer c1 (some [1, 2, 3, 4, 5, 6, 7, 8, 9]) 9 = Outcome.ok true c2 ∧
      grabFrame c2 [] = Outcome.ok true oddGrabbed :=
  ⟨_, _, rfl, rfl, rfl⟩

/-- C12, counterexample: on a freshly constructed, connected capture (no frame buffer yet)
`retrieveFrame` with an output kind outside the five supported ones returns none and
raises nothing. -/
theorem retrieveFrame_unsupported_counterexample :
    retrieveFrame (CvCapture_Android.create demoActivity true) (OutputType.unsupported 99)
      = Outcome.ok none (CvCapture_Android.create demoActivity true) :=
  rfl

/-- C12 (amended): for an output kind that is not one of the five supported ones,
`retrieveFrame` throws the out-of-range error whenever the current buffer is non-null (and
the format is resolved or a collaborator is there to resolve it, as in every such reachable
state), having changed at most `m_frameFormat`; when the current buffer is null it returns
none and changes nothing, raising no error. -/
theorem retrieveFrame_unsupported (c : CvCapture_Android) (value : Int) :
    (c.m_frameYUV420 ≠ none →
      (c.m_frameFormat ≠ YUVformat.noformat ∨ c.m_activity ≠ none) →
      ∃ post, retrieveFrame c (OutputType.unsupported value)
          = Outcome.raised CvStatus.CV_StsOutOfRange post ∧
        { post with m_frameFormat := c.m_frameFormat } = c) ∧
    (c.m_frameYUV420 = none →
      retrieveFrame c (OutputType.unsupported value) = Outcome.ok none c) := by
  constructor
  · intro hcur hres
    cases hc : c.m_frameYUV420 with
    | none => exact absurd hc hcur
    | some cur =>
      have hex : ∃ c0, resolveFrameFormat c = some c0 := by
        by_cases hf : c.m_frameFormat = YUVformat.noformat
        · rcases hres with h | h
          · exact absurd hf h
          · cases ha : c.m_activity with
            | none => exact absurd ha h
            | some a =>
              unfold resolveFrameFormat getProperty
              simp only [hf, if_true, ha]
              by_cases h1 : a.previewFormat = "yuv420sp"
              · exact ⟨_, by rw [if_pos h1]⟩
              · by_cases h2 : a.previewFormat = "yuv420i"
                · exact ⟨_, by rw [if_neg h1, if_pos h2]⟩
                · exact ⟨_, by rw [if_neg h1, if_neg h2]⟩
        · exact ⟨c, resolveFrameFormat_resolved c hf⟩
      obtain ⟨c0, hc0⟩ := hex
      obtain ⟨-, heq⟩ := resolveFrameFormat_spec c c0 hc0
      refine ⟨c0, ?_, ?_⟩
      · unfold retrieveFrame
        simp only [hc, hc0]
      · have := congrArg (fun x : CvCapture_Android =>
          { x with m_frameFormat := c.m_frameFormat }) heq
        exact this
  · intro hcur
    unfold retrieveFrame
    simp only [hcur]

/-- C12, witness: with a grabbed frame the unsupported kind 99 is refused with the
out-of-range error; without a buffer it yields none. -/
theorem retrieveFrame_unsupported_witness :
    (∃ post, retrieveFrame demoGrabbed (OutputType.unsupported 99)
        = Outcome.raised CvStatus.CV_StsOutOfRange post ∧
      { post with m_frameFormat := demoGrabbed.m_frameFormat } = demoGrabbed) ∧
    retrieveFrame (CvCapture_Android.create demoActivity true) (OutputType.unsupported 99)
      = Outcome.ok none (CvCapture_Android.create demoActivity true) :=
  ⟨(retrieveFrame_unsupported demoGrabbed 99).1 (by decide) (Or.inr (by decide)),
    (retrieveFrame_unsupported (CvCapture_Android.create demoActivity true) 99).2 rfl⟩

end CapAndroid

namespace CapAndroid

/-! ## retrieveFrame: odd dimensions -/

/-- C13, counterexample: `oddGrabbed` holds a grabbed 3x2 frame (odd width) with an invalid
colour cache; its collaborator reports a preview format other than `yuv420sp` and
`yuv420i`.  `retrieveFrame(BGR)` returns none: `convertYUV2BGR` leaves at its format test,
before the `CV_Assert` on the dimensions, and no error is raised. -/
theorem retrieveFrame_odd_counterexample :
    oddGrabbed.m_width = 3 ∧ oddGrabbed.m_hasColor = false ∧
    oddGrabbed.m_frameYUV420 = some { addr := 0, bytes := [1, 2, 3, 4, 5, 6, 7, 8, 9] } ∧
    ∃ post, retrieveFrame oddGrabbed CV_CAP_ANDROID_COLOR_FRAME_BGR = Outcome.ok none post ∧
      post.m_frameFormat = YUVformat.yuvUnknown :=
  ⟨rfl, rfl, rfl, _, rfl, rfl⟩

/-- C13 (amended): in a state with a current buffer, an odd stored width or height and an
invalid colour cache, `retrieveFrame` with any of the four colour kinds is rejected with
the assertion failure of `convertYUV2BGR` when the pixel format resolves to `yuv420sp` or
`yuv420i`: no image and no none is returned, the colour cache stays invalid and the cached
matrix is not written.  When the format resolves to unknown the call returns none instead,
again leaving the colour cache invalid and unwritten. -/
theorem retrieveFrame_odd (c c0 : CvCapture_Android) (cur : Buffer) (outputType : OutputType)
    (hkind : outputType.isColor = true)
    (hcur : c.m_frameYUV420 = some cur) (hcache : c.m_hasColor = false)
    (hodd : Int.tmod c.m_width 2 ≠ 0 ∨ Int.tmod c.m_height 2 ≠ 0)
    (hres : resolveFrameFormat c = some c0) :
    ((c0.m_frameFormat = YUVformat.yuv420sp ∨ c0.m_frameFormat = YUVformat.yuv420i) →
      ∃ post, retrieveFrame c outputType = Outcome.raised CvStatus.CV_StsAssert post ∧
        post.m_hasColor = false ∧ post.m_frameColor = c.m_frameColor) ∧
    (c0.m_frameFormat = YUVformat.yuvUnknown →
      ∃ post, retrieveFrame c outputType = Outcome.ok none post ∧
        post.m_hasColor = false ∧ post.m_frameColor = c.m_frameColor) := by
  obtain ⟨-, heq⟩ := resolveFrameFormat_spec c c0 hres
  have hcache0 : c0.m_hasColor = false := by
    rw [heq]
    exact hcache
  have hw0 : c0.m_width = c.m_width := by rw [heq]
  have hh0 : c0.m_height = c.m_height := by rw [heq]
  have hcol0 : c0.m_frameColor = c.m_frameColor := by rw [heq]
  have hnot : ¬ (Int.tmod c0.m_width 2 = 0 ∧ Int.tmod c0.m_height 2 = 0) := by
    rw [hw0, hh0]
    intro h
    rcases hodd with h1 | h1
    · exact h1 h.1
    · exact h1 h.2
  have hcolor : ∀ (rgb alpha : Bool),
      ((c0.m_frameFormat = YUVformat.yuv420sp ∨ c0.m_frameFormat = YUVformat.yuv420i) →
        ∃ post, retrieveColor c0 (some cur) rgb alpha
            = Outcome.raised CvStatus.CV_StsAssert post ∧
          post.m_hasColor = false ∧ post.m_frameColor = c.m_frameColor) ∧
      (c0.m_frameFormat = YUVformat.yuvUnknown →
        ∃ post, retrieveColor c0 (some cur) rgb alpha = Outcome.ok none post ∧
          post.m_hasColor = false ∧ post.m_frameColor = c.m_frameColor) := by
    intro rgb alpha
    constructor
    · intro hknown
      have hk : ¬ (c0.m_frameFormat ≠ YUVformat.yuv420sp ∧
          c0.m_frameFormat ≠ YUVformat.yuv420i) := by
        intro h
        rcases hknown with h1 | h1
        · exact h.1 h1
        · exact h.2 h1
      simp only [retrieveColor, hcache0, Bool.not_false, if_true, convertYUV2BGR]
      rw [if_neg hk, if_pos hnot]
      exact ⟨_, rfl, rfl, hcol0⟩
    · intro hunk
      have hk : c0.m_frameFormat ≠ YUVformat.yuv420sp ∧
          c0.m_frameFormat ≠ YUVformat.yuv420i := by
        rw [hunk]
        exact ⟨by decide, by decide⟩
      simp only [retrieveColor, hcache0, Bool.not_false, if_true, convertYUV2BGR]
      rw [if_pos hk]
      exact ⟨_, rfl, rfl, hcol0⟩
  unfold retrieveFrame
  simp only [hcur, hres]
  cases outputType with
  | CV_CAP_ANDROID_GREY_FRAME => simp [OutputType.isColor] at hkind
  | CV_CAP_ANDROID_COLOR_FRAME_BGR => exact hcolor _ _
  | CV_CAP_ANDROID_COLOR_FRAME_RGB => exact hcolor _ _
  | CV_CAP_ANDROID_COLOR_FRAME_BGRA => exact hcolor _ _
  | CV_CAP_ANDROID_COLOR_FRAME_RGBA => exact hcolor _ _
  | unsupported v => simp [OutputType.isColor] at hkind

/-- C13, witness: the grabbed 3x2 frame with a collaborator that reports `yuv420sp`:
`retrieveFrame(BGRA)` fails its assertion and the colour cache stays invalid. -/
theorem retrieveFrame_odd_witness :
    ∃ post, retrieveFrame (withPreviewFormat oddGrabbed "yuv420sp")
        CV_CAP_ANDROID_COLOR_FRAME_BGRA = Outcome.raised CvStatus.CV_StsAssert post ∧
      post.m_hasColor = false ∧
      post.m_frameColor = (withPreviewFormat oddGrabbed "yuv420sp").m_frameColor :=
  (retrieveFrame_odd (withPreviewFormat oddGrabbed "yuv420sp") _
    { addr := 0, bytes := [1, 2, 3, 4, 5, 6, 7, 8, 9] } CV_CAP_ANDROID_COLOR_FRAME_BGRA rfl rfl rfl
    (Or.inl (by decide)) rfl).1 (Or.inl rfl)

end CapAndroid

namespace CapAndroid

/-! ## Invariants of the reachable states -/

/-- The buffer invariant reads the stored size and the two buffers only. -/
theorem RawFramesOk_of_bufView (c post : CvCapture_Android) (h : bufView post = bufView c)
    (hc : RawFramesOk c) : RawFramesOk post := by
  simp only [bufView, Prod.mk.injEq] at h
  obtain ⟨h1, h2, h3, h4⟩ := h
  unfold RawFramesOk at hc ⊢
  rw [h1, h2, h3, h4]
  exact hc

/-- The cache invariant reads the two cache bits and the format only. -/
theorem CachesKnown_of_cacheView (c post : CvCapture_Android)
    (h : cacheView post = cacheView c) (hc : CachesKnown c) : CachesKnown post := by
  simp only [cacheView, Prod.mk.injEq] at h
  obtain ⟨h1, h2, h3⟩ := h
  unfold CachesKnown at hc ⊢
  rw [h1, h2, h3]
  exact hc

/-- So does the unknown-format invariant. -/
theorem FormatUnknown_of_cacheView (c post : CvCapture_Android)
    (h : cacheView post = cacheView c) (hc : FormatUnknown c) : FormatUnknown post := by
  simp only [cacheView, Prod.mk.injEq] at h
  obtain ⟨h1, h2, h3⟩ := h
  unfold FormatUnknown at hc ⊢
  rw [h1, h2, h3]
  exact hc

/-- A defined `memcpy` stays inside the destination: the array keeps its length, and its
first `n` bytes are those of the source. -/
theorem memcpy_length (dst : Option Buffer) (src : Option (List Nat)) (n : Int) (f : Buffer)
    (h : memcpy dst src n = some f) :
    ∃ d s, dst = some d ∧ src = some s ∧ f.bytes.length = d.bytes.length ∧ 0 ≤ n ∧
      n.toNat ≤ d.bytes.length ∧ n.toNat ≤ s.length ∧
      f.bytes = s.take n.toNat ++ d.bytes.drop n.toNat := by
  cases dst with
  | none => simp [memcpy] at h
  | some d =>
    cases src with
    | none => simp [memcpy] at h
    | some s =>
      simp only [memcpy] at h
      split at h
      · rename_i hcond
        injection h with h
        subst h
        refine ⟨d, s, rfl, rfl, ?_, hcond.1, hcond.2.1, hcond.2.2, rfl⟩
        simp only [List.length_append, List.length_take, List.length_drop]
        omega
      · simp at h

/-- The function `setFrame` preserves the buffer invariant; when the size test passes, the
next buffer exists afterwards, and for a positive size it holds exactly `bufferSize` bytes,
all of them copied from the delivery. -/
theorem setFrame_rawFramesOk (c post : CvCapture_Android) (a : CameraActivity)
    (buffer : Option (List Nat)) (bufferSize : Int) (hact : c.m_activity = some a)
    (hinv : RawFramesOk c) (h : setFrame c buffer bufferSize = some post) :
    RawFramesOk post ∧
    ((a.frameWidth * a.frameHeight * 3) >>> (1 : Nat) = bufferSize → 0 < bufferSize →
      bufferSize = Int.tdiv (a.frameWidth * a.frameHeight * 3) 2 ∧
      post.m_width = a.frameWidth ∧ post.m_height = a.frameHeight ∧
      ∃ nxt s, post.m_frameYUV420next = some nxt ∧ buffer = some s ∧
        nxt.bytes.length = bufferSize.toNat ∧ nxt.bytes = s.take bufferSize.toNat) := by
  unfold setFrame at h
  simp only [hact] at h
  by_cases hexp : (a.frameWidth * a.frameHeight * 3) >>> (1 : Nat) ≠ bufferSize
  · simp only [hexp, ne_eq, not_false_eq_true, if_true, Option.some.injEq] at h
    subst h
    exact ⟨hinv, fun hh => absurd hh hexp⟩
  · simp only [hexp, if_false] at h
    have hexp' : (a.frameWidth * a.frameHeight * 3) >>> (1 : Nat) = bufferSize := by
      by_contra hne
      exact hexp hne
    cases hp : prepareCacheForYUV c a.frameWidth a.frameHeight with
    | none => simp [hp] at h
    | some c1 =>
      obtain ⟨hsame, hdiff⟩ := prepareCacheForYUV_eq c c1 _ _ hp
      simp only [hp] at h
      cases hm : memcpy c1.m_frameYUV420next buffer bufferSize with
      | none => simp [hm] at h
      | some filled =>
        obtain ⟨d, s, hd, hs, hlen, hn0, hnd, hns, hbytes⟩ := memcpy_length _ _ _ _ hm
        simp only [hm, Option.some.injEq] at h
        subst h
        have hinv1 : RawFramesOk c1 ∧ c1.m_width = a.frameWidth ∧
            c1.m_height = a.frameHeight := by
          by_cases hdim : a.frameWidth ≠ c.m_width ∨ a.frameHeight ≠ c.m_height
          · obtain ⟨hnn, hc1⟩ := hdiff hdim
            subst hc1
            refine ⟨?_, rfl, rfl⟩
            unfold RawFramesOk
            simp only [List.length_replicate, and_self, and_true]
            exact hnn
          · have hw : a.frameWidth = c.m_width := by
              by_contra h2
              exact hdim (Or.inl h2)
            have hh : a.frameHeight = c.m_height := by
              by_contra h2
              exact hdim (Or.inr h2)
            have hc1 := hsame ⟨hw, hh⟩
            subst hc1
            exact ⟨hinv, hw.symm, hh.symm⟩
        obtain ⟨hok1, hw1, hh1⟩ := hinv1
        have hshape : ∃ cur, c1.m_frameYUV420 = some cur ∧
            0 ≤ Int.tdiv (c1.m_width * c1.m_height * 3) 2 ∧
            cur.bytes.length = (Int.tdiv (c1.m_width * c1.m_height * 3) 2).toNat ∧
            d.bytes.length = (Int.tdiv (c1.m_width * c1.m_height * 3) 2).toNat := by
          unfold RawFramesOk at hok1
          rw [hd] at hok1
          cases hcur : c1.m_frameYUV420 with
          | none =>
            rw [hcur] at hok1
            exact absurd hok1 (by simp)
          | some cur =>
            rw [hcur] at hok1
            exact ⟨cur, rfl, hok1.1, hok1.2.1, hok1.2.2⟩
        obtain ⟨cur, hcur, hnn, hlc, hld⟩ := hshape
        constructor
        · unfold RawFramesOk
          simp only [hcur]
          exact ⟨hnn, hlc, by rw [hlen]; exact hld⟩
        · intro _ hpos
          have htd : bufferSize = Int.tdiv (a.frameWidth * a.frameHeight * 3) 2 :=
            ((expectedSize_eq_iff _ _ hpos).1 hexp').symm
          refine ⟨htd, hw1, hh1, filled, s, rfl, hs, ?_, ?_⟩
          · rw [hlen, hld, hw1, hh1, ← htd]
          · rw [hbytes]
            have hdn : d.bytes.length = bufferSize.toNat := by
              rw [hld, hw1, hh1, ← htd]
            rw [List.drop_of_length_le (le_of_eq hdn)]
            simp

end CapAndroid

namespace CapAndroid

/-- A returned delivery preserves the buffer invariant and leaves the cache bits and the
format alone; an accepted one fills the next buffer exactly. -/
theorem onFrameBuffer_invariant (c post : CvCapture_Android) (buffer : Option (List Nat))
    (bufferSize : Int) (r : Bool) (hinv : RawFramesOk c)
    (h : onFrameBuffer c buffer bufferSize = Outcome.ok r post) :
    RawFramesOk post ∧ cacheView post = cacheView c ∧
    ∀ a, c.m_activity = some a → a.connected = true → buffer.isSome = true →
      0 < bufferSize → (c.m_waitingNextFrame = true ∨ c.m_shouldAutoGrab = true) →
      (a.frameWidth * a.frameHeight * 3) >>> (1 : Nat) = bufferSize →
      bufferSize = Int.tdiv (a.frameWidth * a.frameHeight * 3) 2 ∧
      post.m_width = a.frameWidth ∧ post.m_height = a.frameHeight ∧
      ∃ nxt s, post.m_frameYUV420next = some nxt ∧ buffer = some s ∧
        nxt.bytes.length = bufferSize.toNat ∧ nxt.bytes = s.take bufferSize.toNat := by
  cases hact : c.m_activity with
  | none => simp [onFrameBuffer, hact] at h
  | some a =>
    obtain ⟨-, hshape, -⟩ := onFrameBuffer_shape c post a _ _ r hact h
    have hview : cacheView post = cacheView c := by
      have := congrArg cacheView hshape
      exact this
    unfold onFrameBuffer at h
    simp only [hact] at h
    by_cases hguard : (a.connected && buffer.isSome && decide (bufferSize > 0)) = true
    · simp only [hguard, if_true] at h
      by_cases hflag : (c.m_waitingNextFrame || c.m_shouldAutoGrab) = true
      · simp only [hflag, if_true] at h
        cases hs : setFrame
            { c with m_activity := some { a with m_framesReceived := a.m_framesReceived + 1 } }
            buffer bufferSize with
        | none => simp [hs] at h
        | some c2 =>
          simp only [hs, Outcome.ok.injEq] at h
          obtain ⟨-, hpost⟩ := h
          subst hpost
          obtain ⟨h1, h2⟩ := setFrame_rawFramesOk
            { c with m_activity := some { a with m_framesReceived := a.m_framesReceived + 1 } }
            c2 { a with m_framesReceived := a.m_framesReceived + 1 } buffer bufferSize rfl
            (RawFramesOk_of_bufView c _ rfl hinv) hs
          refine ⟨h1, hview, ?_⟩
          intro a' ha' _ _ hpos _ hsz
          injection ha' with ha'
          subst ha'
          exact h2 hsz hpos
      · simp only [hflag, Bool.false_eq_true, if_false, Outcome.ok.injEq] at h
        obtain ⟨-, hpost⟩ := h
        subst hpost
        refine ⟨hinv, hview, ?_⟩
        intro a' _ _ _ _ hfl _
        exfalso
        apply hflag
        rcases hfl with hf | hf <;> simp [hf]
    · simp only [hguard, Bool.false_eq_true, if_false, Outcome.ok.injEq] at h
      obtain ⟨-, hpost⟩ := h
      subst hpost
      refine ⟨hinv, hview, ?_⟩
      intro a' ha' hconn hbuf hpos _ _
      exfalso
      apply hguard
      injection ha' with ha'
      subst ha'
      simp [hconn, hbuf, hpos]

/-- A run of deliveries preserves the buffer invariant and leaves the cache bits and the
format alone. -/
theorem deliverAll_invariant (ds : List Delivery) :
    ∀ (c post : CvCapture_Android), RawFramesOk c → deliverAll c ds = some post →
      RawFramesOk post ∧ cacheView post = cacheView c := by
  induction ds with
  | nil =>
    intro c post hinv h
    simp only [deliverAll, Option.some.injEq] at h
    subst h
    exact ⟨hinv, rfl⟩
  | cons d rest ih =>
    intro c post hinv h
    simp only [deliverAll] at h
    cases ho : onFrameBuffer c d.buffer d.bufferSize with
    | undefined => simp [ho] at h
    | raised code p => simp [ho] at h
    | ok r mid =>
      simp only [ho] at h
      obtain ⟨h1, h2, -⟩ := onFrameBuffer_invariant c mid _ _ r hinv ho
      obtain ⟨h3, h4⟩ := ih mid post h1 h
      exact ⟨h3, h4.trans h2⟩

/-- The first half of `grabFrame` touches neither the buffers nor the caches. -/
theorem grabFrameBegin_views (c c1 : CvCapture_Android) (w : Bool)
    (h : grabFrameBegin c = some (c1, w)) :
    bufView c1 = bufView c ∧ cacheView c1 = cacheView c := by
  unfold grabFrameBegin at h
  by_cases hflag : c.m_CameraParamsChanged = true
  · cases hact : c.m_activity with
    | none => simp [hflag, hact] at h
    | some a =>
      simp only [hflag, if_true, hact] at h
      split at h
      · simp only [Option.some.injEq, Prod.mk.injEq] at h
        obtain ⟨h1, -⟩ := h
        subst h1
        exact ⟨rfl, rfl⟩
      · simp only [Option.some.injEq, Prod.mk.injEq] at h
        obtain ⟨h1, -⟩ := h
        subst h1
        exact ⟨rfl, rfl⟩
  · simp only [hflag, Bool.false_eq_true, if_false] at h
    split at h
    · simp only [Option.some.injEq, Prod.mk.injEq] at h
      obtain ⟨h1, -⟩ := h
      subst h1
      exact ⟨rfl, rfl⟩
    · simp only [Option.some.injEq, Prod.mk.injEq] at h
      obtain ⟨h1, -⟩ := h
      subst h1
      exact ⟨rfl, rfl⟩

/-- The second half of `grabFrame` preserves the buffer invariant (the swap exchanges two
arrays of the same length); it keeps the format, and the cache bits are afterwards as
before or both false. -/
theorem grabFrameResume_invariant (c : CvCapture_Android) (hinv : RawFramesOk c) :
    RawFramesOk (grabFrameResume c).2 ∧
    (grabFrameResume c).2.m_frameFormat = c.m_frameFormat ∧
    (cacheView (grabFrameResume c).2 = cacheView c ∨
      ((grabFrameResume c).2.m_hasGray = false ∧ (grabFrameResume c).2.m_hasColor = false)) := by
  by_cases hst : c.m_dataState = CVCAPTURE_ANDROID_STATE_HAS_NEW_FRAME_UNGRABBED
  · have hres : grabFrameResume c = (true, { c with
        m_frameYUV420 := c.m_frameYUV420next
        m_frameYUV420next := c.m_frameYUV420
        m_hasGray := false
        m_hasColor := false
        m_dataState := CVCAPTURE_ANDROID_STATE_HAS_FRAME_GRABBED
        m_framesGrabbed := c.m_framesGrabbed + 1 }) := by
      simp [grabFrameResume, hst]
    rw [hres]
    refine ⟨?_, rfl, Or.inr ⟨rfl, rfl⟩⟩
    unfold RawFramesOk at hinv ⊢
    show match c.m_frameYUV420next, c.m_frameYUV420 with
      | none, none => c.m_width = 0 ∧ c.m_height = 0
      | some cur, some nxt =>
        0 ≤ Int.tdiv (c.m_width * c.m_height * 3) 2 ∧
        cur.bytes.length = (Int.tdiv (c.m_width * c.m_height * 3) 2).toNat ∧
        nxt.bytes.length = (Int.tdiv (c.m_width * c.m_height * 3) 2).toNat
      | _, _ => False
    cases hcur : c.m_frameYUV420 with
    | none =>
      cases hnxt : c.m_frameYUV420next with
      | none =>
        rw [hcur, hnxt] at hinv
        exact hinv
      | some nxt =>
        rw [hcur, hnxt] at hinv
        exact absurd hinv (by simp)
    | some cur =>
      cases hnxt : c.m_frameYUV420next with
      | none =>
        rw [hcur, hnxt] at hinv
        exact absurd hinv (by simp)
      | some nxt =>
        rw [hcur, hnxt] at hinv
        exact ⟨hinv.1, hinv.2.2, hinv.2.1⟩
  · have hres : grabFrameResume c = (false, c) := by
      simp [grabFrameResume, hst]
    rw [hres]
    exact ⟨hinv, rfl, Or.inl rfl⟩

/-- A complete `grabFrame` that returns preserves the buffer invariant and the format; the
cache bits are afterwards as before or both false. -/
theorem grabFrame_invariant (c post : CvCapture_Android) (wake : List Delivery)
    (hinv : RawFramesOk c) (h : (grabFrame c wake).post? = some post) :
    RawFramesOk post ∧ post.m_frameFormat = c.m_frameFormat ∧
    (cacheView post = cacheView c ∨ (post.m_hasGray = false ∧ post.m_hasColor = false)) := by
  by_cases hopen : isOpened c = true
  · rw [grabFrame_opened c wake hopen] at h
    cases hchk : stateAtCheck c wake with
    | none => simp [hchk, Outcome.post?] at h
    | some chk =>
      simp only [hchk, Outcome.post?, Option.some.injEq] at h
      subst h
      have hpre : RawFramesOk chk ∧ cacheView chk = cacheView c := by
        unfold stateAtCheck at hchk
        cases hb : grabFrameBegin c with
        | none => simp [hb] at hchk
        | some p =>
          obtain ⟨c1, w⟩ := p
          obtain ⟨hv1, hv2⟩ := grabFrameBegin_views c c1 w hb
          have hinv1 := RawFramesOk_of_bufView c c1 hv1 hinv
          cases w with
          | false =>
            simp only [hb, Option.some.injEq] at hchk
            subst hchk
            exact ⟨hinv1, hv2⟩
          | true =>
            simp only [hb] at hchk
            obtain ⟨h1, h2⟩ := deliverAll_invariant wake c1 chk hinv1 hchk
            exact ⟨h1, h2.trans hv2⟩
      obtain ⟨hok, hcv⟩ := hpre
      obtain ⟨g1, g2, g3⟩ := grabFrameResume_invariant chk hok
      have hfmt : chk.m_frameFormat = c.m_frameFormat := by
        have := congrArg (fun v : Bool × Bool × YUVformat => v.2.2) hcv
        exact this
      refine ⟨g1, g2.trans hfmt, ?_⟩
      rcases g3 with g | g
      · exact Or.inl (g.trans hcv)
      · exact Or.inr g
  · have hclosed : isOpened c = false := by simpa using hopen
    simp only [grabFrame, hclosed, Bool.not_false, if_true, Outcome.post?,
      Option.some.injEq] at h
    subst h
    exact ⟨hinv, rfl, Or.inl rfl⟩

end CapAndroid

namespace CapAndroid

/-- The grey conversion succeeds only with a supported pixel format. -/
theorem convertYUV2Grey_true (c : CvCapture_Android) (width height : Int)
    (yuv : Option Buffer) (resmat res : Mat)
    (h : convertYUV2Grey c width height yuv resmat = ConvResult.done true res) :
    c.m_frameFormat = YUVformat.yuv420sp ∨ c.m_frameFormat = YUVformat.yuv420i := by
  unfold convertYUV2Grey at h
  cases yuv with
  | none => simp at h
  | some b =>
    simp only at h
    by_cases hf : c.m_frameFormat ≠ YUVformat.yuv420sp ∧ c.m_frameFormat ≠ YUVformat.yuv420i
    · rw [if_pos hf] at h
      simp at h
    · by_contra hno
      apply hf
      constructor
      · intro h1
        exact hno (Or.inl h1)
      · intro h1
        exact hno (Or.inr h1)

/-- The colour conversion succeeds only with a supported pixel format. -/
theorem convertYUV2BGR_true (c : CvCapture_Android) (width height : Int)
    (yuv : Option Buffer) (resmat res : Mat) (inRGBorder withAlpha : Bool)
    (h : convertYUV2BGR c width height yuv resmat inRGBorder withAlpha
      = ConvResult.done true res) :
    c.m_frameFormat = YUVformat.yuv420sp ∨ c.m_frameFormat = YUVformat.yuv420i := by
  unfold convertYUV2BGR at h
  cases yuv with
  | none => simp at h
  | some b =>
    simp only at h
    by_cases hf : c.m_frameFormat ≠ YUVformat.yuv420sp ∧ c.m_frameFormat ≠ YUVformat.yuv420i
    · rw [if_pos hf] at h
      simp at h
    · by_contra hno
      apply hf
      constructor
      · intro h1
        exact hno (Or.inl h1)
      · intro h1
        exact hno (Or.inr h1)

/-- What the colour branch does to the colour cache bit: it keeps it, or it sets it to the
result of a conversion, which is true only for a supported format. -/
theorem retrieveColor_bits (c post : CvCapture_Android) (cur : Option Buffer)
    (inRGBorder withAlpha : Bool)
    (h : (retrieveColor c cur inRGBorder withAlpha).post? = some post) :
    post.m_frameFormat = c.m_frameFormat ∧ post.m_hasGray = c.m_hasGray ∧
    (post.m_hasColor = c.m_hasColor ∨
      (post.m_hasColor = true →
        post.m_frameFormat = YUVformat.yuv420sp ∨ post.m_frameFormat = YUVformat.yuv420i)) := by
  unfold retrieveColor at h
  by_cases hc : c.m_hasColor = true
  · simp only [hc, Bool.not_true, Bool.false_eq_true, if_false, Outcome.post?,
      Option.some.injEq] at h
    subst h
    exact ⟨rfl, rfl, Or.inl rfl⟩
  · have hc' : c.m_hasColor = false := by simpa using hc
    simp only [hc', Bool.not_false, if_true] at h
    generalize hcv : convertYUV2BGR _ _ _ _ _ _ _ = res at h
    cases res with
    | undefined => simp [Outcome.post?] at h
    | assertFailed =>
      simp only [Outcome.post?, Option.some.injEq] at h
      subst h
      exact ⟨rfl, rfl, Or.inl hc'.symm⟩
    | done ret resmat =>
      cases ret with
      | false =>
        simp only [Bool.not_false, if_true, Outcome.post?, Option.some.injEq] at h
        subst h
        exact ⟨rfl, rfl, Or.inl hc'.symm⟩
      | true =>
        simp only [Bool.not_true, Bool.false_eq_true, if_false, Outcome.post?,
          Option.some.injEq] at h
        subst h
        have hk := convertYUV2BGR_true _ _ _ _ _ _ _ _ hcv
        exact ⟨rfl, rfl, Or.inr (fun _ => hk)⟩

/-- What `retrieveFrame` does to the format and the cache bits: the format changes only
away from `noformat`, and a cache bit is kept or set to the result of a conversion, which
is true only for a supported format. -/
theorem retrieveFrame_bits (c post : CvCapture_Android) (outputType : OutputType)
    (h : (retrieveFrame c outputType).post? = some post) :
    (post.m_frameFormat = c.m_frameFormat ∨ c.m_frameFormat = YUVformat.noformat) ∧
    (post.m_hasGray = c.m_hasGray ∨
      (post.m_hasGray = true →
        post.m_frameFormat = YUVformat.yuv420sp ∨ post.m_frameFormat = YUVformat.yuv420i)) ∧
    (post.m_hasColor = c.m_hasColor ∨
      (post.m_hasColor = true →
        post.m_frameFormat = YUVformat.yuv420sp ∨ post.m_frameFormat = YUVformat.yuv420i)) := by
  unfold retrieveFrame at h
  cases hcur : c.m_frameYUV420 with
  | none =>
    simp only [hcur, Outcome.post?, Option.some.injEq] at h
    subst h
    exact ⟨Or.inl rfl, Or.inl rfl, Or.inl rfl⟩
  | some cur =>
    simp only [hcur] at h
    cases hres : resolveFrameFormat c with
    | none => simp [hres, Outcome.post?] at h
    | some c0 =>
      simp only [hres] at h
      obtain ⟨-, hc0⟩ := resolveFrameFormat_spec c c0 hres
      have hG : c0.m_hasGray = c.m_hasGray := by rw [hc0]
      have hC : c0.m_hasColor = c.m_hasColor := by rw [hc0]
      have hF : c0.m_frameFormat = c.m_frameFormat ∨ c.m_frameFormat = YUVformat.noformat := by
        by_cases hf : c.m_frameFormat = YUVformat.noformat
        · exact Or.inr hf
        · left
          have := resolveFrameFormat_resolved c hf
          rw [hres] at this
          injection this with this
          rw [this]
      have hcol : ∀ (rgb alpha : Bool),
          (retrieveColor c0 (some cur) rgb alpha).post? = some post →
          (post.m_frameFormat = c.m_frameFormat ∨ c.m_frameFormat = YUVformat.noformat) ∧
          (post.m_hasGray = c.m_hasGray ∨
            (post.m_hasGray = true →
              post.m_frameFormat = YUVformat.yuv420sp ∨
                post.m_frameFormat = YUVformat.yuv420i)) ∧
          (post.m_hasColor = c.m_hasColor ∨
            (post.m_hasColor = true →
              post.m_frameFormat = YUVformat.yuv420sp ∨
                post.m_frameFormat = YUVformat.yuv420i)) := by
        intro rgb alpha hh
        obtain ⟨b1, b2, b3⟩ := retrieveColor_bits c0 post _ _ _ hh
        refine ⟨?_, Or.inl (b2.trans hG), ?_⟩
        · rcases hF with hF | hF
          · exact Or.inl (b1.trans hF)
          · exact Or.inr hF
        · rcases b3 with b3 | b3
          · exact Or.inl (b3.trans hC)
          · exact Or.inr b3
      cases outputType with
      | CV_CAP_ANDROID_GREY_FRAME =>
        simp only at h
        by_cases hg : c0.m_hasGray = true
        · simp only [hg, Bool.not_true, Bool.false_eq_true, if_false, Outcome.post?,
            Option.some.injEq] at h
          subst h
          exact ⟨hF, Or.inl hG, Or.inl hC⟩
        · have hg' : c0.m_hasGray = false := by simpa using hg
          simp only [hg', Bool.not_false, if_true] at h
          generalize hcv : convertYUV2Grey _ _ _ _ _ = res at h
          cases res with
          | undefined => simp [Outcome.post?] at h
          | assertFailed =>
            simp only [Outcome.post?, Option.some.injEq] at h
            subst h
            exact ⟨hF, Or.inl (hg'.symm.trans hG), Or.inl hC⟩
          | done ret resmat =>
            cases ret with
            | false =>
              simp only [Bool.not_false, if_true, Outcome.post?, Option.some.injEq] at h
              subst h
              exact ⟨hF, Or.inl (hg'.symm.trans hG), Or.inl hC⟩
            | true =>
              simp only [Bool.not_true, Bool.false_eq_true, if_false, Outcome.post?,
                Option.some.injEq] at h
              subst h
              have hk := convertYUV2Grey_true _ _ _ _ _ _ hcv
              exact ⟨hF, Or.inr (fun _ => hk), Or.inl hC⟩
      | CV_CAP_ANDROID_COLOR_FRAME_BGR => exact hcol _ _ h
      | CV_CAP_ANDROID_COLOR_FRAME_RGB => exact hcol _ _ h
      | CV_CAP_ANDROID_COLOR_FRAME_BGRA => exact hcol _ _ h
      | CV_CAP_ANDROID_COLOR_FRAME_RGBA => exact hcol _ _ h
      | unsupported v =>
        simp only [Outcome.post?, Option.some.injEq] at h
        subst h
        exact ⟨hF, Or.inl hG, Or.inl hC⟩

end CapAndroid

namespace CapAndroid

/-- An operation that leaves the format and the cache bits alone is a cache step. -/
theorem CacheStep_of_cacheView (c post : CvCapture_Android)
    (h : cacheView post = cacheView c) : CacheStep c post := by
  simp only [cacheView, Prod.mk.injEq] at h
  exact ⟨Or.inl h.2.2, Or.inl h.1, Or.inl h.2.1⟩

/-- Cache steps preserve the cache invariant. -/
theorem CacheStep.cachesKnown {c post : CvCapture_Android} (hs : CacheStep c post)
    (hc : CachesKnown c) : CachesKnown post := by
  obtain ⟨hF, hG, hC⟩ := hs
  have hkeep : (c.m_frameFormat = YUVformat.yuv420sp ∨ c.m_frameFormat = YUVformat.yuv420i) →
      (post.m_frameFormat = YUVformat.yuv420sp ∨ post.m_frameFormat = YUVformat.yuv420i) := by
    intro hk
    rcases hF with hF | hF
    · rw [hF]
      exact hk
    · rcases hk with hk | hk <;> rw [hF] at hk <;> cases hk
  intro hbits
  rcases hbits with hb | hb
  · rcases hG with h1 | h1 | h1
    · exact hkeep (hc (Or.inl (h1.symm.trans hb)))
    · rw [h1] at hb
      cases hb
    · exact h1
  · rcases hC with h1 | h1 | h1
    · exact hkeep (hc (Or.inr (h1.symm.trans hb)))
    · rw [h1] at hb
      cases hb
    · exact h1

/-- Cache steps preserve the unknown-format invariant. -/
theorem CacheStep.formatUnknown {c post : CvCapture_Android} (hs : CacheStep c post)
    (hc : FormatUnknown c) : FormatUnknown post := by
  obtain ⟨hF, hG, hC⟩ := hs
  obtain ⟨hf, hg, hcol⟩ := hc
  have hfp : post.m_frameFormat = YUVformat.yuvUnknown := by
    rcases hF with hF | hF
    · exact hF.trans hf
    · rw [hf] at hF
      cases hF
  have hno : ¬ (post.m_frameFormat = YUVformat.yuv420sp ∨
      post.m_frameFormat = YUVformat.yuv420i) := by
    rw [hfp]
    intro h
    rcases h with h | h <;> cases h
  refine ⟨hfp, ?_, ?_⟩
  · rcases hG with h1 | h1 | h1
    · exact h1.trans hg
    · exact h1
    · exact absurd h1 hno
  · rcases hC with h1 | h1 | h1
    · exact h1.trans hcol
    · exact h1
    · exact absurd h1 hno

/-- The function `setProperty` touches neither the buffers nor the caches. -/
theorem setProperty_views (c post : CvCapture_Android) (propIdx : PropIdx) (propValue : Int)
    (h : (setProperty c propIdx propValue).post? = some post) :
    bufView post = bufView c ∧ cacheView post = cacheView c := by
  unfold setProperty at h
  by_cases hopen : isOpened c = true
  · simp only [hopen, if_true] at h
    cases hact : c.m_activity with
    | none =>
      cases propIdx <;> simp only [hact, Outcome.post?, Option.some.injEq] at h <;>
        first
          | exact absurd h (by simp)
          | (subst h; exact ⟨rfl, rfl⟩)
    | some a =>
      cases propIdx <;> simp only [hact, Outcome.post?, Option.some.injEq] at h <;>
        subst h <;> exact ⟨rfl, rfl⟩
  · have hclosed : isOpened c = false := by simpa using hopen
    simp only [hclosed, Bool.false_eq_true, if_false, Outcome.post?, Option.some.injEq] at h
    subst h
    exact ⟨rfl, rfl⟩

/-- The function `getProperty` changes nothing. -/
theorem getProperty_post (c post : CvCapture_Android) (propIdx : PropIdx)
    (h : (getProperty c propIdx).post? = some post) : post = c := by
  unfold getProperty at h
  cases hact : c.m_activity with
  | none =>
    cases propIdx <;> simp only [hact, Outcome.post?, Option.some.injEq] at h <;>
      first
        | exact absurd h (by simp)
        | exact h.symm
  | some a =>
    cases propIdx <;> simp only [hact, Outcome.post?, Option.some.injEq] at h <;>
      exact h.symm

/-- Every operation that returns or throws preserves the buffer invariant and is a cache
step. -/
theorem Op.exec_invariant (op : Op) (c post : CvCapture_Android) (hinv : RawFramesOk c)
    (h : op.exec c = some post) : RawFramesOk post ∧ CacheStep c post := by
  cases op with
  | call k =>
    cases k with
    | deliver buffer bufferSize =>
      simp only [Op.exec, Call.exec] at h
      cases ho : onFrameBuffer c buffer bufferSize with
      | undefined => simp [ho, Outcome.post?] at h
      | raised code p =>
        exfalso
        unfold onFrameBuffer at ho
        cases hact : c.m_activity with
        | none => simp [hact] at ho
        | some a =>
          simp only [hact] at ho
          split at ho
          · split at ho
            · split at ho <;> simp at ho
            · simp at ho
          · simp at ho
      | ok r p =>
        simp only [ho, Outcome.post?, Option.some.injEq] at h
        subst h
        obtain ⟨h1, h2, -⟩ := onFrameBuffer_invariant c p _ _ r hinv ho
        exact ⟨h1, CacheStep_of_cacheView c p h2⟩
    | retrieve outputType =>
      simp only [Op.exec, Call.exec] at h
      have hshape := retrieveFrame_shape c post outputType h
      have hbuf : bufView post = bufView c := by
        have := congrArg bufView hshape
        exact this
      obtain ⟨hF, hG, hC⟩ := retrieveFrame_bits c post outputType h
      refine ⟨RawFramesOk_of_bufView c post hbuf hinv, hF, ?_, ?_⟩
      · rcases hG with hG | hG
        · exact Or.inl hG
        · cases hb : post.m_hasGray with
          | false => exact Or.inr (Or.inl rfl)
          | true => exact Or.inr (Or.inr (hG hb))
      · rcases hC with hC | hC
        · exact Or.inl hC
        · cases hb : post.m_hasColor with
          | false => exact Or.inr (Or.inl rfl)
          | true => exact Or.inr (Or.inr (hC hb))
    | setProp propIdx propValue =>
      simp only [Op.exec, Call.exec] at h
      obtain ⟨h1, h2⟩ := setProperty_views c post _ _ h
      exact ⟨RawFramesOk_of_bufView c post h1 hinv, CacheStep_of_cacheView c post h2⟩
    | getProp propIdx =>
      simp only [Op.exec, Call.exec] at h
      have := getProperty_post c post _ h
      subst this
      exact ⟨hinv, CacheStep_of_cacheView _ _ rfl⟩
  | grab wake =>
    simp only [Op.exec] at h
    obtain ⟨h1, h2, h3⟩ := grabFrame_invariant c post wake hinv h
    refine ⟨h1, Or.inl h2, ?_, ?_⟩
    · rcases h3 with h3 | h3
      · simp only [cacheView, Prod.mk.injEq] at h3
        exact Or.inl h3.1
      · exact Or.inr (Or.inl h3.1)
    · rcases h3 with h3 | h3
      · simp only [cacheView, Prod.mk.injEq] at h3
        exact Or.inl h3.2.1
      · exact Or.inr (Or.inl h3.2)

end CapAndroid

namespace CapAndroid

/-- Every run of operations preserves the buffer invariant, the cache invariant and the
unknown-format invariant. -/
theorem runOps_invariant (ops : List Op) :
    ∀ (c post : CvCapture_Android), RawFramesOk c → runOps c ops = some post →
      RawFramesOk post ∧ (CachesKnown c → CachesKnown post) ∧
      (FormatUnknown c → FormatUnknown post) := by
  induction ops with
  | nil =>
    intro c post hinv h
    simp only [runOps, Option.some.injEq] at h
    subst h
    exact ⟨hinv, fun hc => hc, fun hc => hc⟩
  | cons op rest ih =>
    intro c post hinv h
    simp only [runOps] at h
    cases he : op.exec c with
    | none => simp [he] at h
    | some mid =>
      simp only [he] at h
      obtain ⟨h1, h2⟩ := op.exec_invariant c mid hinv he
      obtain ⟨h3, h4, h5⟩ := ih mid post h1 h
      exact ⟨h3, fun hc => h4 (h2.cachesKnown hc), fun hc => h5 (h2.formatUnknown hc)⟩

/-- In every reachable state the buffers satisfy the representation invariant and a valid
cache presupposes a supported format. -/
theorem Reachable.invariant {c : CvCapture_Android} (h : Reachable c) :
    RawFramesOk c ∧ CachesKnown c := by
  obtain ⟨activity, connectOk, ops, hrun⟩ := h
  have h0 : RawFramesOk (CvCapture_Android.create activity connectOk) := by
    show (0 : Int) = 0 ∧ (0 : Int) = 0
    exact ⟨rfl, rfl⟩
  have h1 : CachesKnown (CvCapture_Android.create activity connectOk) := by
    intro hb
    rcases hb with hb | hb <;> cases hb
  obtain ⟨g1, g2, -⟩ := runOps_invariant ops _ c h0 hrun
  exact ⟨g1, g2 h1⟩

/-! ## The raw buffers of a reachable state -/

/-- C15: in every state reachable from the constructor through `onFrameBuffer`,
`grabFrame`, `setProperty`, `getProperty` and `retrieveFrame` (whatever dimensions the
collaborator reports, non-negative ones included), the two raw buffers are either both
unallocated with `m_width = m_height = 0`, or both allocated with exactly
`m_width*m_height*3/2` bytes each; the buffer swap of `grabFrame` preserves this.  Hence
every accepted delivery in such a state copies exactly as many bytes as the next buffer
holds: the accepted size `(width*height*3)>>1` equals `width*height*3/2`, the stored size
is the reported one, and afterwards the next buffer consists of the `bufferSize` delivered
bytes. -/
theorem reachable_rawFramesOk (c : CvCapture_Android) (hreach : Reachable c) :
    RawFramesOk c ∧ RawFramesOk (grabFrameResume c).2 ∧
    ∀ (a : CameraActivity) (buffer : Option (List Nat)) (bufferSize : Int) (r : Bool)
      (post : CvCapture_Android),
      onFrameBuffer c buffer bufferSize = Outcome.ok r post →
      c.m_activity = some a → a.connected = true → buffer.isSome = true → 0 < bufferSize →
      (c.m_waitingNextFrame = true ∨ c.m_shouldAutoGrab = true) →
      (a.frameWidth * a.frameHeight * 3) >>> (1 : Nat) = bufferSize →
      RawFramesOk post ∧
      bufferSize = Int.tdiv (a.frameWidth * a.frameHeight * 3) 2 ∧
      post.m_width = a.frameWidth ∧ post.m_height = a.frameHeight ∧
      ∃ nxt s, post.m_frameYUV420next = some nxt ∧ buffer = some s ∧
        nxt.bytes.length = bufferSize.toNat ∧ nxt.bytes = s.take bufferSize.toNat := by
  obtain ⟨hinv, -⟩ := hreach.invariant
  refine ⟨hinv, (grabFrameResume_invariant c hinv).1, ?_⟩
  intro a buffer bufferSize r post ho hact hconn hbuf hpos hflag hsz
  obtain ⟨h1, -, h2⟩ := onFrameBuffer_invariant c post buffer bufferSize r hinv ho
  exact ⟨h1, h2 a hact hconn hbuf hpos hflag hsz⟩

/-- C15, witness: `demoUngrabbed` is reachable, so its buffers satisfy the invariant; both
hold `2*2*3/2 = 6` bytes. -/
theorem reachable_rawFramesOk_witness :
    Reachable demoUngrabbed ∧ RawFramesOk demoUngrabbed ∧
    demoUngrabbed.m_frameYUV420.map (fun b => b.bytes.length) = some 6 ∧
    demoUngrabbed.m_frameYUV420next.map (fun b => b.bytes.length) = some 6 := by
  have hreach : Reachable demoUngrabbed :=
    ⟨demoActivity, true,
      [Op.call (Call.setProp CV_CAP_PROP_AUTOGRAB 1),
        Op.call (Call.deliver (some [1, 2, 3, 4, 5, 6]) 6)], rfl⟩
  exact ⟨hreach, (reachable_rawFramesOk demoUngrabbed hreach).1, rfl, rfl⟩

end CapAndroid

namespace CapAndroid

/-! ## retrieveFrame with an unknown pixel format -/

/-- A format string other than the two supported ones resolves to `yuvUnknown`. -/
theorem resolveFrameFormat_unknown (c : CvCapture_Android) (a : CameraActivity)
    (hfmt : c.m_frameFormat = YUVformat.noformat) (hact : c.m_activity = some a)
    (h1 : a.previewFormat ≠ "yuv420sp") (h2 : a.previewFormat ≠ "yuv420i") :
    resolveFrameFormat c = some { c with m_frameFormat := YUVformat.yuvUnknown } := by
  unfold resolveFrameFormat getProperty
  simp only [hfmt, if_true, hact]
  rw [if_neg h1, if_neg h2]

/-- After the format resolution `retrieveFrame` goes on as it would from the resolved
state. -/
theorem retrieveFrame_resolve (c c0 : CvCapture_Android) (outputType : OutputType)
    (hcur : c.m_frameYUV420 ≠ none) (hres : resolveFrameFormat c = some c0) :
    retrieveFrame c outputType = retrieveFrame c0 outputType := by
  obtain ⟨hfmt, heq⟩ := resolveFrameFormat_spec c c0 hres
  cases hc : c.m_frameYUV420 with
  | none => exact absurd hc hcur
  | some cur =>
    have hc0 : c0.m_frameYUV420 = some cur := by
      rw [heq]
      exact hc
    unfold retrieveFrame
    simp only [hc, hc0, hres, resolveFrameFormat_resolved c0 hfmt]

/-- With the format tagged unknown and both caches invalid, `retrieveFrame` returns none
for each supported kind, leaves the format unknown and both caches invalid, and never fails
to return or throw. -/
theorem retrieveFrame_formatUnknown (c : CvCapture_Android) (outputType : OutputType)
    (hc : FormatUnknown c) :
    ∃ post, (retrieveFrame c outputType).post? = some post ∧ FormatUnknown post ∧
      (outputType.isSupported = true → retrieveFrame c outputType = Outcome.ok none post) := by
  obtain ⟨hf, hg, hcol⟩ := hc
  have hne : c.m_frameFormat ≠ YUVformat.noformat := by
    rw [hf]
    decide
  have hk : c.m_frameFormat ≠ YUVformat.yuv420sp ∧ c.m_frameFormat ≠ YUVformat.yuv420i := by
    rw [hf]
    exact ⟨by decide, by decide⟩
  cases hcur : c.m_frameYUV420 with
  | none =>
    refine ⟨c, ?_, ⟨hf, hg, hcol⟩, fun _ => ?_⟩
    · simp [retrieveFrame, hcur, Outcome.post?]
    · simp [retrieveFrame, hcur]
  | some cur =>
    have hcolor : ∀ (rgb alpha : Bool),
        ∃ post, retrieveColor c (some cur) rgb alpha = Outcome.ok none post ∧
          FormatUnknown post := by
      intro rgb alpha
      simp only [retrieveColor, hcol, Bool.not_false, if_true, convertYUV2BGR]
      rw [if_pos hk]
      exact ⟨_, rfl, hf, hg, rfl⟩
    unfold retrieveFrame
    simp only [hcur, resolveFrameFormat_resolved c hne]
    cases outputType with
    | CV_CAP_ANDROID_GREY_FRAME =>
      simp only [hg, Bool.not_false, if_true, convertYUV2Grey]
      rw [if_pos hk]
      exact ⟨_, rfl, ⟨hf, rfl, hcol⟩, fun _ => rfl⟩
    | CV_CAP_ANDROID_COLOR_FRAME_BGR =>
      obtain ⟨post, h1, h2⟩ := hcolor false false
      exact ⟨post, by simp only [h1, Outcome.post?], h2, fun _ => h1⟩
    | CV_CAP_ANDROID_COLOR_FRAME_RGB =>
      obtain ⟨post, h1, h2⟩ := hcolor true false
      exact ⟨post, by simp only [h1, Outcome.post?], h2, fun _ => h1⟩
    | CV_CAP_ANDROID_COLOR_FRAME_BGRA =>
      obtain ⟨post, h1, h2⟩ := hcolor false true
      exact ⟨post, by simp only [h1, Outcome.post?], h2, fun _ => h1⟩
    | CV_CAP_ANDROID_COLOR_FRAME_RGBA =>
      obtain ⟨post, h1, h2⟩ := hcolor true true
      exact ⟨post, by simp only [h1, Outcome.post?], h2, fun _ => h1⟩
    | unsupported v =>
      refine ⟨c, rfl, ⟨hf, hg, hcol⟩, fun hs => ?_⟩
      simp [OutputType.isSupported] at hs

end CapAndroid

namespace CapAndroid

/-- C14: let `c` be a reachable state with a non-null current buffer and an unresolved
format whose collaborator reports a preview-format string other than `yuv420sp` and
`yuv420i`.  The first `retrieveFrame` (of any kind) returns or throws and tags the format
`yuvUnknown`.  From then on, after any sequence of deliveries, grabs, property calls and
retrievals, the format is still `yuvUnknown`, a `retrieveFrame` no longer reaches the query
of the format string, and for each of the five supported output kinds `retrieveFrame`
returns none, raising nothing and leaving both cache bits false, whatever string the
collaborator would report by then. -/
theorem retrieveFrame_unknown_forever (c : CvCapture_Android) (a : CameraActivity)
    (first : OutputType) (hreach : Reachable c) (hcur : c.m_frameYUV420 ≠ none)
    (hfmt : c.m_frameFormat = YUVformat.noformat) (hact : c.m_activity = some a)
    (h1 : a.previewFormat ≠ "yuv420sp") (h2 : a.previewFormat ≠ "yuv420i") :
    ∃ c1, (retrieveFrame c first).post? = some c1 ∧
      c1.m_frameFormat = YUVformat.yuvUnknown ∧
      ∀ ops c2, runOps c1 ops = some c2 →
        c2.m_frameFormat = YUVformat.yuvUnknown ∧
        ∀ name, queriesPreviewFormat (withPreviewFormat c2 name) = false ∧
          ∀ outputType, outputType.isSupported = true →
            ∃ post, retrieveFrame (withPreviewFormat c2 name) outputType
                = Outcome.ok none post ∧
              post.m_hasGray = false ∧ post.m_hasColor = false ∧
              post.m_frameFormat = YUVformat.yuvUnknown := by
  obtain ⟨hinv, hck⟩ := hreach.invariant
  have hbits : c.m_hasGray = false ∧ c.m_hasColor = false := by
    constructor
    · cases hb : c.m_hasGray with
      | false => rfl
      | true =>
        have hk := hck (Or.inl hb)
        rw [hfmt] at hk
        rcases hk with hk | hk <;> cases hk
    · cases hb : c.m_hasColor with
      | false => rfl
      | true =>
        have hk := hck (Or.inr hb)
        rw [hfmt] at hk
        rcases hk with hk | hk <;> cases hk
  have hres := resolveFrameFormat_unknown c a hfmt hact h1 h2
  have hfu0 : FormatUnknown { c with m_frameFormat := YUVformat.yuvUnknown } :=
    ⟨rfl, hbits.1, hbits.2⟩
  obtain ⟨c1, hp, hfu1, -⟩ := retrieveFrame_formatUnknown _ first hfu0
  rw [← retrieveFrame_resolve c _ first hcur hres] at hp
  have hinv1 : RawFramesOk c1 := by
    have hshape := retrieveFrame_shape c c1 first hp
    have hbuf : bufView c1 = bufView c := by
      have := congrArg bufView hshape
      exact this
    exact RawFramesOk_of_bufView c c1 hbuf hinv
  refine ⟨c1, hp, hfu1.1, ?_⟩
  intro ops c2 hrun
  obtain ⟨-, -, hkeep⟩ := runOps_invariant ops c1 c2 hinv1 hrun
  have hfu2 := hkeep hfu1
  refine ⟨hfu2.1, ?_⟩
  intro name
  have hfu3 : FormatUnknown (withPreviewFormat c2 name) :=
    FormatUnknown_of_cacheView c2 _ rfl hfu2
  constructor
  · have hf : (withPreviewFormat c2 name).m_frameFormat = YUVformat.yuvUnknown := hfu3.1
    simp [queriesPreviewFormat, hf]
  · intro outputType hsup
    obtain ⟨post, -, hpost, hret⟩ := retrieveFrame_formatUnknown _ outputType hfu3
    exact ⟨post, hret hsup, hpost.2.1, hpost.2.2, hpost.1⟩

/-- C14, witness: `oddGrabbed` is reachable, holds a frame, has not resolved its format, and
its collaborator reports `yuv422i-yuyv`.  After a first grey retrieval, a delivery and a
grab, the colour retrieval returns none even if the collaborator by then reports
`yuv420sp`. -/
theorem retrieveFrame_unknown_forever_witness :
    Reachable oddGrabbed ∧
    ∃ c1 c2 post,
      (retrieveFrame oddGrabbed CV_CAP_ANDROID_GREY_FRAME).post? = some c1 ∧
      runOps c1 [Op.call (Call.deliver (some [9, 8, 7, 6, 5, 4, 3, 2, 1]) 9), Op.grab []]
        = some c2 ∧
      c2.m_framesGrabbed = 2 ∧
      retrieveFrame (withPreviewFormat c2 "yuv420sp") CV_CAP_ANDROID_COLOR_FRAME_BGR
        = Outcome.ok none post ∧
      post.m_hasColor = false := by
  have hreach : Reachable oddGrabbed :=
    ⟨oddActivity, true,
      [Op.call (Call.setProp CV_CAP_PROP_AUTOGRAB 1),
        Op.call (Call.deliver (some [1, 2, 3, 4, 5, 6, 7, 8, 9]) 9), Op.grab []], rfl⟩
  refine ⟨hreach, ?_⟩
  obtain ⟨c1, hc1, -, hrest⟩ := retrieveFrame_unknown_forever oddGrabbed
    { oddActivity with m_framesReceived := 1 } CV_CAP_ANDROID_GREY_FRAME hreach (by decide)
    rfl rfl (by decide) (by decide)
  have hc1' : c1 = { oddGrabbed with
      m_frameFormat := YUVformat.yuvUnknown, convertCalls := 1 } := by
    have : (retrieveFrame oddGrabbed CV_CAP_ANDROID_GREY_FRAME).post? =
        some { oddGrabbed with m_frameFormat := YUVformat.yuvUnknown, convertCalls := 1 } := rfl
    rw [this] at hc1
    injection hc1 with hc1
    exact hc1.symm
  subst hc1'
  obtain ⟨-, hq⟩ := hrest
    [Op.call (Call.deliver (some [9, 8, 7, 6, 5, 4, 3, 2, 1]) 9), Op.grab []] _ rfl
  obtain ⟨post, hpost, -, hcol, -⟩ := (hq "yuv420sp").2 CV_CAP_ANDROID_COLOR_FRAME_BGR rfl
  exact ⟨_, _, post, rfl, rfl, rfl, hpost, hcol⟩

end CapAndroid
